import Mathlib

/-!
# A Lean model of the poxim RV32IM simulator

The definitions below follow `src/poxim.c` function by function.  The global
variables of the C program become the fields of `Machine`; every C function
that mutates them becomes a function from `Machine` to `Machine` (paired with
the returned value when the C function returns one).

Machine integers are natural numbers.  A `uint32_t` is a `Nat` below `2 ^ 32`
and every operation that can leave that range is reduced `% 2 ^ 32`; a signed
`int32_t` value is an `Int` obtained with `s32` and converted back with
`ofInt`.
-/

namespace Poxim

/-! ## Constants of the simulator -/

@[simp] def MEMORY_SIZE : Nat := 128 * 1024
@[simp] def NUM_REGISTERS : Nat := 32
@[simp] def PC_START_ADDRESS : Nat := 0x80000000
@[simp] def CLINT_BASE : Nat := 0x02000000
@[simp] def PLIC_BASE : Nat := 0x0C000000
@[simp] def UART_BASE : Nat := 0x10000000
@[simp] def UART_IRQ : Nat := 10

/-! ## Fixed-width arithmetic -/

/-- Sum of two `uint32_t` values. -/
def add32 (a b : Nat) : Nat := (a + b) % 2 ^ 32

/-- Difference of two `uint32_t` values, wrapping around below zero. -/
def sub32 (a b : Nat) : Nat := (a + 2 ^ 32 - b % 2 ^ 32) % 2 ^ 32

/-- Bitwise complement `~x` converted to `uint32_t`. -/
def not32 (x : Nat) : Nat := 2 ^ 32 - 1 - x % 2 ^ 32

/-- The value of a `uint32_t` reinterpreted as `int32_t`. -/
def s32 (x : Nat) : Int := if x < 2 ^ 31 then (x : Int) else (x : Int) - 2 ^ 32

/-- The value of a `uint8_t` reinterpreted as `int8_t`. -/
def s8 (x : Nat) : Int := if x < 2 ^ 7 then (x : Int) else (x : Int) - 2 ^ 8

/-- The value of a `uint16_t` reinterpreted as `int16_t`. -/
def s16 (x : Nat) : Int := if x < 2 ^ 15 then (x : Int) else (x : Int) - 2 ^ 16

/-- Conversion of a signed integer to `uint32_t` (two's complement). -/
def ofInt (i : Int) : Nat := (i % 2 ^ 32).toNat

/-- Conversion of a signed integer to `uint64_t` (two's complement). -/
def ofInt64 (i : Int) : Nat := (i % 2 ^ 64).toNat

/-! ## Machine state -/

/-- One line of the trace file.  The text that `sprintf` puts into the details
buffer of an instruction line is not modelled, only the fact that a line is
written and the pc it starts with. -/
inductive TraceLine where
  | instruction (pc : Nat)
  | trap (name : String) (cause epc tval : Nat)
  | fatal
  deriving DecidableEq, Repr

/-- The global variables of `poxim.c`, followed by the local variables of
`main` that live across iterations of the driver loop.  `details_buffer` only
records whether the C buffer holds a non-empty string.  A `FILE*` is `none`
when it is `NULL`; an input file is the list of bytes not yet consumed, an
output file the list of bytes written so far. -/
structure Machine where
  pc : Nat
  regs : Nat → Nat
  memory : Nat → Nat
  halt_flag : Bool
  trap_pending_print : Bool
  mstatus : Nat
  mie : Nat
  mtvec : Nat
  mepc : Nat
  mcause : Nat
  mtval : Nat
  mscratch : Nat
  mip : Nat
  misa : Nat
  mtime : Nat
  mtimecmp : Nat
  plic_pending : Nat
  plic_enable : Nat
  uart_ier : Nat
  uart_lsr : Nat
  uart_outfile : Option (List Nat)
  uart_infile : Option (List Nat)
  stdout : List Nat
  details_buffer : Bool
  last_trap_pc : Nat
  last_trap_cause : Nat
  outfile : List TraceLine

/-- The values the globals have when the program starts. -/
def power_on : Machine where
  pc := 0
  regs := fun _ => 0
  memory := fun _ => 0
  halt_flag := false
  trap_pending_print := false
  mstatus := 0x00001800
  mie := 0
  mtvec := 0
  mepc := 0
  mcause := 0
  mtval := 0
  mscratch := 0
  mip := 0
  misa := 0x40101101
  mtime := 0
  mtimecmp := 2 ^ 64 - 1
  plic_pending := 0
  plic_enable := 0
  uart_ier := 0
  uart_lsr := 1 <<< 5
  uart_outfile := none
  uart_infile := none
  stdout := []
  details_buffer := false
  last_trap_pc := 0xFFFFFFFF
  last_trap_cause := 0xFFFFFFFF
  outfile := []

/-! ## Auxiliary functions -/

def get_trap_name (cause : Nat) : String :=
  if cause &&& 0x80000000 ≠ 0 then
    if cause &&& 0x7FFFFFFF = 3 then "interrupt:software"
    else if cause &&& 0x7FFFFFFF = 7 then "interrupt:timer"
    else if cause &&& 0x7FFFFFFF = 11 then "interrupt:external"
    else "interrupt:unknown"
  else
    if cause = 1 then "exception:instruction_fault"
    else if cause = 2 then "exception:illegal_instruction"
    else if cause = 5 then "exception:load_fault"
    else if cause = 7 then "exception:store_fault"
    else if cause = 11 then "exception:environment_call"
    else "exception:unknown"

def read_csr (addr : Nat) (s : Machine) : Nat :=
  if addr = 0x300 then s.mstatus
  else if addr = 0x301 then s.misa
  else if addr = 0x304 then s.mie
  else if addr = 0x305 then s.mtvec
  else if addr = 0x340 then s.mscratch
  else if addr = 0x341 then s.mepc
  else if addr = 0x342 then s.mcause
  else if addr = 0x343 then s.mtval
  else if addr = 0x344 then s.mip
  else 0

def write_csr (addr value : Nat) (s : Machine) : Machine :=
  if addr = 0x300 then { s with mstatus := value }
  else if addr = 0x301 then { s with misa := value }
  else if addr = 0x304 then { s with mie := value }
  else if addr = 0x305 then { s with mtvec := value }
  else if addr = 0x340 then { s with mscratch := value }
  else if addr = 0x341 then { s with mepc := value }
  else if addr = 0x342 then { s with mcause := value }
  else if addr = 0x343 then { s with mtval := value }
  else if addr = 0x344 then { s with mip := value }
  else s

def trigger_trap (cause tval trap_pc : Nat) (s : Machine) : Machine :=
  let mstatus_val := s.mstatus
  let mstatus1 := s.mstatus &&& not32 (1 <<< 3)
  let mstatus2 := mstatus1 ||| ((((mstatus_val >>> 3) &&& 1) <<< 7) % 2 ^ 32)
  let s1 : Machine :=
    { s with trap_pending_print := true, mstatus := mstatus2,
             mepc := trap_pc, mcause := cause, mtval := tval }
  if s1.mtvec = 0 then { s1 with pc := add32 s1.mepc 4 }
  else { s1 with pc := s1.mtvec &&& not32 0x3 }

/-! ## Peripherals (MMIO) -/

/-- The call `fgetc` on a file that may be `NULL`: the byte read, or `none` at
the end of the file or without a file, and the file afterwards. -/
def fgetc (file : Option (List Nat)) : Option Nat × Option (List Nat) :=
  match file with
  | some (c :: rest) => (some c, some rest)
  | _ => (none, file)

def uart_read (address : Nat) (s : Machine) : Nat × Machine :=
  let offset := sub32 address UART_BASE
  if offset = 5 then
    let status := 1 <<< 5
    (if (fgetc s.uart_infile).1.isSome then status ||| 1 else status, s)
  else if offset = 0 then
    ((match (fgetc s.uart_infile).1 with
      | some c => c % 256
      | none => 0), { s with uart_infile := (fgetc s.uart_infile).2 })
  else if offset = 2 then (1, s)
  else (0, s)

/-- The transmit branch of `uart_write`: the byte goes to the terminal output
file, or to the standard output when there is no such file. -/
def uart_transmit (value : Nat) (s : Machine) : Machine :=
  match s.uart_outfile with
  | some out => { s with uart_outfile := some (out ++ [value % 256]) }
  | none => { s with stdout := s.stdout ++ [value % 256] }

def uart_write (address value size : Nat) (s : Machine) : Machine :=
  let offset := sub32 address UART_BASE
  if offset = 0 ∧ size = 1 then
    { uart_transmit value s with
      plic_pending := (uart_transmit value s).plic_pending ||| (1 <<< UART_IRQ) }
  else if offset = 1 ∧ size = 1 then { s with uart_ier := value % 256 }
  else s

def clint_read (address : Nat) (s : Machine) : Nat :=
  if address = CLINT_BASE + 0xBFF8 then s.mtime % 2 ^ 32
  else if address = CLINT_BASE + 0xBFFC then (s.mtime >>> 32) % 2 ^ 32
  else 0

def clint_write (address value : Nat) (s : Machine) : Machine :=
  let offset := sub32 address CLINT_BASE
  if offset = 0x4000 then
    { s with mtimecmp := (s.mtimecmp &&& 0xFFFFFFFF00000000) ||| value,
             mip := s.mip &&& not32 (1 <<< 7) }
  else if offset = 0x4004 then
    { s with mtimecmp := (s.mtimecmp &&& 0x00000000FFFFFFFF) ||| ((value <<< 32) % 2 ^ 64),
             mip := s.mip &&& not32 (1 <<< 7) }
  else if offset = 0 then
    if value &&& 1 ≠ 0 then { s with mip := s.mip ||| (1 <<< 3) }
    else { s with mip := s.mip &&& not32 (1 <<< 3) }
  else s

def plic_read (address : Nat) (s : Machine) : Nat :=
  if address = PLIC_BASE + 0x200004 then
    if (s.plic_pending &&& s.plic_enable) &&& (1 <<< UART_IRQ) ≠ 0 then UART_IRQ
    else 0
  else 0

def plic_write (address value : Nat) (s : Machine) : Machine :=
  if address ≥ PLIC_BASE + 0x2000 ∧ address < PLIC_BASE + 0x2080 then
    { s with plic_enable := value }
  else if address = PLIC_BASE + 0x200004 then
    if value = UART_IRQ then
      { s with plic_pending := s.plic_pending &&& not32 (1 <<< UART_IRQ) }
    else s
  else if address ≥ PLIC_BASE + 4 ∧ address < PLIC_BASE + 0x1000 then s
  else s

/-! ## Memory access -/

/-- Conversion of a returned `uint32_t` to the result type `uint8_t`. -/
def to_uint8 (r : Nat × Machine) : Nat × Machine := (r.1 % 256, r.2)

def memory_read_byte (address current_pc : Nat) (s : Machine) : Nat × Machine :=
  if address ≥ UART_BASE ∧ address < UART_BASE + 8 then to_uint8 (uart_read address s)
  else if address ≥ PC_START_ADDRESS ∧ sub32 address PC_START_ADDRESS < MEMORY_SIZE then
    (s.memory (sub32 address PC_START_ADDRESS), s)
  else (0, trigger_trap 5 address current_pc s)

def memory_read_halfword (address current_pc : Nat) (s : Machine) : Nat × Machine :=
  if address % 2 ≠ 0 then (0, trigger_trap 5 address current_pc s)
  else if address ≥ PC_START_ADDRESS ∧
      add32 (sub32 address PC_START_ADDRESS) 1 < MEMORY_SIZE then
    ((s.memory (sub32 address PC_START_ADDRESS) |||
      (s.memory (add32 (sub32 address PC_START_ADDRESS) 1) <<< 8)) % 2 ^ 16, s)
  else (0, trigger_trap 5 address current_pc s)

def memory_read_word (address current_pc : Nat) (s : Machine) : Nat × Machine :=
  if address % 4 ≠ 0 then (0, trigger_trap 5 address current_pc s)
  else if address ≥ CLINT_BASE ∧ address < CLINT_BASE + 0x10000 then
    (clint_read address s, s)
  else if address ≥ PLIC_BASE ∧ address < PLIC_BASE + 0x4000000 then
    (plic_read address s, s)
  else if address ≥ PC_START_ADDRESS ∧
      add32 (sub32 address PC_START_ADDRESS) 3 < MEMORY_SIZE then
    ((s.memory (add32 (sub32 address PC_START_ADDRESS) 0) <<< 0) % 2 ^ 32 |||
     (s.memory (add32 (sub32 address PC_START_ADDRESS) 1) <<< 8) % 2 ^ 32 |||
     (s.memory (add32 (sub32 address PC_START_ADDRESS) 2) <<< 16) % 2 ^ 32 |||
     (s.memory (add32 (sub32 address PC_START_ADDRESS) 3) <<< 24) % 2 ^ 32, s)
  else (0, trigger_trap 5 address current_pc s)

/-- The assignment `memory[index] = value` of a `uint8_t`. -/
def store_byte (index value : Nat) (s : Machine) : Machine :=
  { s with memory := fun i => if i = index then value % 256 else s.memory i }

def memory_write_byte (address value current_pc : Nat) (s : Machine) : Machine :=
  if address ≥ UART_BASE ∧ address < UART_BASE + 8 then uart_write address value 1 s
  else if address ≥ PC_START_ADDRESS ∧ sub32 address PC_START_ADDRESS < MEMORY_SIZE then
    store_byte (sub32 address PC_START_ADDRESS) value s
  else trigger_trap 7 address current_pc s

def memory_write_halfword (address value current_pc : Nat) (s : Machine) : Machine :=
  if address % 2 ≠ 0 then trigger_trap 7 address current_pc s
  else if address ≥ PC_START_ADDRESS ∧
      add32 (sub32 address PC_START_ADDRESS) 1 < MEMORY_SIZE then
    store_byte (add32 (sub32 address PC_START_ADDRESS) 1) ((value >>> 8) &&& 0xFF)
      (store_byte (add32 (sub32 address PC_START_ADDRESS) 0) (value &&& 0xFF) s)
  else trigger_trap 7 address current_pc s

def memory_write_word (address value current_pc : Nat) (s : Machine) : Machine :=
  if address % 4 ≠ 0 then trigger_trap 7 address current_pc s
  else if address ≥ CLINT_BASE ∧ address < CLINT_BASE + 0x10000 then
    clint_write address value s
  else if address ≥ PLIC_BASE ∧ address < PLIC_BASE + 0x4000000 then
    plic_write address value s
  else if address ≥ PC_START_ADDRESS ∧
      add32 (sub32 address PC_START_ADDRESS) 3 < MEMORY_SIZE then
    store_byte (add32 (sub32 address PC_START_ADDRESS) 3) ((value >>> 24) &&& 0xFF)
      (store_byte (add32 (sub32 address PC_START_ADDRESS) 2) ((value >>> 16) &&& 0xFF)
        (store_byte (add32 (sub32 address PC_START_ADDRESS) 1) ((value >>> 8) &&& 0xFF)
          (store_byte (add32 (sub32 address PC_START_ADDRESS) 0) (value &&& 0xFF) s)))
  else trigger_trap 7 address current_pc s

/-! ## Instruction fetch and field decoding -/

def fetch_instruction_from_pc (s : Machine) : Nat × Machine :=
  if s.pc < PC_START_ADDRESS ∨ add32 s.pc 3 ≥ PC_START_ADDRESS + MEMORY_SIZE ∨ s.pc % 4 ≠ 0 then
    (0, trigger_trap 1 s.pc s.pc s)
  else memory_read_word s.pc s.pc s

def get_opcode (i : Nat) : Nat := i &&& 0x7F
def get_rd (i : Nat) : Nat := (i >>> 7) &&& 0x1F
def get_rs1 (i : Nat) : Nat := (i >>> 15) &&& 0x1F
def get_rs2 (i : Nat) : Nat := (i >>> 20) &&& 0x1F
def get_funct3 (i : Nat) : Nat := (i >>> 12) &&& 0x7
def get_funct7 (i : Nat) : Nat := (i >>> 25) &&& 0x7F

def get_imm_I (instruction : Nat) : Int := s32 instruction >>> 20

def get_imm_S (instruction : Nat) : Int :=
  let imm := (((instruction >>> 25) <<< 5) % 2 ^ 32) ||| ((instruction >>> 7) &&& 0x1F)
  s32 ((imm <<< 20) % 2 ^ 32) >>> 20

def get_imm_B (instruction : Nat) : Int :=
  let imm := ((((instruction >>> 31) &&& 0x1) <<< 12) |||
              (((instruction >>> 7) &&& 0x1) <<< 11) |||
              (((instruction >>> 25) &&& 0x3F) <<< 5) |||
              (((instruction >>> 8) &&& 0xF) <<< 1))
  s32 ((imm <<< 19) % 2 ^ 32) >>> 19

def get_imm_U (instruction : Nat) : Int := s32 (instruction &&& 0xFFFFF000)

def get_imm_J (instruction : Nat) : Int :=
  let imm := ((((instruction >>> 31) &&& 0x1) <<< 20) |||
              (((instruction >>> 12) &&& 0xFF) <<< 12) |||
              (((instruction >>> 20) &&& 0x1) <<< 11) |||
              (((instruction >>> 21) &&& 0x3FF) <<< 1))
  s32 ((imm <<< 11) % 2 ^ 32) >>> 11

/-! ## Decode and execute -/

/-- The assignment `regs[rd] = value`. -/
def set_reg (rd value : Nat) (s : Machine) : Machine :=
  { s with regs := fun i => if i = rd then value else s.regs i }

/-- The statement `if (rd != 0) regs[rd] = value;`. -/
def write_rd (rd value : Nat) (s : Machine) : Machine :=
  if rd ≠ 0 then set_reg rd value s else s

/-- A call of `sprintf` on the details buffer.  Every format string of the
source starts with a mnemonic, so the buffer becomes non-empty. -/
def sprintf (s : Machine) : Machine := { s with details_buffer := true }

/-- The last statement of `decode_and_execute`, `regs[0] = 0;`. -/
def clear_x0 (s : Machine) : Machine := set_reg 0 0 s

/-- The C expression `(a < b) ? 1 : 0` on signed values. -/
def slt (a b : Int) : Nat := if a < b then 1 else 0

/-- The C expression `(a < b) ? 1 : 0` on unsigned values. -/
def sltu (a b : Nat) : Nat := if a < b then 1 else 0

/-- The value `div` writes to `rd`. -/
def div_result (original_rs1_val original_rs2_val : Nat) : Nat :=
  if original_rs2_val = 0 then ofInt (-1)
  else if original_rs1_val = 0x80000000 ∧ original_rs2_val = 0xFFFFFFFF then 0x80000000
  else ofInt (Int.tdiv (s32 original_rs1_val) (s32 original_rs2_val))

/-- The value `divu` writes to `rd`. -/
def divu_result (original_rs1_val original_rs2_val : Nat) : Nat :=
  if original_rs2_val = 0 then 0xFFFFFFFF else original_rs1_val / original_rs2_val

/-- The value `rem` writes to `rd`. -/
def rem_result (original_rs1_val original_rs2_val : Nat) : Nat :=
  if original_rs2_val = 0 then original_rs1_val
  else if original_rs1_val = 0x80000000 ∧ original_rs2_val = 0xFFFFFFFF then 0
  else ofInt (Int.tmod (s32 original_rs1_val) (s32 original_rs2_val))

/-- The value `remu` writes to `rd`. -/
def remu_result (original_rs1_val original_rs2_val : Nat) : Nat :=
  if original_rs2_val = 0 then original_rs1_val else original_rs1_val % original_rs2_val

/-- The `case 0x63` block of `decode_and_execute`. -/
def exec_branch (instruction current_pc : Nat) (s : Machine) : Machine :=
  let funct3 := get_funct3 instruction
  let original_rs1_val := s.regs (get_rs1 instruction)
  let original_rs2_val := s.regs (get_rs2 instruction)
  let imm_b_sext := get_imm_B instruction
  let finish (taken : Bool) : Machine :=
    clear_x0 (sprintf (if taken then { s with pc := add32 current_pc (ofInt imm_b_sext) } else s))
  if funct3 = 0x0 then finish (decide (original_rs1_val = original_rs2_val))
  else if funct3 = 0x1 then finish (decide (original_rs1_val ≠ original_rs2_val))
  else if funct3 = 0x4 then finish (decide (s32 original_rs1_val < s32 original_rs2_val))
  else if funct3 = 0x5 then finish (decide (s32 original_rs1_val ≥ s32 original_rs2_val))
  else if funct3 = 0x6 then finish (decide (original_rs1_val < original_rs2_val))
  else if funct3 = 0x7 then finish (decide (original_rs1_val ≥ original_rs2_val))
  else trigger_trap 2 instruction current_pc s

/-- The `case 0x03` block of `decode_and_execute`.  When `rd` is 0 the guarded
statement is skipped as a whole, so the memory helper is not called. -/
def exec_load (instruction current_pc : Nat) (s : Machine) : Machine :=
  let rd := get_rd instruction
  let funct3 := get_funct3 instruction
  let effective_address := add32 (s.regs (get_rs1 instruction)) (ofInt (get_imm_I instruction))
  let finish (s1 : Machine) : Machine :=
    clear_x0 (if s1.trap_pending_print then s1 else sprintf s1)
  if funct3 = 0x0 then
    finish (if rd ≠ 0 then
      set_reg rd (ofInt (s8 (memory_read_byte effective_address current_pc s).1))
        (memory_read_byte effective_address current_pc s).2 else s)
  else if funct3 = 0x1 then
    finish (if rd ≠ 0 then
      set_reg rd (ofInt (s16 (memory_read_halfword effective_address current_pc s).1))
        (memory_read_halfword effective_address current_pc s).2 else s)
  else if funct3 = 0x2 then
    finish (if rd ≠ 0 then
      set_reg rd (memory_read_word effective_address current_pc s).1
        (memory_read_word effective_address current_pc s).2 else s)
  else if funct3 = 0x4 then
    finish (if rd ≠ 0 then
      set_reg rd (memory_read_byte effective_address current_pc s).1
        (memory_read_byte effective_address current_pc s).2 else s)
  else if funct3 = 0x5 then
    finish (if rd ≠ 0 then
      set_reg rd (memory_read_halfword effective_address current_pc s).1
        (memory_read_halfword effective_address current_pc s).2 else s)
  else trigger_trap 2 instruction current_pc s

/-- The `case 0x23` block of `decode_and_execute`. -/
def exec_store (instruction current_pc : Nat) (s : Machine) : Machine :=
  let funct3 := get_funct3 instruction
  let original_rs2_val := s.regs (get_rs2 instruction)
  let effective_address := add32 (s.regs (get_rs1 instruction)) (ofInt (get_imm_S instruction))
  let finish (s1 : Machine) : Machine :=
    clear_x0 (if s1.trap_pending_print then s1 else sprintf s1)
  if funct3 = 0x0 then
    finish (memory_write_byte effective_address (original_rs2_val % 2 ^ 8) current_pc s)
  else if funct3 = 0x1 then
    finish (memory_write_halfword effective_address (original_rs2_val % 2 ^ 16) current_pc s)
  else if funct3 = 0x2 then
    finish (memory_write_word effective_address original_rs2_val current_pc s)
  else trigger_trap 2 instruction current_pc s

/-- The `case 0x13` block of `decode_and_execute`.  `imm_i_sext & 0x1F` is taken
on the two's complement representation of the immediate. -/
def exec_op_imm (instruction current_pc : Nat) (s : Machine) : Machine :=
  let rd := get_rd instruction
  let funct3 := get_funct3 instruction
  let original_rs1_val := s.regs (get_rs1 instruction)
  let imm_i_sext := get_imm_I instruction
  let finish (result_val : Nat) : Machine := clear_x0 (sprintf (write_rd rd result_val s))
  if funct3 = 0x0 then finish (add32 original_rs1_val (ofInt imm_i_sext))
  else if funct3 = 0x1 then
    finish ((original_rs1_val <<< (ofInt imm_i_sext &&& 0x1F)) % 2 ^ 32)
  else if funct3 = 0x2 then finish (slt (s32 original_rs1_val) imm_i_sext)
  else if funct3 = 0x3 then finish (sltu original_rs1_val (ofInt imm_i_sext))
  else if funct3 = 0x4 then finish (original_rs1_val ^^^ ofInt imm_i_sext)
  else if funct3 = 0x5 then
    if instruction >>> 30 = 0x00 then
      finish (original_rs1_val >>> (ofInt imm_i_sext &&& 0x1F))
    else finish (ofInt (s32 original_rs1_val >>> (ofInt imm_i_sext &&& 0x1F)))
  else if funct3 = 0x6 then finish (original_rs1_val ||| ofInt imm_i_sext)
  else if funct3 = 0x7 then finish (original_rs1_val &&& ofInt imm_i_sext)
  else trigger_trap 2 instruction current_pc s

/-- The `case 0x33` block of `decode_and_execute`.  In `mulhsu` the product of
an `int64_t` and a `uint64_t` is computed in `uint64_t`. -/
def exec_op (instruction current_pc : Nat) (s : Machine) : Machine :=
  let rd := get_rd instruction
  let funct3 := get_funct3 instruction
  let funct7 := get_funct7 instruction
  let original_rs1_val := s.regs (get_rs1 instruction)
  let original_rs2_val := s.regs (get_rs2 instruction)
  let finish (result_val : Nat) : Machine := clear_x0 (sprintf (write_rd rd result_val s))
  if funct7 = 0x01 then
    if funct3 = 0x0 then finish (ofInt (s32 original_rs1_val * s32 original_rs2_val))
    else if funct3 = 0x1 then
      finish (ofInt ((s32 original_rs1_val * s32 original_rs2_val) >>> 32))
    else if funct3 = 0x2 then
      finish ((((ofInt64 (s32 original_rs1_val) * original_rs2_val) % 2 ^ 64) >>> 32) % 2 ^ 32)
    else if funct3 = 0x3 then
      finish (((original_rs1_val * original_rs2_val) >>> 32) % 2 ^ 32)
    else if funct3 = 0x4 then
      finish (div_result original_rs1_val original_rs2_val)
    else if funct3 = 0x5 then finish (divu_result original_rs1_val original_rs2_val)
    else if funct3 = 0x6 then finish (rem_result original_rs1_val original_rs2_val)
    else if funct3 = 0x7 then finish (remu_result original_rs1_val original_rs2_val)
    else trigger_trap 2 instruction current_pc s
  else
    let shamt := original_rs2_val &&& 0x1F
    if funct3 = 0x0 then
      if funct7 = 0x20 then finish (sub32 original_rs1_val original_rs2_val)
      else finish (add32 original_rs1_val original_rs2_val)
    else if funct3 = 0x1 then finish ((original_rs1_val <<< shamt) % 2 ^ 32)
    else if funct3 = 0x2 then finish (slt (s32 original_rs1_val) (s32 original_rs2_val))
    else if funct3 = 0x3 then finish (sltu original_rs1_val original_rs2_val)
    else if funct3 = 0x4 then finish (original_rs1_val ^^^ original_rs2_val)
    else if funct3 = 0x5 then
      if funct7 = 0x20 then finish (ofInt (s32 original_rs1_val >>> shamt))
      else finish (original_rs1_val >>> shamt)
    else if funct3 = 0x6 then finish (original_rs1_val ||| original_rs2_val)
    else if funct3 = 0x7 then finish (original_rs1_val &&& original_rs2_val)
    else trigger_trap 2 instruction current_pc s

/-- The `case 0x73` block of `decode_and_execute`. -/
def exec_system (instruction current_pc : Nat) (s : Machine) : Machine :=
  let rd := get_rd instruction
  let rs1 := get_rs1 instruction
  let funct3 := get_funct3 instruction
  let original_rs1_val := s.regs rs1
  let imm_i_sext := get_imm_I instruction
  let csr_addr := ofInt imm_i_sext &&& 0xFFF
  let uimm := rs1
  let temp := read_csr csr_addr s
  if funct3 = 0x0 then
    if imm_i_sext = 0x0 then clear_x0 (trigger_trap 11 0 current_pc (sprintf s))
    else if imm_i_sext = 0x1 then
      clear_x0 { sprintf s with halt_flag := true, mcause := 3, mepc := current_pc }
    else if imm_i_sext = 0x302 then
      let prev_mstatus := s.mstatus
      clear_x0 (sprintf
        { s with pc := s.mepc,
                 mstatus := (s.mstatus &&& not32 (1 <<< 7)) |||
                   ((((prev_mstatus >>> 3) &&& 1) <<< 3) % 2 ^ 32) })
    else clear_x0 (trigger_trap 2 instruction current_pc s)
  else if funct3 = 0x1 then
    clear_x0 (sprintf (write_csr csr_addr original_rs1_val (write_rd rd temp s)))
  else if funct3 = 0x2 then
    clear_x0 (sprintf (if rs1 ≠ 0 then
      write_csr csr_addr (temp ||| original_rs1_val) (write_rd rd temp s)
      else write_rd rd temp s))
  else if funct3 = 0x3 then
    clear_x0 (sprintf (if rs1 ≠ 0 then
      write_csr csr_addr (temp &&& not32 original_rs1_val) (write_rd rd temp s)
      else write_rd rd temp s))
  else if funct3 = 0x5 then
    clear_x0 (sprintf (write_csr csr_addr uimm (write_rd rd temp s)))
  else if funct3 = 0x6 then
    clear_x0 (sprintf (if uimm ≠ 0 then
      write_csr csr_addr (temp ||| uimm) (write_rd rd temp s)
      else write_rd rd temp s))
  else if funct3 = 0x7 then
    clear_x0 (sprintf (if uimm ≠ 0 then
      write_csr csr_addr (temp &&& not32 uimm) (write_rd rd temp s)
      else write_rd rd temp s))
  else trigger_trap 2 instruction current_pc s

def decode_and_execute (instruction current_pc : Nat) (s : Machine) : Machine :=
  let opcode := get_opcode instruction
  let rd := get_rd instruction
  let imm_i_sext := get_imm_I instruction
  let imm_u_sext := get_imm_U instruction
  let imm_j_sext := get_imm_J instruction
  let original_rs1_val := s.regs (get_rs1 instruction)
  if opcode = 0x37 then clear_x0 (sprintf (write_rd rd (ofInt imm_u_sext) s))
  else if opcode = 0x17 then
    clear_x0 (sprintf (write_rd rd (add32 current_pc (ofInt imm_u_sext)) s))
  else if opcode = 0x6F then
    clear_x0 (sprintf
      { write_rd rd (add32 current_pc 4) s with pc := add32 current_pc (ofInt imm_j_sext) })
  else if opcode = 0x67 then
    let target_pc := add32 original_rs1_val (ofInt imm_i_sext) &&& not32 1
    clear_x0 (sprintf { write_rd rd (add32 current_pc 4) s with pc := target_pc })
  else if opcode = 0x63 then exec_branch instruction current_pc s
  else if opcode = 0x03 then exec_load instruction current_pc s
  else if opcode = 0x23 then exec_store instruction current_pc s
  else if opcode = 0x13 then exec_op_imm instruction current_pc s
  else if opcode = 0x33 then exec_op instruction current_pc s
  else if opcode = 0x73 then exec_system instruction current_pc s
  else if opcode = 0x0F then
    if get_funct3 instruction = 0x0 then clear_x0 (sprintf s)
    else if get_funct3 instruction = 0x1 then clear_x0 (sprintf s)
    else clear_x0 s
  else clear_x0 (trigger_trap 2 instruction current_pc s)

/-! ## Loading the hex image

A C string is a list of characters; its end, or a NUL character in it, is the
terminator.  `strtoul` is the C library function for base 16, with a 64-bit
`unsigned long`. -/

/-- Value of a hexadecimal digit character, `none` for any other character. -/
def hex_digit (c : Char) : Option Nat :=
  if 48 ≤ c.toNat ∧ c.toNat ≤ 57 then some (c.toNat - 48)
  else if 97 ≤ c.toNat ∧ c.toNat ≤ 102 then some (c.toNat - 87)
  else if 65 ≤ c.toNat ∧ c.toNat ≤ 70 then some (c.toNat - 55)
  else none

/-- The longest run of hexadecimal digits at the head of the text, accumulated
onto `acc`, and the text after it. -/
def hex_digits : List Char → Nat → Nat × List Char
  | [], acc => (acc, [])
  | c :: cs, acc =>
    match hex_digit c with
    | some d => hex_digits cs (acc * 16 + d)
    | none => (acc, c :: cs)

/-- The white space `strtoul` skips (`isspace` in the C locale). -/
def skip_isspace : List Char → List Char
  | [] => []
  | c :: cs =>
    if c.toNat = 32 ∨ (9 ≤ c.toNat ∧ c.toNat ≤ 13) then skip_isspace cs else c :: cs

/-- The call `strtoul(nptr, &endptr, 16)`: the converted value and `endptr`.
Without a digit nothing is converted and `endptr` is `nptr`. -/
def strtoul (nptr : List Char) : Nat × List Char :=
  let p0 := skip_isspace nptr
  let negative := decide ((p0.headD (Char.ofNat 0)).toNat = 45)
  let p1 := if (p0.headD (Char.ofNat 0)).toNat = 45 ∨ (p0.headD (Char.ofNat 0)).toNat = 43
    then p0.tail else p0
  let p2 := if (p1.headD (Char.ofNat 0)).toNat = 48 ∧
      ((p1.tail.headD (Char.ofNat 0)).toNat = 120 ∨ (p1.tail.headD (Char.ofNat 0)).toNat = 88) ∧
      (hex_digit (p1.tail.tail.headD (Char.ofNat 0))).isSome
    then p1.tail.tail else p1
  if (hex_digit (p2.headD (Char.ofNat 0))).isSome then
    let r := hex_digits p2 0
    (if r.1 > 2 ^ 64 - 1 then 2 ^ 64 - 1
      else if negative then (2 ^ 64 - r.1) % 2 ^ 64 else r.1, r.2)
  else (0, nptr)

/-- The inner loop of the loader, which skips blanks, newlines, carriage
returns and tabs. -/
def skip_blanks : List Char → List Char
  | [] => []
  | c :: cs =>
    if c.toNat = 32 ∨ c.toNat = 10 ∨ c.toNat = 13 ∨ c.toNat = 9 then skip_blanks cs
    else c :: cs

/-- The outer `while` loop of `load_program_from_hex_string` and the statement
after it, with the locals `p`, `address` and `has_address` as arguments.  The
result is `none` when `fuel` iterations do not reach the end of the text.  When
the text ends after the first character of a byte, `p += 2` is taken to reach
the end of the text. -/
def load_loop : Nat → List Char → Nat → Bool → Machine → Option Machine
  | 0, _, _, _, _ => none
  | fuel + 1, p, address, has_address, s =>
    match skip_blanks p with
    | [] => some (if has_address then s else { s with pc := PC_START_ADDRESS })
    | c :: rest =>
      if c.toNat = 0 then some (if has_address then s else { s with pc := PC_START_ADDRESS })
      else if c.toNat = 64 then
        load_loop fuel (strtoul rest).2 ((strtoul rest).1 % 2 ^ 32) true
          (if has_address then s else { s with pc := (strtoul rest).1 % 2 ^ 32 })
      else
        load_loop fuel rest.tail (add32 address 1) has_address
          (if address ≥ PC_START_ADDRESS ∧ sub32 address PC_START_ADDRESS < MEMORY_SIZE then
            store_byte (sub32 address PC_START_ADDRESS)
              ((strtoul [c, rest.headD (Char.ofNat 0)]).1 % 2 ^ 8) s
          else s)

/-- The function `load_program_from_hex_string`.  Every iteration of its loop
consumes a character, so one iteration per character and one more reach the
end of the text (`load_loop_isSome`). -/
def load_program_from_hex_string (hex_string : List Char) (s : Machine) : Machine :=
  (load_loop (hex_string.length + 1) hex_string 0 false s).getD s

/-! ## The driver loop of `main` -/

/-- The state in which `main` enters its loop: `program_hex_string` is the
content of the hex image, `term_in` the content of the terminal input file. -/
def main_init (program_hex_string : List Char) (term_in : List Nat) : Machine :=
  load_program_from_hex_string program_hex_string
    (set_reg 2 (PC_START_ADDRESS + MEMORY_SIZE)
      { power_on with uart_infile := some term_in, uart_outfile := some [],
                      regs := fun _ => 0, memory := fun _ => 0 })

/-- The timer tick and the refresh of the `mip` bits of CLINT and PLIC. -/
def timer_tick (s : Machine) : Machine :=
  let s1 : Machine := { s with mtime := (s.mtime + 1) % 2 ^ 64 }
  let s2 : Machine :=
    if s1.mtimecmp ≠ 2 ^ 64 - 1 ∧ s1.mtime ≥ s1.mtimecmp then
      { s1 with mip := s1.mip ||| (1 <<< 7) } else s1
  if (s2.plic_pending &&& s2.plic_enable) &&& (1 <<< UART_IRQ) ≠ 0 then
    { s2 with mip := s2.mip ||| (1 <<< 11) } else s2

/-- The cause chosen by the interrupt check from `mip & mie`. -/
def select_trap_cause (pending_and_enabled : Nat) : Nat :=
  if pending_and_enabled &&& (1 <<< 11) ≠ 0 then 0x8000000B
  else if pending_and_enabled &&& (1 <<< 3) ≠ 0 then 0x80000003
  else if pending_and_enabled &&& (1 <<< 7) ≠ 0 then 0x80000007
  else 0

/-- The interrupt check of the loop. -/
def interrupt_check (current_instruction_pc : Nat) (s : Machine) : Machine :=
  let pending_and_enabled := s.mip &&& s.mie
  if s.mstatus &&& (1 <<< 3) ≠ 0 ∧ pending_and_enabled ≠ 0 then
    if select_trap_cause pending_and_enabled ≠ 0 then
      trigger_trap (select_trap_cause pending_and_enabled) 0 current_instruction_pc s
    else s
  else s

/-- Fetch and, when no trap is pending, execution of the instruction. -/
def fetch_and_execute (current_instruction_pc : Nat) (s : Machine) : Machine :=
  if (fetch_instruction_from_pc s).2.trap_pending_print then (fetch_instruction_from_pc s).2
  else
    decode_and_execute (fetch_instruction_from_pc s).1 current_instruction_pc
      { (fetch_instruction_from_pc s).2 with details_buffer := false }

/-- The post-execution logic of the loop. -/
def post_execution (current_instruction_pc : Nat) (s : Machine) : Machine :=
  if s.trap_pending_print then
    let s1 : Machine :=
      if s.mepc = s.last_trap_pc ∧ s.mcause = s.last_trap_cause then
        { s with outfile := s.outfile ++ [TraceLine.fatal], halt_flag := true }
      else
        let s2 : Machine :=
          { s with last_trap_pc := s.mepc, last_trap_cause := s.mcause,
                   outfile := s.outfile ++
                     [TraceLine.trap (get_trap_name s.mcause) s.mcause s.mepc s.mtval] }
        if s2.mtvec = 0 then { s2 with pc := add32 s2.mepc 4 } else s2
    { s1 with trap_pending_print := false }
  else
    let s1 : Machine :=
      if s.details_buffer then
        { s with outfile := s.outfile ++ [TraceLine.instruction current_instruction_pc] }
      else s
    if s1.pc = current_instruction_pc then { s1 with pc := add32 s1.pc 4 } else s1

/-- The state of one iteration of the loop just before its post-execution
logic: timer tick, interrupt check, fetch and execute. -/
def before_post_execution (s : Machine) : Machine :=
  fetch_and_execute s.pc (interrupt_check s.pc (timer_tick s))

/-- One iteration of the `while (!halt_flag)` loop of `main`. -/
def loop_iteration (s : Machine) : Machine :=
  post_execution s.pc (before_post_execution s)

/-- The loop of `main`, cut off after `n` iterations. -/
def run : Nat → Machine → Machine
  | 0, s => s
  | n + 1, s => if s.halt_flag then s else run n (loop_iteration s)

/-! ## Vocabulary of the statements -/

/-- The trap registers and the pc of `r` are the ones `trigger_trap c t p` leaves
when it is called in a state whose `mtvec` is that of `s`, and RAM is as in `s`. -/
def TrapAt (p : Nat) (s r : Machine) (c t : Nat) : Prop :=
  r.trap_pending_print = true ∧ r.mepc = p ∧ r.mcause = c ∧ r.mtval = t ∧ r.mtvec = s.mtvec ∧
  r.pc = (if s.mtvec = 0 then add32 p 4 else s.mtvec &&& not32 0x3) ∧ r.memory = s.memory

/-- An illegal-instruction trap for the word `i`, delivered at `p`. -/
def IllegalTrap (i p : Nat) (s r : Machine) : Prop := TrapAt p s r 2 i

/-- Either `r` has the pending-trap flag of `s`, or `r` holds a synchronous
exception delivered at `p`: an instruction fault with value `p`, an illegal
instruction with value `i`, a load or store fault, or an environment call. -/
def Outcome (i p : Nat) (s r : Machine) : Prop :=
  r.trap_pending_print = s.trap_pending_print ∨ TrapAt p s r 1 p ∨ TrapAt p s r 2 i ∨
  (∃ a, TrapAt p s r 5 a) ∨ (∃ a, TrapAt p s r 7 a) ∨ TrapAt p s r 11 0

/-- Register `x0` holds zero. -/
def X0Zero (s : Machine) : Prop := s.regs 0 = 0

/-! ## Hex images used as concrete inputs -/

/-- The word 0x00002103, `lw x2,0(x0)`, at 0x80000000. -/
def image_faulting_load : List Char := "@80000000 03 21 00 00".toList

/-- The sequence `csrrsi x0,mstatus,8`, `ecall`, `mret`. -/
def image_mret : List Char := "@80000000 73 60 04 30 73 00 00 00 73 00 20 30".toList

/-- The sequence `csrrsi x0,mstatus,8`, `ecall`, `ecall`. -/
def image_two_ecalls : List Char := "@80000000 73 60 04 30 73 00 00 00 73 00 00 00".toList

/-- The word 0x0000200F, opcode MISC-MEM with funct3 = 2. -/
def image_reserved_fence : List Char := "@80000000 0f 20 00 00".toList

/-- The illegal word 0x00000000. -/
def image_illegal_word : List Char := "@80000000 00 00 00 00".toList

/-- The word 0x0000006F, `jal x0,0`, a jump to itself. -/
def image_jump_to_self : List Char := "@80000000 6f 00 00 00".toList

/-- The sequence `csrrwi x0,mtvec,16`, `csrrsi x0,mie,8`, `csrrsi x0,mip,8`,
`csrrsi x0,mstatus,8`: a software interrupt is pending and enabled, and the
handler address 16 lies outside RAM. -/
def image_interrupt_vector_outside_ram : List Char :=
  "@80000000 73 50 58 30 73 60 44 30 73 60 44 34 73 60 04 30".toList

/-- The bytes of `addi x1,x0,1` without an address token. -/
def image_without_address : List Char := "93 00 10 00".toList

/-- The sequence `csrrw x0,misa,x1`, `csrrw x1,misa,x0`: two `csrrw` on the same
CSR with the register indices swapped, the first with destination x0. -/
def image_csrrw_swap_x0 : List Char := "@80000000 73 90 10 30 f3 10 10 30".toList

/-- The registers of the devices, the files of the UART and `mip` are in `r`
what they are in `s`. -/
def DeviceStateEq (s r : Machine) : Prop :=
  r.mip = s.mip ∧ r.mtime = s.mtime ∧ r.mtimecmp = s.mtimecmp ∧
  r.plic_pending = s.plic_pending ∧ r.plic_enable = s.plic_enable ∧
  r.uart_ier = s.uart_ier ∧ r.uart_lsr = s.uart_lsr ∧ r.uart_infile = s.uart_infile ∧
  r.uart_outfile = s.uart_outfile ∧ r.stdout = s.stdout

/-- The state `r` holds a pending trap with cause `c`, value `a` and mepc `p`,
and its RAM, registers and device state are those of `s`. -/
def AccessFault (c a p : Nat) (s r : Machine) : Prop :=
  r.trap_pending_print = true ∧ r.mcause = c ∧ r.mtval = a ∧ r.mepc = p ∧
  r.memory = s.memory ∧ r.regs = s.regs ∧ DeviceStateEq s r

/-- The state of a run on an all-zero RAM with the power-on values of the
interrupt registers: no trap is pending, interrupts are disabled, mtvec is 0,
nothing is pending in `mip` or in the PLIC, mtimecmp is all-ones, and the last
recorded trap was not at the current pc. -/
def IdleOnZeroRam (s : Machine) : Prop :=
  s.halt_flag = false ∧ s.trap_pending_print = false ∧ s.mstatus = 0x1800 ∧ s.mtvec = 0 ∧
  s.mip = 0 ∧ s.mtimecmp = 2 ^ 64 - 1 ∧ s.plic_pending = 0 ∧ (∀ j, s.memory j = 0) ∧
  s.pc < 2 ^ 32 ∧ s.last_trap_pc ≠ s.pc

/-- No bit of `plic_pending` other than the bit of the UART interrupt is set. -/
def PlicPendingOk (s : Machine) : Prop :=
  s.plic_pending = 0 ∨ s.plic_pending = 1 <<< UART_IRQ

/-- The trace, the record of the last trap, `halt_flag` and `plic_pending` are
in `r` what they are in `s`. -/
def DriverFieldsEq (s r : Machine) : Prop :=
  r.outfile = s.outfile ∧ r.last_trap_pc = s.last_trap_pc ∧
  r.last_trap_cause = s.last_trap_cause ∧ r.halt_flag = s.halt_flag ∧
  r.plic_pending = s.plic_pending

/-- What the execution of an instruction in state `s` cannot do: it keeps
`PlicPendingOk`, it leaves the trace and the record of the last trap alone, and
it does not change both the pending-trap flag and `halt_flag`. -/
def InstrFrame (s r : Machine) : Prop :=
  (PlicPendingOk s → PlicPendingOk r) ∧ r.outfile = s.outfile ∧
  r.last_trap_pc = s.last_trap_pc ∧ r.last_trap_cause = s.last_trap_cause ∧
  (r.trap_pending_print = s.trap_pending_print ∨ r.halt_flag = s.halt_flag)

/-- The sequence `lui x1,0x10000`, `sb x0,0(x1)`, `lui x2,0x0C002`,
`addi x3,x0,1024`, `sw x3,0(x2)`: a byte is sent to the UART, which raises its
interrupt in the PLIC, and the interrupt is enabled in the PLIC. -/
def image_uart_interrupt : List Char :=
  "@80000000 b7 00 00 10 23 80 00 00 37 21 00 0c 93 01 00 40 23 20 31 00".toList

/-- The C conversion `%08x` of a `uint32_t`: eight lower-case hexadecimal
digits. -/
def hex8 (x : Nat) : String :=
  String.mk [Nat.digitChar (x / 16 ^ 7 % 16), Nat.digitChar (x / 16 ^ 6 % 16),
    Nat.digitChar (x / 16 ^ 5 % 16), Nat.digitChar (x / 16 ^ 4 % 16),
    Nat.digitChar (x / 16 ^ 3 % 16), Nat.digitChar (x / 16 ^ 2 % 16),
    Nat.digitChar (x / 16 % 16), Nat.digitChar (x % 16)]

/-- The text `fprintf` writes to the trace for a line, without the newline.
The details of an instruction line are not modelled, so its text stops after
the colon. -/
def TraceLine.text : TraceLine → String
  | TraceLine.instruction pc => "0x" ++ hex8 pc ++ ":"
  | TraceLine.trap name cause epc tval =>
    ">" ++ name ++ "                   cause=0x" ++ hex8 cause ++ ",epc=0x" ++ hex8 epc ++
      ",tval=0x" ++ hex8 tval
  | TraceLine.fatal => ">FATAL: Double fault detected. Halting simulation."

/-- The sequence `auipc x1,0`, `addi x1,x1,12`, `csrrw x0,mtvec,x1`, `ecall`:
the trap handler address is the address of the `ecall` itself. -/
def image_ecall_is_handler : List Char :=
  "@80000000 97 00 00 00 93 80 c0 00 73 90 50 30 73 00 00 00".toList

/-- The (mepc, mcause) a trap line shows, `none` for another line. -/
def trap_of_line : TraceLine → Option (Nat × Nat)
  | TraceLine.trap _ cause epc _ => some (epc, cause)
  | _ => none

/-- The (mepc, mcause) of the last trap line of a trace, `none` when the trace
has no trap line. -/
def previous_trap : List TraceLine → Option (Nat × Nat)
  | [] => none
  | line :: rest =>
    match previous_trap rest with
    | some x => some x
    | none => trap_of_line line

/-- The sequence `lui x1,0x80000` and the word 0x8010D093: opcode OP-IMM,
funct3 = 5, rd = rs1 = x1, shift amount 1, instruction bit 31 set and bit 30
clear. -/
def image_shift_bit31 : List Char := "@80000000 b7 00 00 80 93 d0 10 80".toList

/-- The counter `mtime` is in `r` what it is in `s`. -/
def MtimeKept (s r : Machine) : Prop := r.mtime = s.mtime

/-- The causes `trigger_trap` is called with anywhere in the program. -/
def IsTrapCause (c : Nat) : Prop :=
  c = 1 ∨ c = 2 ∨ c = 5 ∨ c = 7 ∨ c = 11 ∨ c = 0x80000003 ∨ c = 0x80000007 ∨ c = 0x8000000B

/-- An image that holds only the address token `@ffffffff`: the run starts
with pc = 0xFFFFFFFF. -/
def image_start_at_top : List Char := "@ffffffff".toList

/-- The field `w[hi:lo]` of a word, in the notation of the RISC-V manual: bits
`hi` down to `lo` of `w` as a number. -/
def field (w hi lo : Nat) : Nat := (w / 2 ^ lo) % 2 ^ (hi + 1 - lo)

/-- The sign extension `sext_n` of an `n`-bit field to an integer. -/
def sign_extend (n x : Nat) : Int := if x < 2 ^ (n - 1) then (x : Int) else (x : Int) - 2 ^ n

/-- The cells of the embedded memory function beyond the RAM buffer, which
stand for accesses past the end of the C array `memory[MEMORY_SIZE]`, hold in
`r` what they hold in `s`. -/
def OutsideRamKept (s r : Machine) : Prop := ∀ i, MEMORY_SIZE ≤ i → r.memory i = s.memory i

/-- The memory functions `m` and `n` agree on every index of the RAM buffer. -/
def RamAgree (m n : Nat → Nat) : Prop := ∀ i, i < MEMORY_SIZE → m i = n i

/-! ## Where the code departs from the specification: evaluations at concrete inputs -/

/-- C1, evaluated: in the state `main` enters its loop with for the image
`@80000000 03 21 00 00`, the fetched word is `lw x2,0(x0)`; executing it raises a
load fault (the pending-trap flag goes from clear to set, mcause is 5) and
register x2, which held 0x80020000, holds 0 afterwards: the faulting load
writes its destination register. -/
theorem C1_faulting_load_writes_rd :
    (fetch_instruction_from_pc (main_init image_faulting_load [])).1 = 0x00002103 ∧
    (main_init image_faulting_load []).trap_pending_print = false ∧
    (main_init image_faulting_load []).regs 2 = 0x80020000 ∧
    (decode_and_execute 0x00002103 0x80000000
      (main_init image_faulting_load [])).trap_pending_print = true ∧
    (decode_and_execute 0x00002103 0x80000000 (main_init image_faulting_load [])).mcause = 5 ∧
    (decode_and_execute 0x00002103 0x80000000 (main_init image_faulting_load [])).regs 2 = 0 := by
  decide

/-- C2, evaluated: after `csrrsi x0,mstatus,8` and a trapping `ecall` the machine
is not halted, the next word is `mret` and MPIE (bit 7 of mstatus) is 1; after
`decode_and_execute` runs that `mret`, pc equals mepc and MPIE is 0, but MIE
(bit 3) is 0 and not the former MPIE. -/
theorem C2_mret_does_not_restore_mie :
    (run 2 (main_init image_mret [])).halt_flag = false ∧
    (fetch_instruction_from_pc (run 2 (main_init image_mret []))).1 = 0x30200073 ∧
    (run 2 (main_init image_mret [])).mstatus.testBit 7 = true ∧
    (decode_and_execute 0x30200073 (run 2 (main_init image_mret [])).pc
      (run 2 (main_init image_mret []))).mstatus.testBit 3 = false ∧
    (decode_and_execute 0x30200073 (run 2 (main_init image_mret [])).pc
      (run 2 (main_init image_mret []))).mstatus.testBit 7 = false ∧
    (decode_and_execute 0x30200073 (run 2 (main_init image_mret [])).pc
      (run 2 (main_init image_mret []))).pc = (run 2 (main_init image_mret [])).mepc := by
  decide

/-- C3, evaluated: after `csrrsi x0,mstatus,8` and a trapping `ecall`, MIE (bit 3
of mstatus) is 0 and MPIE (bit 7) is 1; the call `trigger_trap(11, 0, pc)` made
by the second `ecall` leaves MIE 0 but MPIE 1, which is not the MIE value from
before the call, and so does the whole third iteration. -/
theorem C3_trap_keeps_stale_mpie :
    (run 2 (main_init image_two_ecalls [])).mstatus.testBit 3 = false ∧
    (run 2 (main_init image_two_ecalls [])).mstatus.testBit 7 = true ∧
    (trigger_trap 11 0 (run 2 (main_init image_two_ecalls [])).pc
      (run 2 (main_init image_two_ecalls []))).mstatus.testBit 3 = false ∧
    (trigger_trap 11 0 (run 2 (main_init image_two_ecalls [])).pc
      (run 2 (main_init image_two_ecalls []))).mstatus.testBit 7 = true ∧
    (run 3 (main_init image_two_ecalls [])).mcause = 11 ∧
    (run 3 (main_init image_two_ecalls [])).mstatus.testBit 7 = true := by
  decide

/-- C4, evaluated: the word 0x0000200F has opcode 0x0F (MISC-MEM) and funct3 2,
which is neither `fence` nor `fence.i`; `decode_and_execute` at pc 0x80000000
raises no trap for it (the pending-trap flag stays clear and mcause stays 0),
and the loop iteration writes no trace line and moves pc to 0x80000004. -/
theorem C4_reserved_misc_mem_does_not_trap :
    get_opcode 0x0000200F = 0x0F ∧ get_funct3 0x0000200F = 2 ∧
    (fetch_instruction_from_pc (main_init image_reserved_fence [])).1 = 0x0000200F ∧
    (decode_and_execute 0x0000200F 0x80000000
      (main_init image_reserved_fence [])).trap_pending_print = false ∧
    (decode_and_execute 0x0000200F 0x80000000 (main_init image_reserved_fence [])).mcause = 0 ∧
    (loop_iteration (main_init image_reserved_fence [])).mcause = 0 ∧
    (loop_iteration (main_init image_reserved_fence [])).outfile = [] ∧
    (loop_iteration (main_init image_reserved_fence [])).pc = 0x80000004 := by
  decide

/-- C6, evaluated: the word 0x0000006F at pc 0x80000000 is `jal x0,0`, whose
J-immediate is 0 and whose target is its own address; the iteration executes it
without a trap (one instruction line is written), `decode_and_execute` sets pc
to 0x80000000, and the pc at the end of the iteration is 0x80000004. -/
theorem C6_jump_to_self_advances_pc :
    (main_init image_jump_to_self []).pc = 0x80000000 ∧
    (fetch_instruction_from_pc (main_init image_jump_to_self [])).1 = 0x0000006F ∧
    get_opcode 0x0000006F = 0x6F ∧ get_imm_J 0x0000006F = 0 ∧
    (before_post_execution (main_init image_jump_to_self [])).trap_pending_print = false ∧
    (before_post_execution (main_init image_jump_to_self [])).pc = 0x80000000 ∧
    (loop_iteration (main_init image_jump_to_self [])).outfile =
      [TraceLine.instruction 0x80000000] ∧
    (loop_iteration (main_init image_jump_to_self [])).pc = 0x80000004 := by
  decide

/-- C7, evaluated: after the four CSR instructions of the image the machine is
at pc 0x80000010 with MIE set, `mip & mie` = 8 and mtvec = 16.  In the fifth
iteration the interrupt check delivers the software interrupt (mcause
0x80000003, mepc 0x80000010, mtval 0), then the fetch at the handler address 16
faults, and at the end of the iteration mepc = 16, mtval = 16 and mcause = 1. -/
theorem C7_interrupt_overwritten_by_fetch_fault :
    (run 4 (main_init image_interrupt_vector_outside_ram [])).halt_flag = false ∧
    (run 4 (main_init image_interrupt_vector_outside_ram [])).pc = 0x80000010 ∧
    (run 4 (main_init image_interrupt_vector_outside_ram [])).mstatus.testBit 3 = true ∧
    (timer_tick (run 4 (main_init image_interrupt_vector_outside_ram []))).mip &&&
      (timer_tick (run 4 (main_init image_interrupt_vector_outside_ram []))).mie = 8 ∧
    (interrupt_check 0x80000010
      (timer_tick (run 4 (main_init image_interrupt_vector_outside_ram [])))).mcause
        = 0x80000003 ∧
    (interrupt_check 0x80000010
      (timer_tick (run 4 (main_init image_interrupt_vector_outside_ram [])))).mepc
        = 0x80000010 ∧
    (interrupt_check 0x80000010
      (timer_tick (run 4 (main_init image_interrupt_vector_outside_ram [])))).mtval = 0 ∧
    (loop_iteration (run 4 (main_init image_interrupt_vector_outside_ram []))).mepc = 16 ∧
    (loop_iteration (run 4 (main_init image_interrupt_vector_outside_ram []))).mtval = 16 ∧
    (loop_iteration (run 4 (main_init image_interrupt_vector_outside_ram []))).mcause = 1 := by
  decide

/-- C9, evaluated: for the text `93 00 10 00`, which has no address token,
`load_program_from_hex_string` sets pc to 0x80000000 but RAM offsets 0 to 3 still
hold 0: the bytes 0x93, 0x00, 0x10, 0x00 are not written at 0x80000000. -/
theorem C9_bytes_without_address_not_loaded :
    (load_program_from_hex_string image_without_address power_on).pc = 0x80000000 ∧
    (load_program_from_hex_string image_without_address power_on).memory 0 = 0 ∧
    (load_program_from_hex_string image_without_address power_on).memory 1 = 0 ∧
    (load_program_from_hex_string image_without_address power_on).memory 2 = 0 ∧
    (load_program_from_hex_string image_without_address power_on).memory 3 = 0 ∧
    (strtoul [Char.ofNat 57, Char.ofNat 51]).1 = 0x93 := by
  decide

/-! ## Synchronous exceptions raised while an instruction executes -/

theorem ite_true_true (c : Prop) [Decidable c] : (if c then True else True) = True :=
  ite_self True

theorem trigger_trap_trapAt (c t p : Nat) (s s0 : Machine) (h : s.mtvec = s0.mtvec)
    (hm : s.memory = s0.memory) : TrapAt p s0 (trigger_trap c t p s) c t := by
  rw [TrapAt, trigger_trap]
  simp only [apply_ite Machine.trap_pending_print, apply_ite Machine.mepc,
    apply_ite Machine.mcause, apply_ite Machine.mtval, apply_ite Machine.mtvec,
    apply_ite Machine.pc, apply_ite Machine.memory, ite_self, h, hm, and_self, true_and]

theorem trapAt_congr (p c t : Nat) (s s1 r : Machine) (h1 : s1.mtvec = s.mtvec)
    (h2 : s1.memory = s.memory) (h : TrapAt p s1 r c t) : TrapAt p s r c t := by
  rw [TrapAt] at h ⊢
  rw [← h1, ← h2]
  exact h

theorem outcome_clear_x0 (i p : Nat) (s r : Machine) :
    Outcome i p s (clear_x0 r) = Outcome i p s r := propext (Iff.intro id id)

theorem outcome_sprintf (i p : Nat) (s r : Machine) :
    Outcome i p s (sprintf r) = Outcome i p s r := propext (Iff.intro id id)

theorem outcome_set_reg (i p rd v : Nat) (s r : Machine) :
    Outcome i p s (set_reg rd v r) = Outcome i p s r := propext (Iff.intro id id)

theorem outcome_store_byte (i p a v : Nat) (s : Machine) :
    Outcome i p s (store_byte a v s) = True := eq_true (Or.inl rfl)

theorem outcome_store_halfword (i p a0 v0 a1 v1 : Nat) (s : Machine) :
    Outcome i p s (store_byte a1 v1 (store_byte a0 v0 s)) = True := eq_true (Or.inl rfl)

theorem outcome_store_word (i p a0 v0 a1 v1 a2 v2 a3 v3 : Nat) (s : Machine) :
    Outcome i p s (store_byte a3 v3 (store_byte a2 v2 (store_byte a1 v1 (store_byte a0 v0 s))))
      = True := eq_true (Or.inl rfl)

theorem outcome_write_rd (i p rd v : Nat) (s r : Machine) :
    Outcome i p s (write_rd rd v r) = Outcome i p s r := by
  rw [write_rd]; split <;> rfl

theorem outcome_refl (i p : Nat) (s : Machine) : Outcome i p s s = True :=
  eq_true (Or.inl rfl)

theorem outcome_of_flag (i p : Nat) (s r : Machine)
    (h : r.trap_pending_print = s.trap_pending_print) : Outcome i p s r = True :=
  eq_true (Or.inl h)

theorem outcome_trap2 (i p : Nat) (s : Machine) :
    Outcome i p s (trigger_trap 2 i p s) = True :=
  eq_true (Or.inr (Or.inr (Or.inl (trigger_trap_trapAt 2 i p s s rfl rfl))))

theorem outcome_trap11 (i p : Nat) (s : Machine) :
    Outcome i p s (trigger_trap 11 0 p (sprintf s)) = True :=
  eq_true (Or.inr (Or.inr (Or.inr (Or.inr (Or.inr (trigger_trap_trapAt 11 0 p _ s rfl rfl))))))

theorem outcome_trap5 (i p a : Nat) (s : Machine) :
    Outcome i p s (trigger_trap 5 a p s) = True :=
  eq_true (Or.inr (Or.inr (Or.inr (Or.inl ⟨a, trigger_trap_trapAt 5 a p s s rfl rfl⟩))))

theorem outcome_trap7 (i p a : Nat) (s : Machine) :
    Outcome i p s (trigger_trap 7 a p s) = True :=
  eq_true (Or.inr (Or.inr (Or.inr (Or.inr (Or.inl ⟨a, trigger_trap_trapAt 7 a p s s rfl rfl⟩)))))

theorem uart_read_flag (a : Nat) (s : Machine) :
    (uart_read a s).2.trap_pending_print = s.trap_pending_print := by
  rw [uart_read]
  simp only [apply_ite Prod.snd, apply_ite Machine.trap_pending_print, ite_self]

theorem uart_transmit_flag (v : Nat) (s : Machine) :
    (uart_transmit v s).trap_pending_print = s.trap_pending_print := by
  rw [uart_transmit]
  split <;> rfl

theorem uart_write_flag (a v n : Nat) (s : Machine) :
    (uart_write a v n s).trap_pending_print = s.trap_pending_print := by
  rw [uart_write]
  simp only [apply_ite Machine.trap_pending_print, uart_transmit_flag, ite_self]

theorem clint_write_flag (a v : Nat) (s : Machine) :
    (clint_write a v s).trap_pending_print = s.trap_pending_print := by
  rw [clint_write]
  simp only [apply_ite Machine.trap_pending_print, ite_self]

theorem plic_write_flag (a v : Nat) (s : Machine) :
    (plic_write a v s).trap_pending_print = s.trap_pending_print := by
  rw [plic_write]
  simp only [apply_ite Machine.trap_pending_print, ite_self]

theorem write_csr_flag (a v : Nat) (s : Machine) :
    (write_csr a v s).trap_pending_print = s.trap_pending_print := by
  rw [write_csr]
  simp only [apply_ite Machine.trap_pending_print, ite_self]

theorem write_rd_flag (a v : Nat) (s : Machine) :
    (write_rd a v s).trap_pending_print = s.trap_pending_print := by
  rw [write_rd]; split <;> rfl

theorem to_uint8_snd (r : Nat × Machine) : (to_uint8 r).2 = r.2 := rfl

theorem outcome_uart_read (i p a : Nat) (s : Machine) :
    Outcome i p s (uart_read a s).2 = True := eq_true (Or.inl (uart_read_flag a s))

theorem outcome_uart_write (i p a v n : Nat) (s : Machine) :
    Outcome i p s (uart_write a v n s) = True := eq_true (Or.inl (uart_write_flag a v n s))

theorem outcome_clint_write (i p a v : Nat) (s : Machine) :
    Outcome i p s (clint_write a v s) = True := eq_true (Or.inl (clint_write_flag a v s))

theorem outcome_plic_write (i p a v : Nat) (s : Machine) :
    Outcome i p s (plic_write a v s) = True := eq_true (Or.inl (plic_write_flag a v s))

theorem memory_read_byte_outcome (i p a : Nat) (s : Machine) :
    Outcome i p s (memory_read_byte a p s).2 := by
  rw [memory_read_byte]
  by_cases h1 : a ≥ UART_BASE ∧ a < UART_BASE + 8
  · rw [if_pos h1, to_uint8_snd]; exact Or.inl (uart_read_flag a s)
  · rw [if_neg h1]
    by_cases h2 : a ≥ PC_START_ADDRESS ∧ sub32 a PC_START_ADDRESS < MEMORY_SIZE
    · rw [if_pos h2]; exact Or.inl rfl
    · rw [if_neg h2]; exact of_eq_true (outcome_trap5 i p a s)

theorem memory_read_halfword_outcome (i p a : Nat) (s : Machine) :
    Outcome i p s (memory_read_halfword a p s).2 := by
  rw [memory_read_halfword]
  simp only [apply_ite Prod.snd, apply_ite (Outcome i p s), outcome_trap5,
    outcome_refl, ite_true_true]

theorem memory_read_word_outcome (i p a : Nat) (s : Machine) :
    Outcome i p s (memory_read_word a p s).2 := by
  rw [memory_read_word]
  simp only [apply_ite Prod.snd, apply_ite (Outcome i p s), outcome_trap5,
    outcome_refl, ite_true_true]

theorem memory_write_byte_outcome (i p a v : Nat) (s : Machine) :
    Outcome i p s (memory_write_byte a v p s) := by
  rw [memory_write_byte]
  simp only [apply_ite (Outcome i p s), outcome_trap7, outcome_store_byte, outcome_uart_write,
    outcome_refl, ite_true_true]

theorem memory_write_halfword_outcome (i p a v : Nat) (s : Machine) :
    Outcome i p s (memory_write_halfword a v p s) := by
  rw [memory_write_halfword]
  simp only [apply_ite (Outcome i p s), outcome_trap7, outcome_store_halfword,
    outcome_refl, ite_true_true]

theorem memory_write_word_outcome (i p a v : Nat) (s : Machine) :
    Outcome i p s (memory_write_word a v p s) := by
  rw [memory_write_word]
  simp only [apply_ite (Outcome i p s), outcome_trap7, outcome_store_word, outcome_clint_write,
    outcome_plic_write, outcome_refl, ite_true_true]

theorem outcome_pc (i p x : Nat) (s : Machine) :
    Outcome i p s { s with pc := x } = True := eq_true (Or.inl rfl)

theorem outcome_write_rd_pc (i p x rd v : Nat) (s : Machine) :
    Outcome i p s { write_rd rd v s with pc := x } = True :=
  eq_true (Or.inl (write_rd_flag rd v s))

theorem outcome_ebreak (i p : Nat) (s : Machine) :
    Outcome i p s { sprintf s with halt_flag := true, mcause := 3, mepc := p } = True :=
  eq_true (Or.inl rfl)

theorem outcome_mret (i p x y : Nat) (s : Machine) :
    Outcome i p s { s with pc := x, mstatus := y } = True := eq_true (Or.inl rfl)

theorem outcome_write_csr (i p a v rd t : Nat) (s : Machine) :
    Outcome i p s (write_csr a v (write_rd rd t s)) = True :=
  eq_true (Or.inl ((write_csr_flag _ _ _).trans (write_rd_flag _ _ s)))

theorem exec_branch_outcome (i p : Nat) (s : Machine) : Outcome i p s (exec_branch i p s) := by
  rw [exec_branch]
  simp only [apply_ite (Outcome i p s), outcome_clear_x0, outcome_sprintf, outcome_trap2,
    outcome_pc, outcome_refl, ite_true_true]

theorem exec_load_outcome (i p : Nat) (s : Machine) : Outcome i p s (exec_load i p s) := by
  rw [exec_load]
  simp only [apply_ite (Outcome i p s), outcome_clear_x0, outcome_sprintf, outcome_set_reg,
    outcome_trap2, memory_read_byte_outcome, memory_read_halfword_outcome,
    memory_read_word_outcome, outcome_refl, ite_true_true]

theorem exec_store_outcome (i p : Nat) (s : Machine) : Outcome i p s (exec_store i p s) := by
  rw [exec_store]
  simp only [apply_ite (Outcome i p s), outcome_clear_x0, outcome_sprintf,
    outcome_trap2, memory_write_byte_outcome, memory_write_halfword_outcome,
    memory_write_word_outcome, ite_true_true]

theorem exec_op_imm_outcome (i p : Nat) (s : Machine) : Outcome i p s (exec_op_imm i p s) := by
  rw [exec_op_imm]
  simp only [apply_ite (Outcome i p s), outcome_clear_x0, outcome_sprintf, outcome_write_rd,
    outcome_trap2, outcome_refl, ite_true_true]

theorem exec_op_outcome (i p : Nat) (s : Machine) : Outcome i p s (exec_op i p s) := by
  rw [exec_op]
  simp only [apply_ite (Outcome i p s), outcome_clear_x0, outcome_sprintf, outcome_write_rd,
    outcome_trap2, outcome_refl, ite_true_true]

theorem exec_system_outcome (i p : Nat) (s : Machine) : Outcome i p s (exec_system i p s) := by
  rw [exec_system]
  simp only [apply_ite (Outcome i p s), outcome_clear_x0, outcome_sprintf, outcome_write_rd,
    outcome_trap2, outcome_trap11, outcome_write_csr, outcome_ebreak,
    outcome_mret, outcome_refl, ite_true_true]

theorem decode_and_execute_outcome (i p : Nat) (s : Machine) :
    Outcome i p s (decode_and_execute i p s) := by
  rw [decode_and_execute]
  simp only [apply_ite (Outcome i p s), outcome_clear_x0, outcome_sprintf, outcome_write_rd,
    outcome_trap2, exec_branch_outcome, exec_load_outcome,
    exec_store_outcome, exec_op_imm_outcome, exec_op_outcome, exec_system_outcome,
    outcome_write_rd_pc, outcome_refl, ite_true_true]

/-! ## One iteration of the driver loop that ends in a synchronous exception -/

theorem trigger_trap_flag (c t p : Nat) (s : Machine) :
    (trigger_trap c t p s).trap_pending_print = true :=
  (trigger_trap_trapAt c t p s s rfl rfl).1

theorem timer_tick_pc (s : Machine) : (timer_tick s).pc = s.pc := by
  rw [timer_tick]; dsimp only; split_ifs <;> rfl

theorem timer_tick_mtvec (s : Machine) : (timer_tick s).mtvec = s.mtvec := by
  rw [timer_tick]; dsimp only; split_ifs <;> rfl

theorem timer_tick_memory (s : Machine) : (timer_tick s).memory = s.memory := by
  rw [timer_tick]; dsimp only; split_ifs <;> rfl

theorem interrupt_check_eq (p : Nat) (s : Machine)
    (h : (interrupt_check p s).trap_pending_print = false) : interrupt_check p s = s := by
  rw [interrupt_check] at h ⊢
  split_ifs at h ⊢ with h1 h2
  · rw [trigger_trap_flag] at h; exact absurd h (by decide)
  · rfl
  · rfl

theorem memory_read_word_cases (a p : Nat) (s : Machine) :
    (memory_read_word a p s).2 = s ∨ (memory_read_word a p s).2 = trigger_trap 5 a p s := by
  rw [memory_read_word]
  by_cases h1 : a % 4 ≠ 0
  · rw [if_pos h1]; exact Or.inr rfl
  · rw [if_neg h1]
    by_cases h2 : a ≥ CLINT_BASE ∧ a < CLINT_BASE + 0x10000
    · rw [if_pos h2]; exact Or.inl rfl
    · rw [if_neg h2]
      by_cases h3 : a ≥ PLIC_BASE ∧ a < PLIC_BASE + 0x4000000
      · rw [if_pos h3]; exact Or.inl rfl
      · rw [if_neg h3]
        by_cases h4 : a ≥ PC_START_ADDRESS ∧ add32 (sub32 a PC_START_ADDRESS) 3 < MEMORY_SIZE
        · rw [if_pos h4]; exact Or.inl rfl
        · rw [if_neg h4]; exact Or.inr rfl

theorem fetch_cases (s : Machine) :
    (fetch_instruction_from_pc s).2 = s ∨
    (fetch_instruction_from_pc s).2 = trigger_trap 1 s.pc s.pc s ∨
    (fetch_instruction_from_pc s).2 = trigger_trap 5 s.pc s.pc s := by
  rw [fetch_instruction_from_pc]
  by_cases h : s.pc < PC_START_ADDRESS ∨ add32 s.pc 3 ≥ PC_START_ADDRESS + MEMORY_SIZE ∨
      s.pc % 4 ≠ 0
  · rw [if_pos h]; exact Or.inr (Or.inl rfl)
  · rw [if_neg h]
    rcases memory_read_word_cases s.pc s.pc s with h1 | h1
    · exact Or.inl h1
    · exact Or.inr (Or.inr h1)

/-- The causes and values a synchronous exception of one iteration can have. -/
theorem before_post_execution_trap (s : Machine)
    (hno_int : (interrupt_check s.pc (timer_tick s)).trap_pending_print = false)
    (hraised : (before_post_execution s).trap_pending_print = true) :
    ∃ c t, TrapAt s.pc s (before_post_execution s) c t ∧
      ((c = 1 ∧ t = s.pc) ∨ (c = 2 ∧ t = (fetch_instruction_from_pc (timer_tick s)).1) ∨
        c = 5 ∨ c = 7 ∨ (c = 11 ∧ t = 0)) := by
  have hi := interrupt_check_eq s.pc (timer_tick s) hno_int
  rw [hi] at hno_int
  rw [before_post_execution, hi, fetch_and_execute] at hraised ⊢
  have hpc := timer_tick_pc s
  have hmt := timer_tick_mtvec s
  have hmem := timer_tick_memory s
  rcases fetch_cases (timer_tick s) with hf | hf | hf
  · rw [hf, if_neg (by rw [hno_int]; decide)] at hraised ⊢
    have ho := decode_and_execute_outcome (fetch_instruction_from_pc (timer_tick s)).1 s.pc
      { timer_tick s with details_buffer := false }
    rcases ho with ho | ho | ho | ⟨a, ho⟩ | ⟨a, ho⟩ | ho
    · rw [hraised] at ho; exact absurd (ho.trans hno_int) (by decide)
    · exact ⟨1, s.pc, trapAt_congr _ _ _ _ _ _ hmt hmem ho, Or.inl ⟨rfl, rfl⟩⟩
    · exact ⟨2, _, trapAt_congr _ _ _ _ _ _ hmt hmem ho, Or.inr (Or.inl ⟨rfl, rfl⟩)⟩
    · exact ⟨5, a, trapAt_congr _ _ _ _ _ _ hmt hmem ho, Or.inr (Or.inr (Or.inl rfl))⟩
    · exact ⟨7, a, trapAt_congr _ _ _ _ _ _ hmt hmem ho,
        Or.inr (Or.inr (Or.inr (Or.inl rfl)))⟩
    · exact ⟨11, 0, trapAt_congr _ _ _ _ _ _ hmt hmem ho,
        Or.inr (Or.inr (Or.inr (Or.inr ⟨rfl, rfl⟩)))⟩
  · rw [hf, if_pos (trigger_trap_flag _ _ _ _), hpc]
    exact ⟨1, s.pc, trigger_trap_trapAt 1 s.pc s.pc _ s hmt hmem, Or.inl ⟨rfl, rfl⟩⟩
  · rw [hf, if_pos (trigger_trap_flag _ _ _ _), hpc]
    exact ⟨5, s.pc, trigger_trap_trapAt 5 s.pc s.pc _ s hmt hmem, Or.inr (Or.inr (Or.inl rfl))⟩

theorem post_execution_trap (p c t : Nat) (s r : Machine) (h : TrapAt p s r c t) :
    (post_execution p r).mepc = p ∧ (post_execution p r).mcause = c ∧
    (post_execution p r).mtval = t ∧ (post_execution p r).mtvec = s.mtvec ∧
    (post_execution p r).pc = (if s.mtvec = 0 then add32 p 4 else s.mtvec &&& not32 0x3) := by
  obtain ⟨h1, h2, h3, h4, h5, h6, _⟩ := h
  rw [post_execution, if_pos h1]
  dsimp only
  by_cases hd : r.mepc = r.last_trap_pc ∧ r.mcause = r.last_trap_cause
  · rw [if_pos hd]
    exact ⟨h2, h3, h4, h5, h6⟩
  · rw [if_neg hd]
    by_cases hz : r.mtvec = 0
    · rw [if_pos hz]
      refine ⟨h2, h3, h4, h5, ?_⟩
      show add32 r.mepc 4 = _
      rw [h2, if_pos (h5 ▸ hz)]
    · rw [if_neg hz]
      exact ⟨h2, h3, h4, h5, h6⟩

/-- C5: in a loop iteration in which no interrupt is delivered and the
instruction at pc `p` raises a synchronous exception with cause `c` and value
`t`, the iteration ends with mepc = p, mcause = c, mtval = t and with pc equal
to mtvec with its two low bits cleared when mtvec is not 0, and to p + 4 modulo
2^32 when mtvec is 0 (the skip is applied once); mtvec is unchanged, and the
exception is an instruction fault with value p, an illegal instruction with
the fetched word as value, a load fault, a store fault or an environment call
with value 0. -/
theorem C5_exception_delivery (s : Machine) (c t : Nat)
    (hno_int : (interrupt_check s.pc (timer_tick s)).trap_pending_print = false)
    (hraised : (before_post_execution s).trap_pending_print = true)
    (hc : (before_post_execution s).mcause = c)
    (ht : (before_post_execution s).mtval = t) :
    (loop_iteration s).mepc = s.pc ∧ (loop_iteration s).mcause = c ∧
    (loop_iteration s).mtval = t ∧ (loop_iteration s).mtvec = s.mtvec ∧
    (loop_iteration s).pc =
      (if s.mtvec = 0 then (s.pc + 4) % 2 ^ 32 else s.mtvec &&& 0xFFFFFFFC) ∧
    ((c = 1 ∧ t = s.pc) ∨ (c = 2 ∧ t = (fetch_instruction_from_pc (timer_tick s)).1) ∨
      c = 5 ∨ c = 7 ∨ (c = 11 ∧ t = 0)) := by
  obtain ⟨c', t', htrap, hkind⟩ := before_post_execution_trap s hno_int hraised
  have hc' : c' = c := htrap.2.2.1.symm.trans hc
  have ht' : t' = t := htrap.2.2.2.1.symm.trans ht
  subst hc' ht'
  obtain ⟨h1, h2, h3, h4, h5⟩ := post_execution_trap s.pc c' t' s _ htrap
  exact ⟨h1, h2, h3, h4, h5, hkind⟩

/-- C5 at a concrete input: the illegal word 0x00000000 at 0x80000000 with no
handler installed; the iteration ends with mepc = 0x80000000, mcause = 2,
mtval = 0 and pc = 0x80000004. -/
theorem C5_exception_delivery_witness :
    (interrupt_check (main_init image_illegal_word []).pc
      (timer_tick (main_init image_illegal_word []))).trap_pending_print = false ∧
    (before_post_execution (main_init image_illegal_word [])).trap_pending_print = true ∧
    (loop_iteration (main_init image_illegal_word [])).mepc = 0x80000000 ∧
    (loop_iteration (main_init image_illegal_word [])).mcause = 2 ∧
    (loop_iteration (main_init image_illegal_word [])).mtval = 0 ∧
    (loop_iteration (main_init image_illegal_word [])).pc = 0x80000004 :=
  have h := C5_exception_delivery (main_init image_illegal_word []) 2 0
    (by decide) (by decide) (by decide) (by decide)
  ⟨by decide, by decide, h.1, h.2.1, h.2.2.1, h.2.2.2.2.1⟩

/-! ## The loader terminates -/

theorem skip_blanks_length (p : List Char) : (skip_blanks p).length ≤ p.length := by
  induction p with
  | nil => exact Nat.le_refl _
  | cons c cs ih =>
    rw [skip_blanks]
    split_ifs
    · exact Nat.le_trans ih (Nat.le_succ _)
    · exact Nat.le_refl _

theorem skip_isspace_length (p : List Char) : (skip_isspace p).length ≤ p.length := by
  induction p with
  | nil => exact Nat.le_refl _
  | cons c cs ih =>
    rw [skip_isspace]
    split_ifs
    · exact Nat.le_trans ih (Nat.le_succ _)
    · exact Nat.le_refl _

theorem hex_digits_length (p : List Char) (acc : Nat) :
    (hex_digits p acc).2.length ≤ p.length := by
  induction p generalizing acc with
  | nil => exact Nat.le_refl _
  | cons c cs ih =>
    rw [hex_digits]
    split
    · exact Nat.le_trans (ih _) (Nat.le_succ _)
    · exact Nat.le_refl _

theorem strtoul_length (p : List Char) : (strtoul p).2.length ≤ p.length := by
  rw [strtoul]
  dsimp only
  split_ifs
  all_goals first
    | exact Nat.le_refl _
    | (refine Nat.le_trans (hex_digits_length _ 0) ?_
       have h1 := skip_isspace_length p
       try simp only [List.length_tail]
       omega)

theorem load_loop_isSome (fuel : Nat) (p : List Char) (address : Nat) (b : Bool) (s : Machine)
    (h : p.length < fuel) : (load_loop fuel p address b s).isSome = true := by
  induction fuel generalizing p address b s with
  | zero => exact absurd h (Nat.not_lt_zero _)
  | succ n ih =>
    rw [load_loop]
    have hs := skip_blanks_length p
    split
    · rfl
    · rename_i c rest heq
      rw [heq, List.length_cons] at hs
      have hl := strtoul_length rest
      split_ifs
      all_goals first
        | rfl
        | (apply ih; omega)
        | (apply ih; rw [List.length_tail]; omega)

/-- The loop of `load_program_from_hex_string` reaches the end of every text
within the fuel the function gives it. -/
theorem load_program_terminates (hex_string : List Char) (s : Machine) :
    ∃ r, load_loop (hex_string.length + 1) hex_string 0 false s = some r ∧
      load_program_from_hex_string hex_string s = r := by
  have h := load_loop_isSome (hex_string.length + 1) hex_string 0 false s (Nat.lt_succ_self _)
  obtain ⟨r, hr⟩ := Option.isSome_iff_exists.mp h
  exact ⟨r, hr, by rw [load_program_from_hex_string, hr]; rfl⟩

/-! ## Register x0 -/

theorem x0Zero_clear_x0 (s : Machine) : X0Zero (clear_x0 s) = True := by
  rw [X0Zero, clear_x0, set_reg]
  exact eq_true rfl

theorem x0Zero_trigger_trap (c t p : Nat) (s : Machine) :
    X0Zero (trigger_trap c t p s) = X0Zero s := by
  rw [trigger_trap]; dsimp only; split_ifs <;> rfl

theorem exec_branch_x0 (i p : Nat) (s : Machine) (h : X0Zero s) : X0Zero (exec_branch i p s) := by
  rw [exec_branch]
  simp only [apply_ite X0Zero, x0Zero_clear_x0, x0Zero_trigger_trap, eq_true h, ite_true_true]

theorem exec_load_x0 (i p : Nat) (s : Machine) (h : X0Zero s) : X0Zero (exec_load i p s) := by
  rw [exec_load]
  simp only [apply_ite X0Zero, x0Zero_clear_x0, x0Zero_trigger_trap, eq_true h, ite_true_true]

theorem exec_store_x0 (i p : Nat) (s : Machine) (h : X0Zero s) : X0Zero (exec_store i p s) := by
  rw [exec_store]
  simp only [apply_ite X0Zero, x0Zero_clear_x0, x0Zero_trigger_trap, eq_true h, ite_true_true]

theorem exec_op_imm_x0 (i p : Nat) (s : Machine) (h : X0Zero s) : X0Zero (exec_op_imm i p s) := by
  rw [exec_op_imm]
  simp only [apply_ite X0Zero, x0Zero_clear_x0, x0Zero_trigger_trap, eq_true h, ite_true_true]

theorem exec_op_x0 (i p : Nat) (s : Machine) (h : X0Zero s) : X0Zero (exec_op i p s) := by
  rw [exec_op]
  simp only [apply_ite X0Zero, x0Zero_clear_x0, x0Zero_trigger_trap, eq_true h, ite_true_true]

theorem exec_system_x0 (i p : Nat) (s : Machine) (h : X0Zero s) : X0Zero (exec_system i p s) := by
  rw [exec_system]
  simp only [apply_ite X0Zero, x0Zero_clear_x0, x0Zero_trigger_trap, eq_true h, ite_true_true]

theorem decode_and_execute_x0 (i p : Nat) (s : Machine) (h : X0Zero s) :
    X0Zero (decode_and_execute i p s) := by
  rw [decode_and_execute]
  simp only [apply_ite X0Zero, x0Zero_clear_x0, eq_true (exec_branch_x0 i p s h),
    eq_true (exec_load_x0 i p s h), eq_true (exec_store_x0 i p s h),
    eq_true (exec_op_imm_x0 i p s h), eq_true (exec_op_x0 i p s h),
    eq_true (exec_system_x0 i p s h), ite_true_true]

theorem timer_tick_x0 (s : Machine) : X0Zero (timer_tick s) = X0Zero s := by
  rw [timer_tick]; dsimp only; split_ifs <;> rfl

theorem interrupt_check_x0 (p : Nat) (s : Machine) : X0Zero (interrupt_check p s) = X0Zero s := by
  rw [interrupt_check]; split_ifs
  · exact x0Zero_trigger_trap _ _ _ _
  · rfl
  · rfl

theorem fetch_x0 (s : Machine) : X0Zero (fetch_instruction_from_pc s).2 = X0Zero s := by
  rcases fetch_cases s with h | h | h <;> rw [h]
  · exact x0Zero_trigger_trap _ _ _ _
  · exact x0Zero_trigger_trap _ _ _ _

theorem post_execution_x0 (p : Nat) (s : Machine) : X0Zero (post_execution p s) = X0Zero s := by
  rw [post_execution]; dsimp only; split_ifs <;> rfl

theorem loop_iteration_x0 (s : Machine) (h : X0Zero s) : X0Zero (loop_iteration s) := by
  have h1 : X0Zero (fetch_instruction_from_pc (interrupt_check s.pc (timer_tick s))).2 := by
    rw [fetch_x0, interrupt_check_x0, timer_tick_x0]; exact h
  rw [loop_iteration, post_execution_x0, before_post_execution, fetch_and_execute]
  by_cases hf : (fetch_instruction_from_pc
      (interrupt_check s.pc (timer_tick s))).2.trap_pending_print = true
  · rw [if_pos hf]; exact h1
  · rw [if_neg hf]; exact decode_and_execute_x0 _ _ _ h1

theorem run_x0 (n : Nat) (s : Machine) (h : X0Zero s) : X0Zero (run n s) := by
  induction n generalizing s with
  | zero => exact h
  | succ n ih =>
    rw [run]
    split_ifs
    · exact h
    · exact ih _ (loop_iteration_x0 s h)

theorem load_loop_regs (fuel : Nat) (p : List Char) (address : Nat) (b : Bool) (s r : Machine)
    (h : load_loop fuel p address b s = some r) : r.regs = s.regs := by
  induction fuel generalizing p address b s with
  | zero => rw [load_loop] at h; exact absurd h (by simp)
  | succ n ih =>
    rw [load_loop] at h
    split at h
    · rw [Option.some.injEq] at h; subst h; split_ifs <;> rfl
    · split_ifs at h
      all_goals first
        | (rw [Option.some.injEq] at h; subst h; rfl)
        | (rw [ih _ _ _ _ h]; try rfl)

theorem load_program_regs (hex_string : List Char) (s : Machine) :
    (load_program_from_hex_string hex_string s).regs = s.regs := by
  rw [load_program_from_hex_string]
  cases h : load_loop (hex_string.length + 1) hex_string 0 false s with
  | none => rfl
  | some r => exact load_loop_regs _ _ _ _ _ _ h

theorem main_init_x0 (program_hex_string : List Char) (term_in : List Nat) :
    X0Zero (main_init program_hex_string term_in) := by
  rw [X0Zero, main_init, load_program_regs]
  rfl

/-- C8: at the start of the loop and at the end of every iteration of a run,
whatever the hex image, the terminal input and the number `n` of iterations,
register x0 holds 0. -/
theorem C8_x0_is_zero (program_hex_string : List Char) (term_in : List Nat) (n : Nat) :
    (run n (main_init program_hex_string term_in)).regs 0 = 0 :=
  run_x0 n _ (main_init_x0 program_hex_string term_in)

/-! ## Word store followed by word load -/

theorem or_shift_eq_add (lo hi k : Nat) (h : lo < 2 ^ k) : lo ||| hi <<< k = lo + hi * 2 ^ k := by
  rw [Nat.shiftLeft_eq, Nat.lor_comm, Nat.mul_comm hi, ← Nat.mul_add_lt_is_or h]
  omega

theorem word_of_bytes (v : Nat) (hv : v < 2 ^ 32) :
    (((v &&& 0xFF) % 256) <<< 0) % 2 ^ 32 |||
     ((((v >>> 8) &&& 0xFF) % 256) <<< 8) % 2 ^ 32 |||
     ((((v >>> 16) &&& 0xFF) % 256) <<< 16) % 2 ^ 32 |||
     ((((v >>> 24) &&& 0xFF) % 256) <<< 24) % 2 ^ 32 = v := by
  have e : ∀ x : Nat, x &&& 0xFF = x % 256 := fun x => Nat.and_pow_two_sub_one_eq_mod x 8
  simp only [e, Nat.shiftRight_eq_div_pow, Nat.shiftLeft_zero, Nat.mod_mod]
  have h0 : v % 256 < 2 ^ 8 := by omega
  have m1 : ((v / 2 ^ 8 % 256) <<< 8) % 2 ^ 32 = (v / 2 ^ 8 % 256) <<< 8 := by
    rw [Nat.shiftLeft_eq]; omega
  have m2 : ((v / 2 ^ 16 % 256) <<< 16) % 2 ^ 32 = (v / 2 ^ 16 % 256) <<< 16 := by
    rw [Nat.shiftLeft_eq]; omega
  have m3 : ((v / 2 ^ 24 % 256) <<< 24) % 2 ^ 32 = (v / 2 ^ 24 % 256) <<< 24 := by
    rw [Nat.shiftLeft_eq]; omega
  have m0 : v % 256 % 2 ^ 32 = v % 256 := by omega
  rw [m0, m1, m2, m3, or_shift_eq_add _ _ 8 h0, or_shift_eq_add _ _ 16 (by omega),
    or_shift_eq_add _ _ 24 (by omega)]
  omega

theorem ram_index (a k : Nat) (hlo : 0x80000000 ≤ a) (hhi : a ≤ 0x8001FFFC) (hk : k ≤ 3) :
    add32 (sub32 a PC_START_ADDRESS) k = a - 0x80000000 + k := by
  rw [add32, sub32, PC_START_ADDRESS]; omega

theorem memory_write_word_ram (s : Machine) (a v current_pc : Nat) (ha : a % 4 = 0)
    (hlo : 0x80000000 ≤ a) (hhi : a ≤ 0x8001FFFC) :
    memory_write_word a v current_pc s =
      store_byte (a - 0x80000000 + 3) ((v >>> 24) &&& 0xFF)
        (store_byte (a - 0x80000000 + 2) ((v >>> 16) &&& 0xFF)
          (store_byte (a - 0x80000000 + 1) ((v >>> 8) &&& 0xFF)
            (store_byte (a - 0x80000000 + 0) (v &&& 0xFF) s))) := by
  have h1 : ¬ a % 4 ≠ 0 := by omega
  have h2 : ¬ (a ≥ CLINT_BASE ∧ a < CLINT_BASE + 0x10000) := by rw [CLINT_BASE]; omega
  have h3 : ¬ (a ≥ PLIC_BASE ∧ a < PLIC_BASE + 0x4000000) := by rw [PLIC_BASE]; omega
  have h4 : a ≥ PC_START_ADDRESS ∧ add32 (sub32 a PC_START_ADDRESS) 3 < MEMORY_SIZE := by
    rw [ram_index a 3 hlo hhi (by omega), PC_START_ADDRESS, MEMORY_SIZE]; omega
  rw [memory_write_word, if_neg h1, if_neg h2, if_neg h3, if_pos h4,
    ram_index a 0 hlo hhi (by omega), ram_index a 1 hlo hhi (by omega),
    ram_index a 2 hlo hhi (by omega), ram_index a 3 hlo hhi (by omega)]

theorem memory_read_word_ram (s : Machine) (a current_pc : Nat) (ha : a % 4 = 0)
    (hlo : 0x80000000 ≤ a) (hhi : a ≤ 0x8001FFFC) :
    memory_read_word a current_pc s =
      ((s.memory (a - 0x80000000 + 0) <<< 0) % 2 ^ 32 |||
       (s.memory (a - 0x80000000 + 1) <<< 8) % 2 ^ 32 |||
       (s.memory (a - 0x80000000 + 2) <<< 16) % 2 ^ 32 |||
       (s.memory (a - 0x80000000 + 3) <<< 24) % 2 ^ 32, s) := by
  have h1 : ¬ a % 4 ≠ 0 := by omega
  have h2 : ¬ (a ≥ CLINT_BASE ∧ a < CLINT_BASE + 0x10000) := by rw [CLINT_BASE]; omega
  have h3 : ¬ (a ≥ PLIC_BASE ∧ a < PLIC_BASE + 0x4000000) := by rw [PLIC_BASE]; omega
  have h4 : a ≥ PC_START_ADDRESS ∧ add32 (sub32 a PC_START_ADDRESS) 3 < MEMORY_SIZE := by
    rw [ram_index a 3 hlo hhi (by omega), PC_START_ADDRESS, MEMORY_SIZE]; omega
  rw [memory_read_word, if_neg h1, if_neg h2, if_neg h3, if_pos h4,
    ram_index a 0 hlo hhi (by omega), ram_index a 1 hlo hhi (by omega),
    ram_index a 2 hlo hhi (by omega), ram_index a 3 hlo hhi (by omega)]

theorem store_byte_memory (i v j : Nat) (s : Machine) :
    (store_byte i v s).memory j = if j = i then v % 256 else s.memory j := rfl

/-- C10: for a 32-bit value `v` and a 4-byte-aligned address `a` with
0x80000000 <= a <= 0x8001FFFC, `memory_write_word(a, v)` changes nothing but
RAM (so the pending-trap flag keeps its value), the following
`memory_read_word(a)` returns `v` and leaves the state as it is, byte `k` of `v`
is stored at RAM offset `a - 0x80000000 + k` for k = 0..3, and every RAM byte
at another offset keeps its value. -/
theorem C10_store_word_load_word (s : Machine) (a v pc_store pc_load : Nat) (hv : v < 2 ^ 32)
    (ha : a % 4 = 0) (hlo : 0x80000000 ≤ a) (hhi : a ≤ 0x8001FFFC) :
    (memory_write_word a v pc_store s).trap_pending_print = s.trap_pending_print ∧
    memory_write_word a v pc_store s =
      { s with memory := (memory_write_word a v pc_store s).memory } ∧
    (memory_read_word a pc_load (memory_write_word a v pc_store s)).1 = v ∧
    (memory_read_word a pc_load (memory_write_word a v pc_store s)).2 =
      memory_write_word a v pc_store s ∧
    (∀ k, k < 4 → (memory_write_word a v pc_store s).memory (a - 0x80000000 + k) =
      (v >>> (8 * k)) % 256) ∧
    (∀ j, j < a - 0x80000000 ∨ a - 0x80000000 + 3 < j →
      (memory_write_word a v pc_store s).memory j = s.memory j) := by
  have e : ∀ x : Nat, x &&& 0xFF = x % 256 := fun x => Nat.and_pow_two_sub_one_eq_mod x 8
  have hw := memory_write_word_ram s a v pc_store ha hlo hhi
  have hr := memory_read_word_ram (memory_write_word a v pc_store s) a pc_load ha hlo hhi
  have b0 : (memory_write_word a v pc_store s).memory (a - 0x80000000 + 0) =
      (v &&& 0xFF) % 256 := by
    rw [hw]; simp [store_byte_memory]
  have b1 : (memory_write_word a v pc_store s).memory (a - 0x80000000 + 1) =
      ((v >>> 8) &&& 0xFF) % 256 := by
    rw [hw]; simp [store_byte_memory]
  have b2 : (memory_write_word a v pc_store s).memory (a - 0x80000000 + 2) =
      ((v >>> 16) &&& 0xFF) % 256 := by
    rw [hw]; simp [store_byte_memory]
  have b3 : (memory_write_word a v pc_store s).memory (a - 0x80000000 + 3) =
      ((v >>> 24) &&& 0xFF) % 256 := by
    rw [hw]; simp [store_byte_memory]
  refine ⟨by rw [hw]; rfl, by rw [hw]; rfl, ?_, by rw [hr], ?_, ?_⟩
  · rw [hr, b0, b1, b2, b3]
    exact word_of_bytes v hv
  · intro k hk
    have hk' : k = 0 ∨ k = 1 ∨ k = 2 ∨ k = 3 := by omega
    rcases hk' with rfl | rfl | rfl | rfl
    · rw [b0, e]; simp
    · rw [b1, e]; simp
    · rw [b2, e]; simp
    · rw [b3, e]; simp
  · intro j hj
    rw [hw]
    simp only [store_byte_memory]
    rw [if_neg (by omega), if_neg (by omega), if_neg (by omega), if_neg (by omega)]

/-- C10 at a concrete input: the word 0x12345678 stored at 0x80000000 in the
power-on state and read back. -/
theorem C10_store_word_load_word_witness :
    (0x12345678 < 2 ^ 32 ∧ 0x80000000 % 4 = 0 ∧ 0x80000000 ≤ 0x80000000 ∧
      0x80000000 ≤ 0x8001FFFC) ∧
    (memory_read_word 0x80000000 4
      (memory_write_word 0x80000000 0x12345678 0 power_on)).1 = 0x12345678 :=
  ⟨by decide,
    (C10_store_word_load_word power_on 0x80000000 0x12345678 0 4 (by decide) (by decide)
      (by decide) (by decide)).2.2.1⟩

/-! ## What the code does in general where it departs from the specification -/

/-- Whatever instruction raises a trap in `decode_and_execute`, RAM is left as
it was. -/
theorem decode_and_execute_trap_keeps_ram (i p : Nat) (s : Machine)
    (h0 : s.trap_pending_print = false)
    (h1 : (decode_and_execute i p s).trap_pending_print = true) :
    (decode_and_execute i p s).memory = s.memory := by
  rcases decode_and_execute_outcome i p s with ho | ho | ho | ⟨a, ho⟩ | ⟨a, ho⟩ | ho
  · rw [h1, h0] at ho; exact absurd ho (by decide)
  · exact ho.2.2.2.2.2.2
  · exact ho.2.2.2.2.2.2
  · exact ho.2.2.2.2.2.2
  · exact ho.2.2.2.2.2.2
  · exact ho.2.2.2.2.2.2

theorem trigger_trap_mstatus (c t p : Nat) (s : Machine) :
    (trigger_trap c t p s).mstatus =
      (s.mstatus &&& not32 (1 <<< 3)) ||| ((((s.mstatus >>> 3) &&& 1) <<< 7) % 2 ^ 32) := by
  rw [trigger_trap]; dsimp only; split_ifs <;> rfl

theorem bit3_cases (m : Nat) :
    ((m >>> 3) &&& 1 = 0 ∧ m.testBit 3 = false) ∨ ((m >>> 3) &&& 1 = 1 ∧ m.testBit 3 = true) := by
  have e : (m >>> 3) &&& 1 = m / 2 ^ 3 % 2 := by
    rw [Nat.shiftRight_eq_div_pow]; exact Nat.and_pow_two_sub_one_eq_mod _ 1
  rw [e, Nat.testBit_to_div_mod]
  rcases Nat.mod_two_eq_zero_or_one (m / 2 ^ 3) with h | h
  · exact Or.inl ⟨h, by rw [h]; rfl⟩
  · exact Or.inr ⟨h, by rw [h]; rfl⟩

/-- What `trigger_trap` does to the interrupt-enable bits in every state: MIE
(bit 3) is cleared, and MPIE (bit 7) becomes the disjunction of the old MPIE
and the old MIE. -/
theorem trigger_trap_interrupt_bits (c t p : Nat) (s : Machine) :
    (trigger_trap c t p s).mstatus.testBit 3 = false ∧
    (trigger_trap c t p s).mstatus.testBit 7 =
      (s.mstatus.testBit 7 || s.mstatus.testBit 3) := by
  rw [trigger_trap_mstatus, Nat.testBit_or, Nat.testBit_or, Nat.testBit_and, Nat.testBit_and]
  have h3 : (not32 (1 <<< 3)).testBit 3 = false := by decide
  have h7 : (not32 (1 <<< 3)).testBit 7 = true := by decide
  rw [h3, h7]
  rcases bit3_cases s.mstatus with ⟨hb, ht⟩ | ⟨hb, ht⟩
  · rw [hb, ht]
    have z3 : ((0 <<< 7) % 2 ^ 32).testBit 3 = false := by decide
    have z7 : ((0 <<< 7) % 2 ^ 32).testBit 7 = false := by decide
    rw [z3, z7]; simp
  · rw [hb, ht]
    have z3 : ((1 <<< 7) % 2 ^ 32).testBit 3 = false := by decide
    have z7 : ((1 <<< 7) % 2 ^ 32).testBit 7 = true := by decide
    rw [z3, z7]; simp

/-- What `mret` does in every state: pc becomes mepc, MPIE (bit 7 of mstatus) is
cleared, and MIE (bit 3) keeps the value it had. -/
theorem mret_effect (i p : Nat) (s : Machine) (ho : get_opcode i = 0x73)
    (hf : get_funct3 i = 0) (hi : get_imm_I i = 0x302) :
    (decode_and_execute i p s).pc = s.mepc ∧
    (decode_and_execute i p s).mstatus.testBit 7 = false ∧
    (decode_and_execute i p s).mstatus.testBit 3 = s.mstatus.testBit 3 := by
  have e : decode_and_execute i p s = clear_x0 (sprintf
      { s with pc := s.mepc,
               mstatus := (s.mstatus &&& not32 (1 <<< 7)) |||
                 ((((s.mstatus >>> 3) &&& 1) <<< 3) % 2 ^ 32) }) := by
    rw [decode_and_execute]
    simp only [ho]
    show exec_system i p s = _
    rw [exec_system]
    simp only [hf, hi]
    rfl
  rw [e]
  refine ⟨rfl, ?_, ?_⟩
  · show ((s.mstatus &&& not32 (1 <<< 7)) |||
      ((((s.mstatus >>> 3) &&& 1) <<< 3) % 2 ^ 32)).testBit 7 = false
    rw [Nat.testBit_or, Nat.testBit_and]
    have h7 : (not32 (1 <<< 7)).testBit 7 = false := by decide
    rw [h7]
    rcases bit3_cases s.mstatus with ⟨hb, _⟩ | ⟨hb, _⟩
    · rw [hb]
      have z : ((0 <<< 3) % 2 ^ 32).testBit 7 = false := by decide
      rw [z]; simp
    · rw [hb]
      have z : ((1 <<< 3) % 2 ^ 32).testBit 7 = false := by decide
      rw [z]; simp
  · show ((s.mstatus &&& not32 (1 <<< 7)) |||
      ((((s.mstatus >>> 3) &&& 1) <<< 3) % 2 ^ 32)).testBit 3 = s.mstatus.testBit 3
    rw [Nat.testBit_or, Nat.testBit_and]
    have h3 : (not32 (1 <<< 7)).testBit 3 = true := by decide
    rw [h3]
    rcases bit3_cases s.mstatus with ⟨hb, ht⟩ | ⟨hb, ht⟩
    · rw [hb, ht]
      have z : ((0 <<< 3) % 2 ^ 32).testBit 3 = false := by decide
      rw [z]; simp
    · rw [hb, ht]
      have z : ((1 <<< 3) % 2 ^ 32).testBit 3 = true := by decide
      rw [z]; simp

theorem illegalTrap_clear_x0 (i p : Nat) (s r : Machine) :
    IllegalTrap i p s (clear_x0 r) = IllegalTrap i p s r := propext (Iff.intro id id)

theorem illegalTrap_trigger (i p : Nat) (s : Machine) :
    IllegalTrap i p s (trigger_trap 2 i p s) = True :=
  eq_true (trigger_trap_trapAt 2 i p s s rfl rfl)

theorem unsupported_opcode_traps (i p : Nat) (s : Machine)
    (h : get_opcode i ≠ 0x37 ∧ get_opcode i ≠ 0x17 ∧ get_opcode i ≠ 0x6F ∧
      get_opcode i ≠ 0x67 ∧ get_opcode i ≠ 0x63 ∧ get_opcode i ≠ 0x03 ∧
      get_opcode i ≠ 0x23 ∧ get_opcode i ≠ 0x13 ∧ get_opcode i ≠ 0x33 ∧
      get_opcode i ≠ 0x73 ∧ get_opcode i ≠ 0x0F) :
    IllegalTrap i p s (decode_and_execute i p s) := by
  obtain ⟨h1, h2, h3, h4, h5, h6, h7, h8, h9, h10, h11⟩ := h
  rw [decode_and_execute]
  simp only [if_neg h1, if_neg h2, if_neg h3, if_neg h4, if_neg h5, if_neg h6, if_neg h7,
    if_neg h8, if_neg h9, if_neg h10, if_neg h11, illegalTrap_clear_x0, illegalTrap_trigger]

theorem reserved_branch_traps (i p : Nat) (s : Machine) (ho : get_opcode i = 0x63)
    (hf : get_funct3 i = 2 ∨ get_funct3 i = 3) :
    IllegalTrap i p s (decode_and_execute i p s) := by
  have e : decode_and_execute i p s = exec_branch i p s := by
    rw [decode_and_execute]
    simp only [ho]
    rfl
  rw [e, exec_branch]
  rcases hf with hf | hf <;> simp only [hf] <;> exact of_eq_true (illegalTrap_trigger i p s)

theorem reserved_load_traps (i p : Nat) (s : Machine) (ho : get_opcode i = 0x03)
    (hf : get_funct3 i = 3 ∨ get_funct3 i = 6 ∨ get_funct3 i = 7) :
    IllegalTrap i p s (decode_and_execute i p s) := by
  have e : decode_and_execute i p s = exec_load i p s := by
    rw [decode_and_execute]
    simp only [ho]
    rfl
  rw [e, exec_load]
  rcases hf with hf | hf | hf <;> simp only [hf] <;>
    exact of_eq_true (illegalTrap_trigger i p s)

theorem reserved_store_traps (i p : Nat) (s : Machine) (ho : get_opcode i = 0x23)
    (hf : get_funct3 i ≠ 0 ∧ get_funct3 i ≠ 1 ∧ get_funct3 i ≠ 2) :
    IllegalTrap i p s (decode_and_execute i p s) := by
  have e : decode_and_execute i p s = exec_store i p s := by
    rw [decode_and_execute]
    simp only [ho]
    rfl
  rw [e, exec_store]
  simp only [if_neg hf.1, if_neg hf.2.1, if_neg hf.2.2]
  exact of_eq_true (illegalTrap_trigger i p s)

theorem reserved_system_traps (i p : Nat) (s : Machine) (ho : get_opcode i = 0x73)
    (hf : get_funct3 i = 4) : IllegalTrap i p s (decode_and_execute i p s) := by
  have e : decode_and_execute i p s = exec_system i p s := by
    rw [decode_and_execute]
    simp only [ho]
    rfl
  rw [e, exec_system]
  simp only [hf]
  exact of_eq_true (illegalTrap_trigger i p s)

/-- The encodings that do raise the illegal-instruction trap: an unsupported
opcode, BRANCH with funct3 2 or 3, LOAD with funct3 3, 6 or 7, STORE with funct3
other than 0, 1, 2, and SYSTEM with funct3 4.  For them `decode_and_execute` at
pc `p` sets the pending-trap flag, mcause = 2, mtval = the word and mepc = p. -/
theorem illegal_encodings_trap (i p : Nat) (s : Machine)
    (h : (get_opcode i ≠ 0x37 ∧ get_opcode i ≠ 0x17 ∧ get_opcode i ≠ 0x6F ∧
        get_opcode i ≠ 0x67 ∧ get_opcode i ≠ 0x63 ∧ get_opcode i ≠ 0x03 ∧
        get_opcode i ≠ 0x23 ∧ get_opcode i ≠ 0x13 ∧ get_opcode i ≠ 0x33 ∧
        get_opcode i ≠ 0x73 ∧ get_opcode i ≠ 0x0F) ∨
      (get_opcode i = 0x63 ∧ (get_funct3 i = 2 ∨ get_funct3 i = 3)) ∨
      (get_opcode i = 0x03 ∧ (get_funct3 i = 3 ∨ get_funct3 i = 6 ∨ get_funct3 i = 7)) ∨
      (get_opcode i = 0x23 ∧ get_funct3 i ≠ 0 ∧ get_funct3 i ≠ 1 ∧ get_funct3 i ≠ 2) ∨
      (get_opcode i = 0x73 ∧ get_funct3 i = 4)) :
    (decode_and_execute i p s).trap_pending_print = true ∧
    (decode_and_execute i p s).mcause = 2 ∧ (decode_and_execute i p s).mtval = i ∧
    (decode_and_execute i p s).mepc = p := by
  have ht : IllegalTrap i p s (decode_and_execute i p s) := by
    rcases h with h | ⟨ho, hf⟩ | ⟨ho, hf⟩ | ⟨ho, hf⟩ | ⟨ho, hf⟩
    · exact unsupported_opcode_traps i p s h
    · exact reserved_branch_traps i p s ho hf
    · exact reserved_load_traps i p s ho hf
    · exact reserved_store_traps i p s ho hf
    · exact reserved_system_traps i p s ho hf
  exact ⟨ht.1, ht.2.2.1, ht.2.2.2.1, ht.2.1⟩

theorem timer_tick_flag (s : Machine) :
    (timer_tick s).trap_pending_print = s.trap_pending_print := by
  rw [timer_tick]; dsimp only; split_ifs <;> rfl

/-- An iteration without a delivered interrupt and with a successful fetch
executes the fetched word and then runs the post-execution logic. -/
theorem loop_iteration_executes (s : Machine)
    (hno_int : (interrupt_check s.pc (timer_tick s)).trap_pending_print = false)
    (hf : (fetch_instruction_from_pc (timer_tick s)).2 = timer_tick s) :
    loop_iteration s = post_execution s.pc
      (decode_and_execute (fetch_instruction_from_pc (timer_tick s)).1 s.pc
        { timer_tick s with details_buffer := false }) := by
  have hi := interrupt_check_eq s.pc (timer_tick s) hno_int
  rw [hi] at hno_int
  rw [loop_iteration, before_post_execution, hi, fetch_and_execute, hf,
    if_neg (by rw [hno_int]; decide)]

/-- The pc after an iteration that executes a JAL: the jump target, except that
a target equal to the address of the JAL itself is replaced by that address
plus 4; and `rd`, when it is not x0, receives the address plus 4. -/
theorem jal_iteration (s : Machine)
    (hno_int : (interrupt_check s.pc (timer_tick s)).trap_pending_print = false)
    (hf : (fetch_instruction_from_pc (timer_tick s)).2 = timer_tick s)
    (ho : get_opcode (fetch_instruction_from_pc (timer_tick s)).1 = 0x6F) :
    (loop_iteration s).pc =
      (if add32 s.pc (ofInt (get_imm_J (fetch_instruction_from_pc (timer_tick s)).1)) = s.pc
        then add32 s.pc 4
        else add32 s.pc (ofInt (get_imm_J (fetch_instruction_from_pc (timer_tick s)).1))) ∧
    (get_rd (fetch_instruction_from_pc (timer_tick s)).1 ≠ 0 →
      (loop_iteration s).regs (get_rd (fetch_instruction_from_pc (timer_tick s)).1) =
        add32 s.pc 4) := by
  have hi := interrupt_check_eq s.pc (timer_tick s) hno_int
  have hflag : (timer_tick s).trap_pending_print = false := by rw [hi] at hno_int; exact hno_int
  rw [loop_iteration_executes s hno_int hf]
  generalize (fetch_instruction_from_pc (timer_tick s)).1 = i at ho ⊢
  have e : decode_and_execute i s.pc { timer_tick s with details_buffer := false } =
      clear_x0 (sprintf
        { write_rd (get_rd i) (add32 s.pc 4) { timer_tick s with details_buffer := false } with
          pc := add32 s.pc (ofInt (get_imm_J i)) }) := by
    rw [decode_and_execute]
    simp only [ho]
    rfl
  have hw : (write_rd (get_rd i) (add32 s.pc 4)
      { timer_tick s with details_buffer := false }).trap_pending_print = false :=
    (write_rd_flag _ _ _).trans hflag
  rw [e, post_execution, if_neg (by
    show ¬ (write_rd (get_rd i) (add32 s.pc 4)
      { timer_tick s with details_buffer := false }).trap_pending_print = true
    rw [hw]; decide)]
  constructor
  · by_cases ht : add32 s.pc (ofInt (get_imm_J i)) = s.pc
    · rw [if_pos ht]
      show (if add32 s.pc (ofInt (get_imm_J i)) = s.pc then _ else _ : Machine).pc = _
      rw [if_pos ht]
      show add32 (add32 s.pc (ofInt (get_imm_J i))) 4 = _
      rw [ht]
    · rw [if_neg ht]
      show (if add32 s.pc (ofInt (get_imm_J i)) = s.pc then _ else _ : Machine).pc = _
      rw [if_neg ht]
      rfl
  · intro hrd
    have hr : ∀ m : Machine, (if m.pc = s.pc then { m with pc := add32 m.pc 4 } else m).regs
        = m.regs := by
      intro m; split_ifs <;> rfl
    have hreg : (write_rd (get_rd i) (add32 s.pc 4)
        { timer_tick s with details_buffer := false }).regs (get_rd i) = add32 s.pc 4 := by
      rw [write_rd, if_pos hrd, set_reg]
      exact if_pos rfl
    dsimp only
    rw [hr]
    show (clear_x0 (sprintf _)).regs (get_rd i) = _
    rw [clear_x0, set_reg]
    show (if get_rd i = 0 then 0 else _) = _
    rw [if_neg hrd]
    exact hreg

/-- The iteration in which an interrupt is delivered keeps the interrupt in
the trap registers when the fetch at the new pc, which the loop performs
anyway, does not fault: then mepc is the pc at the start of the iteration,
mtval is 0 and mcause is the selected cause. -/
theorem interrupt_iteration (s : Machine) (h0 : s.trap_pending_print = false)
    (hd : (interrupt_check s.pc (timer_tick s)).trap_pending_print = true)
    (hf : (fetch_instruction_from_pc (interrupt_check s.pc (timer_tick s))).2 =
      interrupt_check s.pc (timer_tick s)) :
    (loop_iteration s).mepc = s.pc ∧ (loop_iteration s).mtval = 0 ∧
    (loop_iteration s).mcause =
      select_trap_cause ((timer_tick s).mip &&& (timer_tick s).mie) := by
  have hflag : (timer_tick s).trap_pending_print = false := (timer_tick_flag s).trans h0
  have hi : interrupt_check s.pc (timer_tick s) =
      trigger_trap (select_trap_cause ((timer_tick s).mip &&& (timer_tick s).mie)) 0 s.pc
        (timer_tick s) := by
    rw [interrupt_check] at hd ⊢
    split_ifs at hd ⊢
    · rfl
    · rw [hflag] at hd; exact absurd hd (by decide)
    · rw [hflag] at hd; exact absurd hd (by decide)
  have ht := trigger_trap_trapAt
    (select_trap_cause ((timer_tick s).mip &&& (timer_tick s).mie)) 0 s.pc (timer_tick s) s
    (timer_tick_mtvec s) (timer_tick_memory s)
  rw [← hi] at ht
  rw [loop_iteration, before_post_execution, fetch_and_execute, hf, if_pos hd]
  obtain ⟨h1, h2, h3, _, _⟩ := post_execution_trap s.pc _ 0 s _ ht
  exact ⟨h1, h3, h2⟩

theorem skip_blanks_subset (p : List Char) : ∀ c, c ∈ skip_blanks p → c ∈ p := by
  induction p with
  | nil => intro c h; exact h
  | cons d ds ih =>
    intro c h
    rw [skip_blanks] at h
    split_ifs at h
    · exact List.mem_cons_of_mem _ (ih c h)
    · exact h

theorem load_loop_without_address (fuel : Nat) (p : List Char) (address : Nat)
    (s r : Machine) (h : load_loop fuel p address false s = some r)
    (hat : ∀ c, c ∈ p → c.toNat ≠ 64) (hlen : address + p.length < 2 ^ 31) :
    r.memory = s.memory ∧ r.pc = PC_START_ADDRESS := by
  induction fuel generalizing p address s with
  | zero => rw [load_loop] at h; exact absurd h (by simp)
  | succ n ih =>
    rw [load_loop] at h
    have hs := skip_blanks_length p
    have hsub := skip_blanks_subset p
    split at h
    · rw [Option.some.injEq] at h; subst h; exact ⟨rfl, rfl⟩
    · rename_i c rest heq
      rw [heq] at hs hsub
      rw [List.length_cons] at hs
      by_cases hz : c.toNat = 0
      · rw [if_pos hz, Option.some.injEq] at h; subst h; exact ⟨rfl, rfl⟩
      · rw [if_neg hz, if_neg (hat c (hsub c (List.mem_cons_self _ _)))] at h
        have hram : ¬ (address ≥ PC_START_ADDRESS ∧
            sub32 address PC_START_ADDRESS < MEMORY_SIZE) := by
          rw [PC_START_ADDRESS]; omega
        rw [if_neg hram] at h
        refine ih rest.tail (add32 address 1) s h ?_ ?_
        · intro d hd
          exact hat d (hsub d (List.mem_cons_of_mem _ (List.mem_of_mem_tail hd)))
        · rw [add32, List.length_tail]; omega

/-- What the loader does with a text that has no `@`: for every such text of
fewer than 2^31 characters it sets pc to 0x80000000 and leaves RAM as it was. -/
theorem load_program_without_address (hex_string : List Char) (s : Machine)
    (hat : ∀ c, c ∈ hex_string → c.toNat ≠ 64) (hlen : hex_string.length < 2 ^ 31) :
    (load_program_from_hex_string hex_string s).memory = s.memory ∧
    (load_program_from_hex_string hex_string s).pc = 0x80000000 := by
  obtain ⟨r, hr, he⟩ := load_program_terminates hex_string s
  rw [he]
  exact load_loop_without_address _ _ _ _ _ hr hat (by omega)

/-! ## Multiplication and division (M extension) -/

theorem decode_op (i p : Nat) (s : Machine) (ho : get_opcode i = 0x33) :
    decode_and_execute i p s = exec_op i p s := by
  rw [decode_and_execute]
  simp only [ho, Nat.reduceEqDiff, if_false, if_true]

theorem written_rd (rd v : Nat) (s : Machine) (h : rd ≠ 0) :
    (clear_x0 (sprintf (write_rd rd v s))).regs rd = v := by
  rw [write_rd, if_pos h]
  show (if rd = 0 then 0 else if rd = rd then v else s.regs rd) = v
  rw [if_neg h, if_pos rfl]

theorem written_rd_flag (rd v : Nat) (s : Machine) :
    (clear_x0 (sprintf (write_rd rd v s))).trap_pending_print = s.trap_pending_print := by
  rw [write_rd]
  split <;> rfl

/-- The state an instruction of the M extension leaves, by funct3. -/
theorem exec_op_m (i p : Nat) (s : Machine) (h7 : get_funct7 i = 1) :
    (get_funct3 i = 0 → exec_op i p s = clear_x0 (sprintf (write_rd (get_rd i)
      (ofInt (s32 (s.regs (get_rs1 i)) * s32 (s.regs (get_rs2 i)))) s))) ∧
    (get_funct3 i = 1 → exec_op i p s = clear_x0 (sprintf (write_rd (get_rd i)
      (ofInt ((s32 (s.regs (get_rs1 i)) * s32 (s.regs (get_rs2 i))) >>> 32)) s))) ∧
    (get_funct3 i = 2 → exec_op i p s = clear_x0 (sprintf (write_rd (get_rd i)
      ((((ofInt64 (s32 (s.regs (get_rs1 i))) * s.regs (get_rs2 i)) % 2 ^ 64) >>> 32) % 2 ^ 32)
      s))) ∧
    (get_funct3 i = 3 → exec_op i p s = clear_x0 (sprintf (write_rd (get_rd i)
      (((s.regs (get_rs1 i) * s.regs (get_rs2 i)) >>> 32) % 2 ^ 32) s))) ∧
    (get_funct3 i = 4 → exec_op i p s = clear_x0 (sprintf (write_rd (get_rd i)
      (div_result (s.regs (get_rs1 i)) (s.regs (get_rs2 i))) s))) ∧
    (get_funct3 i = 5 → exec_op i p s = clear_x0 (sprintf (write_rd (get_rd i)
      (divu_result (s.regs (get_rs1 i)) (s.regs (get_rs2 i))) s))) ∧
    (get_funct3 i = 6 → exec_op i p s = clear_x0 (sprintf (write_rd (get_rd i)
      (rem_result (s.regs (get_rs1 i)) (s.regs (get_rs2 i))) s))) ∧
    (get_funct3 i = 7 → exec_op i p s = clear_x0 (sprintf (write_rd (get_rd i)
      (remu_result (s.regs (get_rs1 i)) (s.regs (get_rs2 i))) s))) := by
  refine ⟨?_, ?_, ?_, ?_, ?_, ?_, ?_, ?_⟩ <;> intro hf <;> rw [exec_op] <;>
    simp only [h7, hf, Nat.reduceEqDiff, if_false, if_true]

/-- C15: for an instruction of the M extension (opcode 0x33, funct7 = 1) with
rd != 0: when the divisor `regs[rs2]` is 0, `div` (funct3 = 4) and `divu`
(funct3 = 5) leave 0xFFFFFFFF in rd and `rem` (funct3 = 6) and `remu`
(funct3 = 7) leave the dividend `regs[rs1]` in rd; when the dividend is
0x80000000 and the divisor 0xFFFFFFFF, `div` leaves 0x80000000 and `rem` leaves
0; and none of the four instructions changes the pending-trap flag, whatever
the operands are. -/
theorem C15_division_corner_cases (i p : Nat) (s : Machine) (ho : get_opcode i = 0x33)
    (h7 : get_funct7 i = 1) (hrd : get_rd i ≠ 0) :
    (s.regs (get_rs2 i) = 0 →
      (get_funct3 i = 4 → (decode_and_execute i p s).regs (get_rd i) = 0xFFFFFFFF) ∧
      (get_funct3 i = 5 → (decode_and_execute i p s).regs (get_rd i) = 0xFFFFFFFF) ∧
      (get_funct3 i = 6 → (decode_and_execute i p s).regs (get_rd i) = s.regs (get_rs1 i)) ∧
      (get_funct3 i = 7 → (decode_and_execute i p s).regs (get_rd i) = s.regs (get_rs1 i))) ∧
    (s.regs (get_rs1 i) = 0x80000000 → s.regs (get_rs2 i) = 0xFFFFFFFF →
      (get_funct3 i = 4 → (decode_and_execute i p s).regs (get_rd i) = 0x80000000) ∧
      (get_funct3 i = 6 → (decode_and_execute i p s).regs (get_rd i) = 0)) ∧
    (get_funct3 i = 4 ∨ get_funct3 i = 5 ∨ get_funct3 i = 6 ∨ get_funct3 i = 7 →
      (decode_and_execute i p s).trap_pending_print = s.trap_pending_print) := by
  obtain ⟨-, -, -, -, h4, h5, h6, h7'⟩ := exec_op_m i p s h7
  rw [decode_op i p s ho]
  refine ⟨fun hz => ⟨fun hf => ?_, fun hf => ?_, fun hf => ?_, fun hf => ?_⟩,
    fun ha hb => ⟨fun hf => ?_, fun hf => ?_⟩, fun hf => ?_⟩
  · rw [h4 hf, written_rd _ _ _ hrd, hz, div_result, if_pos rfl]; decide
  · rw [h5 hf, written_rd _ _ _ hrd, hz, divu_result, if_pos rfl]
  · rw [h6 hf, written_rd _ _ _ hrd, hz, rem_result, if_pos rfl]
  · rw [h7' hf, written_rd _ _ _ hrd, hz, remu_result, if_pos rfl]
  · rw [h4 hf, written_rd _ _ _ hrd, ha, hb, div_result, if_neg (by decide), if_pos (by decide)]
  · rw [h6 hf, written_rd _ _ _ hrd, ha, hb, rem_result, if_neg (by decide), if_pos (by decide)]
  · rcases hf with hf | hf | hf | hf
    · rw [h4 hf, written_rd_flag]
    · rw [h5 hf, written_rd_flag]
    · rw [h6 hf, written_rd_flag]
    · rw [h7' hf, written_rd_flag]

theorem s32_emod (a : Nat) : s32 a % 2 ^ 32 = (a : Int) % 2 ^ 32 := by
  rw [s32]
  split <;> omega

theorem mul_low (a b : Nat) : ofInt (s32 a * s32 b) = (a * b) % 2 ^ 32 := by
  have h : (s32 a * s32 b) % 2 ^ 32 = (((a * b) % 2 ^ 32 : Nat) : Int) := by
    rw [Int.mul_emod, s32_emod, s32_emod, ← Int.mul_emod]
    push_cast
    rfl
  rw [ofInt, h, Int.toNat_natCast]

/-- The shift `x >> 32` of a signed 64-bit value is the floor of `x / 2^32`. -/
theorem shiftRight_32 (x : Int) : x >>> (32 : Int) = x / 2 ^ 32 := by
  cases x with
  | ofNat m =>
    have h := Int.shiftRight_coe_nat m 32
    rw [Nat.shiftRight_eq_div_pow] at h
    show (m : Int) >>> ((32 : Nat) : Int) = _
    rw [h]
    push_cast
    rfl
  | negSucc m =>
    have h := Int.shiftRight_negSucc m 32
    rw [Nat.shiftRight_eq_div_pow] at h
    show Int.negSucc m >>> ((32 : Nat) : Int) = _
    rw [h, Int.negSucc_eq, Int.negSucc_eq]
    push_cast
    omega

theorem mulh_high (x : Int) : ofInt (x >>> 32) = (Int.fdiv x (2 ^ 32) % 2 ^ 32).toNat := by
  rw [ofInt, Int.fdiv_eq_ediv x (by norm_num), shiftRight_32]

theorem high_of_emod (x : Int) : x % 2 ^ 64 / 2 ^ 32 % 2 ^ 32 = x / 2 ^ 32 % 2 ^ 32 := by
  omega

theorem mulhsu_high (y : Int) (b : Nat) :
    (((ofInt64 y * b) % 2 ^ 64) >>> 32) % 2 ^ 32 =
      (Int.fdiv (y * (b : Int)) (2 ^ 32) % 2 ^ 32).toNat := by
  have h1 : ((ofInt64 y : Nat) : Int) = y % 2 ^ 64 := by
    rw [ofInt64]
    exact Int.toNat_of_nonneg (Int.emod_nonneg _ (by norm_num))
  have h2 : ((((ofInt64 y * b) % 2 ^ 64) >>> 32) % 2 ^ 32 : Nat) =
      (y * (b : Int)) / 2 ^ 32 % 2 ^ 32 := by
    have k1 : (y % 2 ^ 64 * (b : Int)) % 2 ^ 64 = (y * (b : Int)) % 2 ^ 64 := by
      rw [Int.mul_emod, Int.emod_emod, ← Int.mul_emod]
    have k2 := high_of_emod (y * (b : Int))
    rw [Nat.shiftRight_eq_div_pow]
    simp only [Int.natCast_mod, Int.natCast_div, Nat.cast_mul, Nat.cast_pow, Nat.cast_ofNat]
    rw [h1, k1]
    exact k2
  rw [Int.fdiv_eq_ediv _ (by norm_num), ← h2, Int.toNat_natCast]

theorem mulhu_high (a b : Nat) (ha : a < 2 ^ 32) (hb : b < 2 ^ 32) :
    ((a * b) >>> 32) % 2 ^ 32 = a * b / 2 ^ 32 := by
  rw [Nat.shiftRight_eq_div_pow]
  apply Nat.mod_eq_of_lt
  apply Nat.div_lt_of_lt_mul
  exact Nat.mul_lt_mul'' ha hb

/-- C16: for an instruction of the M extension (opcode 0x33, funct7 = 1) with
rd != 0 and 32-bit operands a = regs[rs1] and b = regs[rs2], with `s32 x` the
signed value of `x`: `mul` (funct3 = 0) leaves the low 32 bits of the product
`a * b` in rd, `mulh` (funct3 = 1) leaves floor(s32 a * s32 b / 2^32) mod 2^32,
`mulhsu` (funct3 = 2) leaves floor(s32 a * b / 2^32) mod 2^32, and `mulhu`
(funct3 = 3) leaves floor(a * b / 2^32). -/
theorem C16_multiplication (i p : Nat) (s : Machine) (a b : Nat) (ho : get_opcode i = 0x33)
    (h7 : get_funct7 i = 1) (hrd : get_rd i ≠ 0) (ha : s.regs (get_rs1 i) = a)
    (hb : s.regs (get_rs2 i) = b) (ha32 : a < 2 ^ 32) (hb32 : b < 2 ^ 32) :
    (get_funct3 i = 0 → (decode_and_execute i p s).regs (get_rd i) = (a * b) % 2 ^ 32) ∧
    (get_funct3 i = 1 → (decode_and_execute i p s).regs (get_rd i) =
      (Int.fdiv (s32 a * s32 b) (2 ^ 32) % 2 ^ 32).toNat) ∧
    (get_funct3 i = 2 → (decode_and_execute i p s).regs (get_rd i) =
      (Int.fdiv (s32 a * (b : Int)) (2 ^ 32) % 2 ^ 32).toNat) ∧
    (get_funct3 i = 3 → (decode_and_execute i p s).regs (get_rd i) = a * b / 2 ^ 32) := by
  obtain ⟨h0, h1, h2, h3, -⟩ := exec_op_m i p s h7
  rw [decode_op i p s ho]
  refine ⟨fun hf => ?_, fun hf => ?_, fun hf => ?_, fun hf => ?_⟩
  · rw [h0 hf, written_rd _ _ _ hrd, ha, hb, mul_low]
  · rw [h1 hf, written_rd _ _ _ hrd, ha, hb, mulh_high]
  · rw [h2 hf, written_rd _ _ _ hrd, ha, hb, mulhsu_high]
  · rw [h3 hf, written_rd _ _ _ hrd, ha, hb, mulhu_high a b ha32 hb32]

/-- C15 at a concrete input: `div x3,x1,x2` (0x0220C1B3) with x1 = 7 and x2 = 0
leaves 0xFFFFFFFF in x3. -/
theorem C15_division_corner_cases_witness :
    (get_opcode 0x0220C1B3 = 0x33 ∧ get_funct7 0x0220C1B3 = 1 ∧ get_rd 0x0220C1B3 ≠ 0 ∧
      (set_reg 1 7 power_on).regs (get_rs2 0x0220C1B3) = 0 ∧ get_funct3 0x0220C1B3 = 4) ∧
    (decode_and_execute 0x0220C1B3 0x80000000 (set_reg 1 7 power_on)).regs 3 = 0xFFFFFFFF :=
  ⟨by decide,
    ((C15_division_corner_cases 0x0220C1B3 0x80000000 (set_reg 1 7 power_on) (by decide)
      (by decide) (by decide)).1 (by decide)).1 (by decide)⟩

/-- C16 at a concrete input: `mulhsu x3,x1,x2` (0x0220A1B3) with x1 = 0xFFFFFFFF
(the signed value -1) and x2 = 0xFFFFFFFF leaves 0xFFFFFFFF in x3, the high
word of -0xFFFFFFFF. -/
theorem C16_multiplication_witness :
    (get_opcode 0x0220A1B3 = 0x33 ∧ get_funct7 0x0220A1B3 = 1 ∧ get_rd 0x0220A1B3 ≠ 0 ∧
      get_funct3 0x0220A1B3 = 2 ∧ 0xFFFFFFFF < 2 ^ 32) ∧
    (decode_and_execute 0x0220A1B3 0x80000000
      (set_reg 1 0xFFFFFFFF (set_reg 2 0xFFFFFFFF power_on))).regs 3 = 0xFFFFFFFF :=
  ⟨by decide,
    ((C16_multiplication 0x0220A1B3 0x80000000
      (set_reg 1 0xFFFFFFFF (set_reg 2 0xFFFFFFFF power_on)) 0xFFFFFFFF 0xFFFFFFFF (by decide)
      (by decide) (by decide) (by decide) (by decide) (by decide) (by decide)).2.2.1
      (by decide)).trans (by decide)⟩

/-! ## Halfword store followed by halfword load -/

theorem decode_store (i p : Nat) (s : Machine) (ho : get_opcode i = 0x23) :
    decode_and_execute i p s = exec_store i p s := by
  rw [decode_and_execute]
  simp only [ho, Nat.reduceEqDiff, if_false, if_true]

theorem decode_load (i p : Nat) (s : Machine) (ho : get_opcode i = 0x03) :
    decode_and_execute i p s = exec_load i p s := by
  rw [decode_and_execute]
  simp only [ho, Nat.reduceEqDiff, if_false, if_true]

/-- The tail of a load or store leaves RAM as the memory helper left it. -/
theorem access_tail_memory (r : Machine) :
    (clear_x0 (if r.trap_pending_print then r else sprintf r)).memory = r.memory := by
  split <;> rfl

/-- The tail of a load or store leaves every register but x0 as it was. -/
theorem access_tail_regs (r : Machine) (j : Nat) (hj : j ≠ 0) :
    (clear_x0 (if r.trap_pending_print then r else sprintf r)).regs j = r.regs j := by
  by_cases h : r.trap_pending_print = true
  · rw [if_pos h]
    show (if j = 0 then 0 else r.regs j) = _
    rw [if_neg hj]
  · rw [if_neg h]
    show (if j = 0 then 0 else r.regs j) = _
    rw [if_neg hj]

theorem ram_index_halfword (a k : Nat) (hlo : 0x80000000 ≤ a) (hhi : a ≤ 0x8001FFFE)
    (hk : k ≤ 1) : add32 (sub32 a PC_START_ADDRESS) k = a - 0x80000000 + k := by
  rw [add32, sub32, PC_START_ADDRESS]; omega

theorem memory_write_halfword_ram (s : Machine) (a v current_pc : Nat) (ha : a % 2 = 0)
    (hlo : 0x80000000 ≤ a) (hhi : a ≤ 0x8001FFFE) :
    memory_write_halfword a v current_pc s =
      store_byte (a - 0x80000000 + 1) ((v >>> 8) &&& 0xFF)
        (store_byte (a - 0x80000000 + 0) (v &&& 0xFF) s) := by
  have h1 : ¬ a % 2 ≠ 0 := by omega
  have h2 : a ≥ PC_START_ADDRESS ∧ add32 (sub32 a PC_START_ADDRESS) 1 < MEMORY_SIZE := by
    rw [ram_index_halfword a 1 hlo hhi (by omega), PC_START_ADDRESS, MEMORY_SIZE]; omega
  rw [memory_write_halfword, if_neg h1, if_pos h2, ram_index_halfword a 0 hlo hhi (by omega),
    ram_index_halfword a 1 hlo hhi (by omega)]

theorem memory_read_halfword_ram (s : Machine) (a current_pc : Nat) (ha : a % 2 = 0)
    (hlo : 0x80000000 ≤ a) (hhi : a ≤ 0x8001FFFE) :
    memory_read_halfword a current_pc s =
      ((s.memory (a - 0x80000000 + 0) ||| (s.memory (a - 0x80000000 + 1) <<< 8)) % 2 ^ 16, s) := by
  have h1 : ¬ a % 2 ≠ 0 := by omega
  have h2 : a ≥ PC_START_ADDRESS ∧ add32 (sub32 a PC_START_ADDRESS) 1 < MEMORY_SIZE := by
    rw [ram_index_halfword a 1 hlo hhi (by omega), PC_START_ADDRESS, MEMORY_SIZE]; omega
  have h3 : sub32 a PC_START_ADDRESS = a - 0x80000000 + 0 := by
    rw [sub32, PC_START_ADDRESS]; omega
  rw [memory_read_halfword, if_neg h1, if_pos h2, ram_index_halfword a 1 hlo hhi (by omega), h3]

theorem halfword_of_bytes (w : Nat) :
    (((w &&& 0xFF) % 256) ||| ((((w >>> 8) &&& 0xFF) % 256) <<< 8)) % 2 ^ 16 = w % 2 ^ 16 := by
  have e : ∀ x : Nat, x &&& 0xFF = x % 256 := fun x => Nat.and_pow_two_sub_one_eq_mod x 8
  simp only [e, Nat.shiftRight_eq_div_pow, Nat.mod_mod]
  rw [or_shift_eq_add _ _ 8 (by omega)]
  omega

theorem sign_extend_halfword (w : Nat) (h : w < 2 ^ 16) :
    ofInt (s16 w) = if w < 2 ^ 15 then w else w + 0xFFFF0000 := by
  rw [ofInt, s16]
  split <;> omega

/-- C11: let `st` be an `sh` instruction (opcode 0x23, funct3 = 1) whose source
register holds `v` and whose effective address is `a`, a 2-byte-aligned address
of RAM (0x80000000 <= a < 0x80020000), and let `ld` be a load (opcode 0x03)
with rd != 0 whose effective address, in the state `st` leaves, is `a` too.
Executing `st` and then `ld` leaves in rd the value `v mod 2^16` when `ld` is
`lhu` (funct3 = 5), and the low 16 bits of `v` sign-extended from bit 15 when
`ld` is `lh` (funct3 = 1). -/
theorem C11_store_halfword_load_halfword (s : Machine) (st ld p1 p2 a v : Nat)
    (hst : get_opcode st = 0x23 ∧ get_funct3 st = 1) (hv : s.regs (get_rs2 st) = v)
    (hst_a : add32 (s.regs (get_rs1 st)) (ofInt (get_imm_S st)) = a)
    (ha : a % 2 = 0) (hlo : 0x80000000 ≤ a) (hhi : a < 0x80020000)
    (hld : get_opcode ld = 0x03) (hrd : get_rd ld ≠ 0)
    (hld_a : add32 ((decode_and_execute st p1 s).regs (get_rs1 ld)) (ofInt (get_imm_I ld)) = a) :
    (get_funct3 ld = 5 →
      (decode_and_execute ld p2 (decode_and_execute st p1 s)).regs (get_rd ld) = v % 2 ^ 16) ∧
    (get_funct3 ld = 1 →
      (decode_and_execute ld p2 (decode_and_execute st p1 s)).regs (get_rd ld) =
        if v % 2 ^ 16 < 2 ^ 15 then v % 2 ^ 16 else v % 2 ^ 16 + 0xFFFF0000) := by
  have hhi' : a ≤ 0x8001FFFE := by omega
  have hstore : decode_and_execute st p1 s =
      clear_x0 (if (memory_write_halfword a (v % 2 ^ 16) p1 s).trap_pending_print
        then memory_write_halfword a (v % 2 ^ 16) p1 s
        else sprintf (memory_write_halfword a (v % 2 ^ 16) p1 s)) := by
    rw [decode_store st p1 s hst.1, exec_store]
    simp only [hst.2, hv, hst_a, Nat.reduceEqDiff, if_false, if_true]
  have hmem : (decode_and_execute st p1 s).memory =
      (store_byte (a - 0x80000000 + 1) (((v % 2 ^ 16) >>> 8) &&& 0xFF)
        (store_byte (a - 0x80000000 + 0) ((v % 2 ^ 16) &&& 0xFF) s)).memory := by
    rw [hstore, access_tail_memory, memory_write_halfword_ram s a _ p1 ha hlo hhi']
  have hread : memory_read_halfword a p2 (decode_and_execute st p1 s) =
      (v % 2 ^ 16, decode_and_execute st p1 s) := by
    have b0 : (decode_and_execute st p1 s).memory (a - 0x80000000 + 0) =
        ((v % 2 ^ 16) &&& 0xFF) % 256 := by
      rw [hmem, store_byte_memory, if_neg (by omega), store_byte_memory, if_pos rfl]
    have b1 : (decode_and_execute st p1 s).memory (a - 0x80000000 + 1) =
        (((v % 2 ^ 16) >>> 8) &&& 0xFF) % 256 := by
      rw [hmem, store_byte_memory, if_pos rfl]
    rw [memory_read_halfword_ram _ a p2 ha hlo hhi', b0, b1, halfword_of_bytes, Nat.mod_mod]
  constructor
  · intro hf
    have e : decode_and_execute ld p2 (decode_and_execute st p1 s) =
        clear_x0 (if (set_reg (get_rd ld) (v % 2 ^ 16)
            (decode_and_execute st p1 s)).trap_pending_print
          then set_reg (get_rd ld) (v % 2 ^ 16) (decode_and_execute st p1 s)
          else sprintf (set_reg (get_rd ld) (v % 2 ^ 16) (decode_and_execute st p1 s))) := by
      rw [decode_load ld p2 _ hld, exec_load]
      simp only [hf, Nat.reduceEqDiff, if_false, if_true]
      rw [if_pos hrd, hld_a, hread]
    rw [e, access_tail_regs _ _ hrd]
    show (if get_rd ld = get_rd ld then v % 2 ^ 16 else _) = _
    rw [if_pos rfl]
  · intro hf
    have e : decode_and_execute ld p2 (decode_and_execute st p1 s) =
        clear_x0 (if (set_reg (get_rd ld) (ofInt (s16 (v % 2 ^ 16)))
            (decode_and_execute st p1 s)).trap_pending_print
          then set_reg (get_rd ld) (ofInt (s16 (v % 2 ^ 16))) (decode_and_execute st p1 s)
          else sprintf (set_reg (get_rd ld) (ofInt (s16 (v % 2 ^ 16)))
            (decode_and_execute st p1 s))) := by
      rw [decode_load ld p2 _ hld, exec_load]
      simp only [hf, Nat.reduceEqDiff, if_false, if_true]
      rw [if_pos hrd, hld_a, hread]
    rw [e, access_tail_regs _ _ hrd]
    show (if get_rd ld = get_rd ld then ofInt (s16 (v % 2 ^ 16)) else _) = _
    rw [if_pos rfl, sign_extend_halfword _ (by omega)]

/-- C11 at a concrete input: with x2 = 0x80020000 and x5 = 0x1234ABCD,
`sh x5,-2(x2)` (0xFE511F23) followed by `lhu x6,-2(x2)` (0xFFE15303) leaves
0xABCD in x6, and followed by `lh x6,-2(x2)` (0xFFE11303) leaves 0xFFFFABCD. -/
theorem C11_store_halfword_load_halfword_witness :
    ((get_opcode 0xFE511F23 = 0x23 ∧ get_funct3 0xFE511F23 = 1) ∧
      get_opcode 0xFFE15303 = 0x03 ∧ get_rd 0xFFE15303 ≠ 0 ∧ get_funct3 0xFFE15303 = 5 ∧
      get_opcode 0xFFE11303 = 0x03 ∧ get_rd 0xFFE11303 ≠ 0 ∧ get_funct3 0xFFE11303 = 1) ∧
    (decode_and_execute 0xFFE15303 0x80000004 (decode_and_execute 0xFE511F23 0x80000000
      (set_reg 5 0x1234ABCD (set_reg 2 0x80020000 power_on)))).regs 6 = 0xABCD ∧
    (decode_and_execute 0xFFE11303 0x80000004 (decode_and_execute 0xFE511F23 0x80000000
      (set_reg 5 0x1234ABCD (set_reg 2 0x80020000 power_on)))).regs 6 = 0xFFFFABCD :=
  ⟨by decide,
    ((C11_store_halfword_load_halfword (set_reg 5 0x1234ABCD (set_reg 2 0x80020000 power_on))
      0xFE511F23 0xFFE15303 0x80000000 0x80000004 0x8001FFFE 0x1234ABCD (by decide) (by decide)
      (by decide) (by decide) (by decide) (by decide) (by decide) (by decide) (by decide)).1
      (by decide)).trans (by decide),
    ((C11_store_halfword_load_halfword (set_reg 5 0x1234ABCD (set_reg 2 0x80020000 power_on))
      0xFE511F23 0xFFE11303 0x80000000 0x80000004 0x8001FFFE 0x1234ABCD (by decide) (by decide)
      (by decide) (by decide) (by decide) (by decide) (by decide) (by decide) (by decide)).2
      (by decide)).trans (by decide)⟩

/-! ## Two `csrrw` instructions with swapped registers -/

theorem decode_system (i p : Nat) (s : Machine) (ho : get_opcode i = 0x73) :
    decode_and_execute i p s = exec_system i p s := by
  rw [decode_and_execute]
  simp only [ho, Nat.reduceEqDiff, if_false, if_true]

/-- What `csrrw` does: rd receives the CSR, then the CSR receives the value
`regs[rs1]` had before. -/
theorem csrrw_effect (i p : Nat) (s : Machine) (ho : get_opcode i = 0x73)
    (hf : get_funct3 i = 1) :
    decode_and_execute i p s =
      clear_x0 (sprintf (write_csr (ofInt (get_imm_I i) &&& 0xFFF) (s.regs (get_rs1 i))
        (write_rd (get_rd i) (read_csr (ofInt (get_imm_I i) &&& 0xFFF) s) s))) := by
  rw [decode_system i p s ho, exec_system]
  simp only [hf, Nat.reduceEqDiff, if_false, if_true]

theorem write_csr_regs (c v : Nat) (s : Machine) : (write_csr c v s).regs = s.regs := by
  rw [write_csr]
  repeat' split
  all_goals rfl

/-- A CSR read after a write of the same address returns the value written when
the address is one of the nine modelled ones, and 0 otherwise. -/
theorem read_csr_write_csr (c v : Nat) (s : Machine) :
    read_csr c (write_csr c v s) =
      if c = 0x300 ∨ c = 0x301 ∨ c = 0x304 ∨ c = 0x305 ∨ c = 0x340 ∨ c = 0x341 ∨ c = 0x342 ∨
        c = 0x343 ∨ c = 0x344 then v else 0 := by
  by_cases h0 : c = 0x300
  · subst h0; rfl
  by_cases h1 : c = 0x301
  · subst h1; rfl
  by_cases h2 : c = 0x304
  · subst h2; rfl
  by_cases h3 : c = 0x305
  · subst h3; rfl
  by_cases h4 : c = 0x340
  · subst h4; rfl
  by_cases h5 : c = 0x341
  · subst h5; rfl
  by_cases h6 : c = 0x342
  · subst h6; rfl
  by_cases h7 : c = 0x343
  · subst h7; rfl
  by_cases h8 : c = 0x344
  · subst h8; rfl
  rw [read_csr, if_neg h0, if_neg h1, if_neg h2, if_neg h3, if_neg h4, if_neg h5, if_neg h6,
    if_neg h7, if_neg h8, if_neg (by tauto)]

theorem read_csr_unmodelled (c : Nat) (s : Machine)
    (h : ¬ (c = 0x300 ∨ c = 0x301 ∨ c = 0x304 ∨ c = 0x305 ∨ c = 0x340 ∨ c = 0x341 ∨ c = 0x342 ∨
      c = 0x343 ∨ c = 0x344)) : read_csr c s = 0 := by
  rw [read_csr, if_neg (by tauto), if_neg (by tauto), if_neg (by tauto), if_neg (by tauto),
    if_neg (by tauto), if_neg (by tauto), if_neg (by tauto), if_neg (by tauto),
    if_neg (by tauto)]

theorem read_csr_tail (c : Nat) (s : Machine) : read_csr c (clear_x0 (sprintf s)) = read_csr c s :=
  rfl

theorem tail_regs (r : Machine) (j : Nat) (hj : j ≠ 0) :
    (clear_x0 (sprintf r)).regs j = r.regs j := by
  show (if j = 0 then 0 else r.regs j) = _
  rw [if_neg hj]

theorem write_rd_regs (rd v : Nat) (s : Machine) (h : rd ≠ 0) :
    (write_rd rd v s).regs rd = v := by
  rw [write_rd, if_pos h]
  show (if rd = rd then v else s.regs rd) = v
  rw [if_pos rfl]

/-- C12, amended: let `i1` and `i2` be `csrrw` instructions (opcode 0x73,
funct3 = 1) on the same CSR address `c`, the second with the register indices
of the first swapped (rd of `i2` is rs1 of `i1` and rs1 of `i2` is rd of `i1`).
When rd of `i1` is not x0, executing `i1` and then `i2` leaves CSR `c` with the
value it had before `i1`. -/
theorem C12_csrrw_swap_restores (s : Machine) (i1 i2 p1 p2 c : Nat)
    (h1 : get_opcode i1 = 0x73 ∧ get_funct3 i1 = 1 ∧ ofInt (get_imm_I i1) &&& 0xFFF = c)
    (h2 : get_opcode i2 = 0x73 ∧ get_funct3 i2 = 1 ∧ ofInt (get_imm_I i2) &&& 0xFFF = c)
    (hswap : get_rd i2 = get_rs1 i1 ∧ get_rs1 i2 = get_rd i1) (ha : get_rd i1 ≠ 0) :
    read_csr c (decode_and_execute i2 p2 (decode_and_execute i1 p1 s)) = read_csr c s := by
  have e1 := csrrw_effect i1 p1 s h1.1 h1.2.1
  have e2 := csrrw_effect i2 p2 (decode_and_execute i1 p1 s) h2.1 h2.2.1
  rw [h1.2.2] at e1
  rw [h2.2.2, hswap.2] at e2
  have hreg : (decode_and_execute i1 p1 s).regs (get_rd i1) = read_csr c s := by
    rw [e1, tail_regs _ _ ha, write_csr_regs, write_rd_regs _ _ _ ha]
  rw [e2, read_csr_tail, read_csr_write_csr, hreg]
  split
  · rfl
  · rename_i h
    rw [read_csr_unmodelled c s h]

/-- C12 at a concrete input: `csrrw x1,mscratch,x2` (0x340110F3) followed by
`csrrw x2,mscratch,x1` (0x34009173) with mscratch = 0x55. -/
theorem C12_csrrw_swap_restores_witness :
    ((get_opcode 0x340110F3 = 0x73 ∧ get_funct3 0x340110F3 = 1 ∧
        ofInt (get_imm_I 0x340110F3) &&& 0xFFF = 0x340) ∧
      (get_opcode 0x34009173 = 0x73 ∧ get_funct3 0x34009173 = 1 ∧
        ofInt (get_imm_I 0x34009173) &&& 0xFFF = 0x340) ∧
      (get_rd 0x34009173 = get_rs1 0x340110F3 ∧ get_rs1 0x34009173 = get_rd 0x340110F3) ∧
      get_rd 0x340110F3 ≠ 0) ∧
    read_csr 0x340 (decode_and_execute 0x34009173 0x80000004
      (decode_and_execute 0x340110F3 0x80000000 { power_on with mscratch := 0x55 })) = 0x55 :=
  ⟨by decide,
    C12_csrrw_swap_restores { power_on with mscratch := 0x55 } 0x340110F3 0x34009173 0x80000000
      0x80000004 0x340 (by decide) (by decide) (by decide) (by decide)⟩

/-- C12 as stated fails when the first destination register is x0: the image
holds `csrrw x0,misa,x1` (0x30109073) followed by `csrrw x1,misa,x0`
(0x301010F3), the register indices swapped.  misa holds 0x40101101 when the
loop is entered and 0 after the two instructions, because the second one
writes the value of x0. -/
theorem C12_csrrw_swap_counterexample :
    (get_opcode 0x30109073 = 0x73 ∧ get_funct3 0x30109073 = 1 ∧ get_rd 0x30109073 = 0 ∧
      get_rs1 0x30109073 = 1 ∧ ofInt (get_imm_I 0x30109073) &&& 0xFFF = 0x301) ∧
    (get_opcode 0x301010F3 = 0x73 ∧ get_funct3 0x301010F3 = 1 ∧ get_rd 0x301010F3 = 1 ∧
      get_rs1 0x301010F3 = 0 ∧ ofInt (get_imm_I 0x301010F3) &&& 0xFFF = 0x301) ∧
    (fetch_instruction_from_pc (main_init image_csrrw_swap_x0 [])).1 = 0x30109073 ∧
    (fetch_instruction_from_pc (run 1 (main_init image_csrrw_swap_x0 []))).1 = 0x301010F3 ∧
    read_csr 0x301 (main_init image_csrrw_swap_x0 []) = 0x40101101 ∧
    read_csr 0x301 (run 2 (main_init image_csrrw_swap_x0 [])) = 0 ∧
    (run 2 (main_init image_csrrw_swap_x0 [])).outfile =
      [TraceLine.instruction 0x80000000, TraceLine.instruction 0x80000004] ∧
    read_csr 0x301 (decode_and_execute 0x301010F3 0x80000004
      (decode_and_execute 0x30109073 0x80000000 (main_init image_csrrw_swap_x0 []))) ≠
      read_csr 0x301 (main_init image_csrrw_swap_x0 []) := by
  decide

/-! ## Access faults of the memory helpers -/

theorem accessFault_trigger (c a p : Nat) (s : Machine) :
    AccessFault c a p s (trigger_trap c a p s) := by
  rw [trigger_trap]
  split <;> exact ⟨rfl, rfl, rfl, rfl, rfl, rfl, rfl, rfl, rfl, rfl, rfl, rfl, rfl, rfl, rfl, rfl⟩

theorem read_byte_fault (s : Machine) (a p : Nat) (ha : a < 2 ^ 32)
    (hram : ¬ (0x80000000 ≤ a ∧ a + 1 ≤ 0x80020000))
    (hdev : ¬ (0x10000000 ≤ a ∧ a < 0x10000008)) :
    memory_read_byte a p s = (0, trigger_trap 5 a p s) := by
  have h1 : ¬ (a ≥ UART_BASE ∧ a < UART_BASE + 8) := by rw [UART_BASE]; omega
  have h2 : ¬ (a ≥ PC_START_ADDRESS ∧ sub32 a PC_START_ADDRESS < MEMORY_SIZE) := by
    rw [sub32, PC_START_ADDRESS, MEMORY_SIZE]; omega
  rw [memory_read_byte, if_neg h1, if_neg h2]

theorem write_byte_fault (s : Machine) (a v p : Nat) (ha : a < 2 ^ 32)
    (hram : ¬ (0x80000000 ≤ a ∧ a + 1 ≤ 0x80020000))
    (hdev : ¬ (0x10000000 ≤ a ∧ a < 0x10000008)) :
    memory_write_byte a v p s = trigger_trap 7 a p s := by
  have h1 : ¬ (a ≥ UART_BASE ∧ a < UART_BASE + 8) := by rw [UART_BASE]; omega
  have h2 : ¬ (a ≥ PC_START_ADDRESS ∧ sub32 a PC_START_ADDRESS < MEMORY_SIZE) := by
    rw [sub32, PC_START_ADDRESS, MEMORY_SIZE]; omega
  rw [memory_write_byte, if_neg h1, if_neg h2]

theorem read_halfword_fault (s : Machine) (a p : Nat) (ha : a < 2 ^ 32)
    (hram : ¬ (0x80000000 ≤ a ∧ a + 2 ≤ 0x80020000)) :
    memory_read_halfword a p s = (0, trigger_trap 5 a p s) := by
  have h2 : ¬ (a ≥ PC_START_ADDRESS ∧ add32 (sub32 a PC_START_ADDRESS) 1 < MEMORY_SIZE) := by
    rw [add32, sub32, PC_START_ADDRESS, MEMORY_SIZE]; omega
  rw [memory_read_halfword, if_neg h2]
  split <;> rfl

theorem write_halfword_fault (s : Machine) (a v p : Nat) (ha : a < 2 ^ 32)
    (hram : ¬ (0x80000000 ≤ a ∧ a + 2 ≤ 0x80020000)) :
    memory_write_halfword a v p s = trigger_trap 7 a p s := by
  have h2 : ¬ (a ≥ PC_START_ADDRESS ∧ add32 (sub32 a PC_START_ADDRESS) 1 < MEMORY_SIZE) := by
    rw [add32, sub32, PC_START_ADDRESS, MEMORY_SIZE]; omega
  rw [memory_write_halfword, if_neg h2]
  split <;> rfl

theorem read_word_fault (s : Machine) (a p : Nat) (ha : a < 2 ^ 32)
    (hram : ¬ (0x80000000 ≤ a ∧ a + 4 ≤ 0x80020000))
    (hdev : ¬ (a % 4 = 0 ∧ ((0x02000000 ≤ a ∧ a < 0x02010000) ∨
      (0x0C000000 ≤ a ∧ a < 0x10000000)))) :
    memory_read_word a p s = (0, trigger_trap 5 a p s) := by
  by_cases h0 : a % 4 ≠ 0
  · rw [memory_read_word, if_pos h0]
  · have h1 : ¬ (a ≥ CLINT_BASE ∧ a < CLINT_BASE + 0x10000) := by rw [CLINT_BASE]; omega
    have h2 : ¬ (a ≥ PLIC_BASE ∧ a < PLIC_BASE + 0x4000000) := by rw [PLIC_BASE]; omega
    have h3 : ¬ (a ≥ PC_START_ADDRESS ∧ add32 (sub32 a PC_START_ADDRESS) 3 < MEMORY_SIZE) := by
      rw [add32, sub32, PC_START_ADDRESS, MEMORY_SIZE]; omega
    rw [memory_read_word, if_neg h0, if_neg h1, if_neg h2, if_neg h3]

theorem write_word_fault (s : Machine) (a v p : Nat) (ha : a < 2 ^ 32)
    (hram : ¬ (0x80000000 ≤ a ∧ a + 4 ≤ 0x80020000))
    (hdev : ¬ (a % 4 = 0 ∧ ((0x02000000 ≤ a ∧ a < 0x02010000) ∨
      (0x0C000000 ≤ a ∧ a < 0x10000000)))) :
    memory_write_word a v p s = trigger_trap 7 a p s := by
  by_cases h0 : a % 4 ≠ 0
  · rw [memory_write_word, if_pos h0]
  · have h1 : ¬ (a ≥ CLINT_BASE ∧ a < CLINT_BASE + 0x10000) := by rw [CLINT_BASE]; omega
    have h2 : ¬ (a ≥ PLIC_BASE ∧ a < PLIC_BASE + 0x4000000) := by rw [PLIC_BASE]; omega
    have h3 : ¬ (a ≥ PC_START_ADDRESS ∧ add32 (sub32 a PC_START_ADDRESS) 3 < MEMORY_SIZE) := by
      rw [add32, sub32, PC_START_ADDRESS, MEMORY_SIZE]; omega
    rw [memory_write_word, if_neg h0, if_neg h1, if_neg h2, if_neg h3]

/-- C13: for a 32-bit address `a`, a pc `p` and any value `v`: when the bytes
[a, a+size) do not all lie in RAM [0x80000000, 0x80020000) and the access is
not routed to a device (a byte access with `a` in the UART window
[0x10000000, 0x10000008), a 4-byte-aligned word access with `a` in the CLINT
window [0x02000000, 0x02010000) or the PLIC window [0x0C000000, 0x10000000)),
each of the three read helpers returns 0 and leaves a pending trap with mcause
5, mtval `a` and mepc `p`, each of the three write helpers leaves a pending
trap with mcause 7, mtval `a` and mepc `p`, and RAM, the registers and the
device state are unchanged.  At the boundary, `memory_read_word` at 0x8001FFFC
returns the last four bytes of RAM and leaves the state as it is, and at
0x8001FFFD it faults. -/
theorem C13_access_outside_ram_faults (s : Machine) (a v p : Nat) (ha : a < 2 ^ 32) :
    (¬ (0x80000000 ≤ a ∧ a + 1 ≤ 0x80020000) → ¬ (0x10000000 ≤ a ∧ a < 0x10000008) →
      (memory_read_byte a p s).1 = 0 ∧ AccessFault 5 a p s (memory_read_byte a p s).2 ∧
      AccessFault 7 a p s (memory_write_byte a v p s)) ∧
    (¬ (0x80000000 ≤ a ∧ a + 2 ≤ 0x80020000) →
      (memory_read_halfword a p s).1 = 0 ∧ AccessFault 5 a p s (memory_read_halfword a p s).2 ∧
      AccessFault 7 a p s (memory_write_halfword a v p s)) ∧
    (¬ (0x80000000 ≤ a ∧ a + 4 ≤ 0x80020000) →
      ¬ (a % 4 = 0 ∧ ((0x02000000 ≤ a ∧ a < 0x02010000) ∨ (0x0C000000 ≤ a ∧ a < 0x10000000))) →
      (memory_read_word a p s).1 = 0 ∧ AccessFault 5 a p s (memory_read_word a p s).2 ∧
      AccessFault 7 a p s (memory_write_word a v p s)) ∧
    memory_read_word 0x8001FFFC p s =
      ((s.memory 0x1FFFC <<< 0) % 2 ^ 32 ||| (s.memory 0x1FFFD <<< 8) % 2 ^ 32 |||
       (s.memory 0x1FFFE <<< 16) % 2 ^ 32 ||| (s.memory 0x1FFFF <<< 24) % 2 ^ 32, s) ∧
    (memory_read_word 0x8001FFFD p s).1 = 0 ∧
    AccessFault 5 0x8001FFFD p s (memory_read_word 0x8001FFFD p s).2 := by
  refine ⟨fun hram hdev => ?_, fun hram => ?_, fun hram hdev => ?_, ?_, ?_, ?_⟩
  · rw [read_byte_fault s a p ha hram hdev, write_byte_fault s a v p ha hram hdev]
    exact ⟨rfl, accessFault_trigger 5 a p s, accessFault_trigger 7 a p s⟩
  · rw [read_halfword_fault s a p ha hram, write_halfword_fault s a v p ha hram]
    exact ⟨rfl, accessFault_trigger 5 a p s, accessFault_trigger 7 a p s⟩
  · rw [read_word_fault s a p ha hram hdev, write_word_fault s a v p ha hram hdev]
    exact ⟨rfl, accessFault_trigger 5 a p s, accessFault_trigger 7 a p s⟩
  · exact memory_read_word_ram s 0x8001FFFC p (by decide) (by decide) (by decide)
  · rw [read_word_fault s 0x8001FFFD p (by decide) (by decide) (by decide)]
  · rw [read_word_fault s 0x8001FFFD p (by decide) (by decide) (by decide)]
    exact accessFault_trigger 5 _ p s

/-- C13 at a concrete input: a byte read and a byte write at address 0 in the
power-on state. -/
theorem C13_access_outside_ram_faults_witness :
    (0 < 2 ^ 32 ∧ ¬ (0x80000000 ≤ 0 ∧ 0 + 1 ≤ 0x80020000) ∧ ¬ (0x10000000 ≤ 0 ∧ 0 < 0x10000008)) ∧
    (memory_read_byte 0 0x80000000 power_on).1 = 0 ∧
    AccessFault 5 0 0x80000000 power_on (memory_read_byte 0 0x80000000 power_on).2 ∧
    AccessFault 7 0 0x80000000 power_on (memory_write_byte 0 0xAB 0x80000000 power_on) :=
  ⟨by decide,
    (C13_access_outside_ram_faults power_on 0 0xAB 0x80000000 (by decide)).1 (by decide)
      (by decide)⟩

/-- C14: for every odd address `a`, `memory_read_halfword` returns 0 and leaves
a pending trap with mcause 5 and `memory_write_halfword` one with mcause 7; for
every address `a` not divisible by 4, `memory_read_word` returns 0 and leaves a
pending trap with mcause 5 and `memory_write_word` one with mcause 7.  In each
case mtval is `a`, mepc is the pc passed in, and RAM, the registers, `mip` and
the state of CLINT, PLIC and UART are unchanged, whatever window `a` lies in. -/
theorem C14_misaligned_access_faults (s : Machine) (a v p : Nat) :
    (a % 2 ≠ 0 →
      (memory_read_halfword a p s).1 = 0 ∧ AccessFault 5 a p s (memory_read_halfword a p s).2 ∧
      AccessFault 7 a p s (memory_write_halfword a v p s)) ∧
    (a % 4 ≠ 0 →
      (memory_read_word a p s).1 = 0 ∧ AccessFault 5 a p s (memory_read_word a p s).2 ∧
      AccessFault 7 a p s (memory_write_word a v p s)) := by
  refine ⟨fun h => ?_, fun h => ?_⟩
  · rw [memory_read_halfword, memory_write_halfword, if_pos h, if_pos h]
    exact ⟨rfl, accessFault_trigger 5 a p s, accessFault_trigger 7 a p s⟩
  · rw [memory_read_word, memory_write_word, if_pos h, if_pos h]
    exact ⟨rfl, accessFault_trigger 5 a p s, accessFault_trigger 7 a p s⟩

/-- C14 at a concrete input: a word write to 0x02004001, one byte above the
low word of mtimecmp in the CLINT window, faults and leaves mtimecmp alone. -/
theorem C14_misaligned_access_faults_witness :
    0x02004001 % 4 ≠ 0 ∧
    AccessFault 7 0x02004001 0x80000000 power_on
      (memory_write_word 0x02004001 0x1234 0x80000000 power_on) ∧
    (memory_write_word 0x02004001 0x1234 0x80000000 power_on).mtimecmp = power_on.mtimecmp :=
  ⟨by decide,
    ((C14_misaligned_access_faults power_on 0x02004001 0x1234 0x80000000).2 (by decide)).2.2,
    ((C14_misaligned_access_faults power_on 0x02004001 0x1234 0x80000000).2
      (by decide)).2.2.2.2.2.2.2.2.2.2.1⟩

/-! ## The interrupt check -/

theorem and_two_pow_ne_zero (x k : Nat) : x &&& 2 ^ k ≠ 0 ↔ x.testBit k = true := by
  constructor
  · intro h
    obtain ⟨j, hj⟩ := Nat.ne_zero_implies_bit_true h
    rw [Nat.testBit_and, Nat.testBit_two_pow, Bool.and_eq_true, decide_eq_true_eq] at hj
    obtain ⟨h1, h2⟩ := hj
    rw [h2]
    exact h1
  · intro h h0
    have e : (x &&& 2 ^ k).testBit k = true := by
      rw [Nat.testBit_and, h, Nat.testBit_two_pow_self]
      rfl
    rw [h0, Nat.zero_testBit] at e
    exact absurd e (by decide)

theorem and_bit_ne_zero (x k : Nat) : x &&& (1 <<< k) ≠ 0 ↔ x.testBit k = true := by
  rw [Nat.one_shiftLeft]
  exact and_two_pow_ne_zero x k

theorem trigger_trap_mcause (c t p : Nat) (s : Machine) : (trigger_trap c t p s).mcause = c :=
  (trigger_trap_trapAt c t p s s rfl rfl).2.2.1

theorem trigger_trap_mepc (c t p : Nat) (s : Machine) : (trigger_trap c t p s).mepc = p :=
  (trigger_trap_trapAt c t p s s rfl rfl).2.1

theorem interrupt_check_delivers (s : Machine) (p c : Nat) (hmie : s.mstatus.testBit 3 = true)
    (hne : s.mip &&& s.mie ≠ 0) (hc : select_trap_cause (s.mip &&& s.mie) = c) (hc0 : c ≠ 0) :
    interrupt_check p s = trigger_trap c 0 p s ∧ (interrupt_check p s).mcause = c ∧
    (interrupt_check p s).mepc = p ∧ (interrupt_check p s).trap_pending_print = true := by
  have e : interrupt_check p s = trigger_trap c 0 p s := by
    rw [interrupt_check]
    rw [if_pos ⟨(and_bit_ne_zero _ 3).2 hmie, hne⟩, hc, if_pos hc0]
  rw [e]
  exact ⟨rfl, trigger_trap_mcause c 0 p s, trigger_trap_mepc c 0 p s, trigger_trap_flag c 0 p s⟩

theorem ne_zero_of_testBit (x k : Nat) (h : x.testBit k = true) : x ≠ 0 := by
  intro h0
  rw [h0, Nat.zero_testBit] at h
  exact absurd h (by decide)

/-- C19: in the interrupt check for the instruction at `p`, with `mip & mie`
taken in the state `s` the check starts in: when bit 3 of mstatus (MIE) is 0, or
`mip & mie` is 0, the check leaves the state as it is, so no trap is raised;
when MIE is 1, the check raises the trap with mcause 0x8000000B if bit 11 of
`mip & mie` is set, with mcause 0x80000003 if bit 11 is clear and bit 3 is set,
and with mcause 0x80000007 if bits 11 and 3 are clear and bit 7 is set; in each
case mepc is `p`, mtval is 0 and the state is the one `trigger_trap` leaves. -/
theorem C19_interrupt_priority (s : Machine) (p : Nat) :
    (s.mstatus.testBit 3 = false ∨ s.mip &&& s.mie = 0 → interrupt_check p s = s) ∧
    (s.mstatus.testBit 3 = true → (s.mip &&& s.mie).testBit 11 = true →
      interrupt_check p s = trigger_trap 0x8000000B 0 p s ∧
      (interrupt_check p s).mcause = 0x8000000B ∧ (interrupt_check p s).mepc = p ∧
      (interrupt_check p s).trap_pending_print = true) ∧
    (s.mstatus.testBit 3 = true → (s.mip &&& s.mie).testBit 11 = false →
      (s.mip &&& s.mie).testBit 3 = true →
      interrupt_check p s = trigger_trap 0x80000003 0 p s ∧
      (interrupt_check p s).mcause = 0x80000003 ∧ (interrupt_check p s).mepc = p ∧
      (interrupt_check p s).trap_pending_print = true) ∧
    (s.mstatus.testBit 3 = true → (s.mip &&& s.mie).testBit 11 = false →
      (s.mip &&& s.mie).testBit 3 = false → (s.mip &&& s.mie).testBit 7 = true →
      interrupt_check p s = trigger_trap 0x80000007 0 p s ∧
      (interrupt_check p s).mcause = 0x80000007 ∧ (interrupt_check p s).mepc = p ∧
      (interrupt_check p s).trap_pending_print = true) := by
  refine ⟨fun h => ?_, fun hm h11 => ?_, fun hm h11 h3 => ?_, fun hm h11 h3 h7 => ?_⟩
  · have hc : ¬ (s.mstatus &&& (1 <<< 3) ≠ 0 ∧ s.mip &&& s.mie ≠ 0) := by
      rintro ⟨h1, h2⟩
      rcases h with h | h
      · rw [(and_bit_ne_zero _ 3).1 h1] at h
        exact absurd h (by decide)
      · exact h2 h
    rw [interrupt_check]
    rw [if_neg hc]
  · apply interrupt_check_delivers s p _ hm (ne_zero_of_testBit _ 11 h11) _ (by decide)
    rw [select_trap_cause, if_pos ((and_bit_ne_zero _ 11).2 h11)]
  · apply interrupt_check_delivers s p _ hm (ne_zero_of_testBit _ 3 h3) _ (by decide)
    have n11 : ¬ ((s.mip &&& s.mie) &&& (1 <<< 11) ≠ 0) := by
      rw [and_bit_ne_zero, h11]; decide
    rw [select_trap_cause, if_neg n11, if_pos ((and_bit_ne_zero _ 3).2 h3)]
  · apply interrupt_check_delivers s p _ hm (ne_zero_of_testBit _ 7 h7) _ (by decide)
    have n11 : ¬ ((s.mip &&& s.mie) &&& (1 <<< 11) ≠ 0) := by
      rw [and_bit_ne_zero, h11]; decide
    have n3 : ¬ ((s.mip &&& s.mie) &&& (1 <<< 3) ≠ 0) := by
      rw [and_bit_ne_zero, h3]; decide
    rw [select_trap_cause, if_neg n11, if_neg n3, if_pos ((and_bit_ne_zero _ 7).2 h7)]

/-- C19 at a concrete input: with MIE set and the software (bit 3), timer
(bit 7) and external (bit 11) interrupts all pending and enabled, the external
interrupt is delivered; with only software and timer, the software interrupt. -/
theorem C19_interrupt_priority_witness :
    (interrupt_check 0x80000000
      { power_on with mstatus := 0x1808, mip := 0x888, mie := 0x888 }).mcause = 0x8000000B ∧
    (interrupt_check 0x80000000
      { power_on with mstatus := 0x1808, mip := 0x088, mie := 0x888 }).mcause = 0x80000003 :=
  ⟨((C19_interrupt_priority { power_on with mstatus := 0x1808, mip := 0x888, mie := 0x888 }
      0x80000000).2.1 (by decide) (by decide)).2.1,
    ((C19_interrupt_priority { power_on with mstatus := 0x1808, mip := 0x088, mie := 0x888 }
      0x80000000).2.2.1 (by decide) (by decide) (by decide)).2.1⟩

/-! ## The timer interrupt -/

theorem trigger_trap_direct (c v p : Nat) (x : Machine) (h : x.mtvec = 0) :
    trigger_trap c v p x =
      { x with trap_pending_print := true,
               mstatus := (x.mstatus &&& not32 (1 <<< 3)) |||
                 ((((x.mstatus >>> 3) &&& 1) <<< 7) % 2 ^ 32),
               mepc := p, mcause := c, mtval := v, pc := add32 p 4 } := by
  rw [trigger_trap]
  dsimp only
  rw [if_pos h]

/-- The timer tick and the refresh in one record update. -/
theorem timer_tick_eq (s : Machine) :
    timer_tick s =
      { s with
        mtime := (s.mtime + 1) % 2 ^ 64,
        mip :=
          if (s.plic_pending &&& s.plic_enable) &&& (1 <<< UART_IRQ) ≠ 0 then
            (if s.mtimecmp ≠ 2 ^ 64 - 1 ∧ (s.mtime + 1) % 2 ^ 64 ≥ s.mtimecmp then
              s.mip ||| (1 <<< 7) else s.mip) ||| (1 <<< 11)
          else if s.mtimecmp ≠ 2 ^ 64 - 1 ∧ (s.mtime + 1) % 2 ^ 64 ≥ s.mtimecmp then
            s.mip ||| (1 <<< 7) else s.mip } := by
  rw [timer_tick]
  by_cases h1 : s.mtimecmp ≠ 2 ^ 64 - 1 ∧ (s.mtime + 1) % 2 ^ 64 ≥ s.mtimecmp
  · by_cases h2 : (s.plic_pending &&& s.plic_enable) &&& (1 <<< UART_IRQ) ≠ 0
    · simp only [if_pos h1, if_pos h2]
    · simp only [if_pos h1, if_neg h2]
  · by_cases h2 : (s.plic_pending &&& s.plic_enable) &&& (1 <<< UART_IRQ) ≠ 0
    · simp only [if_neg h1, if_pos h2]
    · simp only [if_neg h1, if_neg h2]

theorem timer_tick_idle (s : Machine) (h1 : s.mtimecmp = 2 ^ 64 - 1) (h2 : s.plic_pending = 0) :
    timer_tick s = { s with mtime := (s.mtime + 1) % 2 ^ 64 } := by
  rw [timer_tick_eq, if_neg (by rw [h2, Nat.zero_and, Nat.zero_and]; exact fun h => h rfl),
    if_neg (fun h => h.1 h1)]

/-- The post-execution logic for a pending trap that is not a double fault,
with mtvec = 0. -/
theorem post_execution_records (p : Nat) (r : Machine) (h1 : r.trap_pending_print = true)
    (h2 : ¬ (r.mepc = r.last_trap_pc ∧ r.mcause = r.last_trap_cause)) (h3 : r.mtvec = 0) :
    post_execution p r =
      { r with last_trap_pc := r.mepc, last_trap_cause := r.mcause,
               outfile := r.outfile ++
                 [TraceLine.trap (get_trap_name r.mcause) r.mcause r.mepc r.mtval],
               pc := add32 r.mepc 4, trap_pending_print := false } := by
  rw [post_execution, if_pos h1]
  dsimp only
  rw [if_neg h2, if_pos h3]

theorem decode_zero_word (p : Nat) (s : Machine) :
    decode_and_execute 0 p s = clear_x0 (trigger_trap 2 0 p s) := by
  rw [decode_and_execute]
  simp only [show get_opcode 0 = 0 from rfl, Nat.reduceEqDiff, if_false]

/-- On an all-zero RAM every iteration ends in a trap that is not a double
fault: the state stays in `IdleOnZeroRam` and mtime advances by one. -/
theorem idle_step (s : Machine) (h : IdleOnZeroRam s) :
    IdleOnZeroRam (loop_iteration s) ∧ (loop_iteration s).mtime = (s.mtime + 1) % 2 ^ 64 := by
  obtain ⟨hh, hp, hms, hv, hmip, hcmp, hpl, hmem, hpc, hlast⟩ := h
  have ht := timer_tick_idle s hcmp hpl
  have hic : interrupt_check s.pc (timer_tick s) = timer_tick s := by
    have hc : ¬ ((timer_tick s).mstatus &&& (1 <<< 3) ≠ 0 ∧
        (timer_tick s).mip &&& (timer_tick s).mie ≠ 0) := by
      rw [ht]
      show ¬ (s.mstatus &&& (1 <<< 3) ≠ 0 ∧ _)
      rw [hms]
      exact fun h => h.1 (by decide)
    rw [interrupt_check, if_neg hc]
  have key : ∀ r : Machine, (r = trigger_trap 1 s.pc s.pc (timer_tick s) ∨
      r = clear_x0 (trigger_trap 2 0 s.pc { timer_tick s with details_buffer := false })) →
      r.trap_pending_print = true ∧ r.halt_flag = false ∧ r.mstatus = 0x1800 ∧ r.mtvec = 0 ∧
      r.mip = 0 ∧ r.mtimecmp = 2 ^ 64 - 1 ∧ r.plic_pending = 0 ∧ (∀ j, r.memory j = 0) ∧
      r.mepc = s.pc ∧ r.last_trap_pc = s.last_trap_pc ∧ r.mtime = (s.mtime + 1) % 2 ^ 64 := by
    have hm : (s.mstatus &&& not32 (1 <<< 3)) ||| ((((s.mstatus >>> 3) &&& 1) <<< 7) % 2 ^ 32) =
        0x1800 := by
      rw [hms]; decide
    rintro r (rfl | rfl)
    · rw [trigger_trap_direct _ _ _ _ (by rw [ht]; exact hv), ht]
      exact ⟨rfl, hh, hm, hv, hmip, hcmp, hpl, hmem, rfl, rfl, rfl⟩
    · rw [trigger_trap_direct _ _ _ _ (by rw [ht]; exact hv), ht]
      exact ⟨rfl, hh, hm, hv, hmip, hcmp, hpl, hmem, rfl, rfl, rfl⟩
  have hr : before_post_execution s = trigger_trap 1 s.pc s.pc (timer_tick s) ∨
      before_post_execution s =
        clear_x0 (trigger_trap 2 0 s.pc { timer_tick s with details_buffer := false }) := by
    rw [before_post_execution, hic, fetch_and_execute]
    by_cases hf : (timer_tick s).pc < PC_START_ADDRESS ∨
        add32 (timer_tick s).pc 3 ≥ PC_START_ADDRESS + MEMORY_SIZE ∨ (timer_tick s).pc % 4 ≠ 0
    · have e : fetch_instruction_from_pc (timer_tick s) =
          (0, trigger_trap 1 s.pc s.pc (timer_tick s)) := by
        rw [fetch_instruction_from_pc, if_pos hf, timer_tick_pc]
      rw [e]
      left
      rw [if_pos (trigger_trap_flag _ _ _ _)]
    · have hf' := hf
      rw [timer_tick_pc, add32, PC_START_ADDRESS, MEMORY_SIZE] at hf'
      have e : fetch_instruction_from_pc (timer_tick s) = (0, timer_tick s) := by
        rw [fetch_instruction_from_pc, if_neg hf, timer_tick_pc,
          memory_read_word_ram _ s.pc s.pc (by omega) (by omega) (by omega), timer_tick_memory,
          hmem, hmem, hmem, hmem]
        rfl
      rw [e]
      right
      have hflag : ¬ ((timer_tick s).trap_pending_print = true) := by
        rw [ht]
        show ¬ (s.trap_pending_print = true)
        rw [hp]
        decide
      rw [if_neg hflag, decode_zero_word]
  obtain ⟨k1, k2, k3, k4, k5, k6, k7, k8, k9, k10, k11⟩ := key _ hr
  have hnd : ¬ ((before_post_execution s).mepc = (before_post_execution s).last_trap_pc ∧
      (before_post_execution s).mcause = (before_post_execution s).last_trap_cause) := by
    rw [k9, k10]
    exact fun h => hlast h.1.symm
  rw [loop_iteration, post_execution_records _ _ k1 hnd k4]
  refine ⟨⟨k2, rfl, k3, k4, k5, k6, k7, k8, ?_, ?_⟩, k11⟩
  · show add32 (before_post_execution s).mepc 4 < 2 ^ 32
    rw [add32]
    exact Nat.mod_lt _ (by decide)
  · show (before_post_execution s).mepc ≠ add32 (before_post_execution s).mepc 4
    rw [k9, add32]
    omega

/-- A run of `n` iterations from a state in `IdleOnZeroRam` does not halt, and
advances mtime by `n` as long as mtime stays below 2^64. -/
theorem idle_run (n : Nat) (s : Machine) (h : IdleOnZeroRam s) (hn : s.mtime + n < 2 ^ 64) :
    IdleOnZeroRam (run n s) ∧ (run n s).mtime = s.mtime + n := by
  induction n generalizing s with
  | zero => exact ⟨h, rfl⟩
  | succ n ih =>
    have hh : ¬ (s.halt_flag = true) := by rw [h.1]; decide
    have hs := idle_step s h
    have e : run (n + 1) s = run n (loop_iteration s) := by
      rw [run, if_neg hh]
    have hm : (loop_iteration s).mtime = s.mtime + 1 := by
      rw [hs.2]
      exact Nat.mod_eq_of_lt (by omega)
    have := ih (loop_iteration s) hs.1 (by omega)
    rw [e]
    exact ⟨this.1, by rw [this.2, hm]; omega⟩

theorem main_init_empty_idle : IdleOnZeroRam (main_init [] []) :=
  ⟨rfl, rfl, rfl, rfl, rfl, rfl, rfl, fun _ => rfl, by decide, by decide⟩

/-- C17, amended: in the state a driver-loop iteration reaches after its timer
tick and peripheral refresh, if mtimecmp is not the all-ones value
0xFFFFFFFFFFFFFFFF and mtime >= mtimecmp, then bit 7 of mip (MTIP) is 1. -/
theorem C17_timer_pending (s : Machine) (hcmp : (timer_tick s).mtimecmp ≠ 2 ^ 64 - 1)
    (h : (timer_tick s).mtime ≥ (timer_tick s).mtimecmp) :
    (timer_tick s).mip.testBit 7 = true := by
  rw [timer_tick_eq] at hcmp h ⊢
  have hc : s.mtimecmp ≠ 2 ^ 64 - 1 ∧ (s.mtime + 1) % 2 ^ 64 ≥ s.mtimecmp := ⟨hcmp, h⟩
  have b7 : (1 <<< 7).testBit 7 = true := by decide
  have b11 : (1 <<< 11).testBit 7 = false := by decide
  show (if (s.plic_pending &&& s.plic_enable) &&& (1 <<< UART_IRQ) ≠ 0 then
      (if s.mtimecmp ≠ 2 ^ 64 - 1 ∧ (s.mtime + 1) % 2 ^ 64 ≥ s.mtimecmp then
        s.mip ||| (1 <<< 7) else s.mip) ||| (1 <<< 11)
    else if s.mtimecmp ≠ 2 ^ 64 - 1 ∧ (s.mtime + 1) % 2 ^ 64 ≥ s.mtimecmp then
      s.mip ||| (1 <<< 7) else s.mip).testBit 7 = true
  rw [if_pos hc]
  split
  · rw [Nat.testBit_or, Nat.testBit_or, b7, b11, Bool.or_true, Bool.or_false]
  · rw [Nat.testBit_or, b7, Bool.or_true]

/-- C17 at a concrete input: with mtime = 4 and mtimecmp = 5 before the tick,
mtime reaches mtimecmp and MTIP is set. -/
theorem C17_timer_pending_witness :
    ((timer_tick { power_on with mtime := 4, mtimecmp := 5 }).mtimecmp ≠ 2 ^ 64 - 1 ∧
      (timer_tick { power_on with mtime := 4, mtimecmp := 5 }).mtime ≥
        (timer_tick { power_on with mtime := 4, mtimecmp := 5 }).mtimecmp) ∧
    (timer_tick { power_on with mtime := 4, mtimecmp := 5 }).mip.testBit 7 = true :=
  ⟨by decide,
    C17_timer_pending { power_on with mtime := 4, mtimecmp := 5 } (by decide) (by decide)⟩

/-- The tick of a state in `IdleOnZeroRam` whose mtime is 2^64 - 2. -/
theorem idle_tick_at_limit (s : Machine) (h : IdleOnZeroRam s) (hm : s.mtime = 2 ^ 64 - 2) :
    s.halt_flag = false ∧ (timer_tick s).mtime = 2 ^ 64 - 1 ∧
    (timer_tick s).mtimecmp = 2 ^ 64 - 1 ∧ (timer_tick s).mtime ≥ (timer_tick s).mtimecmp ∧
    (timer_tick s).mip.testBit 7 = false := by
  obtain ⟨hh, -, -, -, hmip, hcmp, hpl, -⟩ := h
  have e1 : (timer_tick s).mtime = 2 ^ 64 - 1 := by
    rw [timer_tick_idle _ hcmp hpl]
    show (s.mtime + 1) % 2 ^ 64 = 2 ^ 64 - 1
    rw [hm]
    decide
  have e2 : (timer_tick s).mtimecmp = 2 ^ 64 - 1 := by
    rw [timer_tick_idle _ hcmp hpl]
    exact hcmp
  have e3 : (timer_tick s).mip = 0 := by
    rw [timer_tick_idle _ hcmp hpl]
    exact hmip
  refine ⟨hh, e1, e2, ?_, ?_⟩
  · rw [e1, e2]
  · rw [e3]
    rfl

/-- C17 as stated fails in a state the loop reaches: started on an empty hex
image, every iteration ends in a trap at a new pc (an illegal instruction
inside RAM, an instruction fault outside), so the loop does not halt and after
2^64 - 2 iterations mtime is 2^64 - 2.  In the next iteration the tick makes
mtime 0xFFFFFFFFFFFFFFFF, which is >= mtimecmp (still the all-ones value it is
initialised with), and bit 7 of mip is 0 after the refresh. -/
theorem C17_timer_pending_counterexample :
    (run (2 ^ 64 - 2) (main_init [] [])).halt_flag = false ∧
    (timer_tick (run (2 ^ 64 - 2) (main_init [] []))).mtime = 2 ^ 64 - 1 ∧
    (timer_tick (run (2 ^ 64 - 2) (main_init [] []))).mtimecmp = 2 ^ 64 - 1 ∧
    (timer_tick (run (2 ^ 64 - 2) (main_init [] []))).mtime ≥
      (timer_tick (run (2 ^ 64 - 2) (main_init [] []))).mtimecmp ∧
    (timer_tick (run (2 ^ 64 - 2) (main_init [] []))).mip.testBit 7 = false :=
  idle_tick_at_limit (run (2 ^ 64 - 2) (main_init [] []))
    (idle_run (2 ^ 64 - 2) (main_init [] []) main_init_empty_idle (by decide)).1
    ((idle_run (2 ^ 64 - 2) (main_init [] []) main_init_empty_idle (by decide)).2.trans
      (by decide))

/-! ## What an instruction leaves alone -/

theorem frame_of_fields (s r : Machine) (h : DriverFieldsEq s r) : InstrFrame s r := by
  obtain ⟨h1, h2, h3, h4, h5⟩ := h
  refine ⟨fun hp => ?_, h1, h2, h3, Or.inr h4⟩
  rw [PlicPendingOk, h5]
  exact hp

theorem fields_trigger_trap (c t p : Nat) (s : Machine) :
    DriverFieldsEq s (trigger_trap c t p s) := by
  rw [trigger_trap]
  split <;> exact ⟨rfl, rfl, rfl, rfl, rfl⟩

theorem frame_clear_x0 (s r : Machine) : InstrFrame s (clear_x0 r) = InstrFrame s r :=
  propext (Iff.intro id id)

theorem frame_sprintf (s r : Machine) : InstrFrame s (sprintf r) = InstrFrame s r :=
  propext (Iff.intro id id)

theorem frame_set_reg (rd v : Nat) (s r : Machine) :
    InstrFrame s (set_reg rd v r) = InstrFrame s r := propext (Iff.intro id id)

theorem frame_store_byte (a v : Nat) (s r : Machine) :
    InstrFrame s (store_byte a v r) = InstrFrame s r := propext (Iff.intro id id)

theorem frame_write_rd (rd v : Nat) (s r : Machine) :
    InstrFrame s (write_rd rd v r) = InstrFrame s r := by
  rw [write_rd]; split <;> rfl

theorem frame_write_csr (a v : Nat) (s r : Machine) :
    InstrFrame s (write_csr a v r) = InstrFrame s r := by
  rw [write_csr]
  repeat' split
  all_goals rfl

theorem frame_refl (s : Machine) : InstrFrame s s = True :=
  eq_true ⟨id, rfl, rfl, rfl, Or.inl rfl⟩

theorem frame_trap (c t p : Nat) (s : Machine) : InstrFrame s (trigger_trap c t p s) = True :=
  eq_true (frame_of_fields _ _ (fields_trigger_trap c t p s))

theorem frame_trap11 (p : Nat) (s : Machine) :
    InstrFrame s (trigger_trap 11 0 p (sprintf s)) = True :=
  eq_true (frame_of_fields _ _ (fields_trigger_trap 11 0 p (sprintf s)))

theorem frame_pc (x : Nat) (s r : Machine) :
    InstrFrame s { r with pc := x } = InstrFrame s r := propext (Iff.intro id id)

theorem frame_ebreak (p : Nat) (s : Machine) :
    InstrFrame s { sprintf s with halt_flag := true, mcause := 3, mepc := p } = True :=
  eq_true ⟨id, rfl, rfl, rfl, Or.inl rfl⟩

theorem frame_mret (x y : Nat) (s : Machine) :
    InstrFrame s { s with pc := x, mstatus := y } = True :=
  eq_true ⟨id, rfl, rfl, rfl, Or.inl rfl⟩

theorem fields_refl (s : Machine) : DriverFieldsEq s s = True :=
  eq_true ⟨rfl, rfl, rfl, rfl, rfl⟩

theorem fields_infile (x : Option (List Nat)) (s : Machine) :
    DriverFieldsEq s { s with uart_infile := x } = True :=
  eq_true ⟨rfl, rfl, rfl, rfl, rfl⟩

theorem fields_uart_read (a : Nat) (s : Machine) : DriverFieldsEq s (uart_read a s).2 := by
  rw [uart_read]
  simp only [apply_ite Prod.snd, apply_ite (DriverFieldsEq s), fields_refl, fields_infile,
    ite_true_true]

theorem frame_uart_read (a : Nat) (s : Machine) : InstrFrame s (uart_read a s).2 = True :=
  eq_true (frame_of_fields _ _ (fields_uart_read a s))

theorem frame_uart_transmit (v : Nat) (s : Machine) :
    InstrFrame s { uart_transmit v s with
      plic_pending := (uart_transmit v s).plic_pending ||| (1 <<< UART_IRQ) } := by
  have e : (uart_transmit v s).plic_pending = s.plic_pending := by
    rw [uart_transmit]; split <;> rfl
  have h1 : (uart_transmit v s).outfile = s.outfile := by
    rw [uart_transmit]; split <;> rfl
  have h2 : (uart_transmit v s).last_trap_pc = s.last_trap_pc := by
    rw [uart_transmit]; split <;> rfl
  have h3 : (uart_transmit v s).last_trap_cause = s.last_trap_cause := by
    rw [uart_transmit]; split <;> rfl
  refine ⟨fun hp => ?_, h1, h2, h3, Or.inl (uart_transmit_flag v s)⟩
  show (uart_transmit v s).plic_pending ||| (1 <<< UART_IRQ) = 0 ∨
    (uart_transmit v s).plic_pending ||| (1 <<< UART_IRQ) = 1 <<< UART_IRQ
  rw [e]
  rcases hp with hp | hp <;> rw [hp] <;> exact Or.inr (by decide)

theorem frame_uart_write (a v n : Nat) (s : Machine) :
    InstrFrame s (uart_write a v n s) = True := by
  rw [uart_write]
  simp only [apply_ite (InstrFrame s), eq_true (frame_uart_transmit v s), ite_true_true]
  split_ifs
  · rfl
  · exact eq_true ⟨id, rfl, rfl, rfl, Or.inl rfl⟩
  · exact frame_refl s

theorem frame_clint_write (a v : Nat) (s : Machine) :
    InstrFrame s (clint_write a v s) = True := by
  rw [clint_write]
  split_ifs <;> exact eq_true ⟨id, rfl, rfl, rfl, Or.inl rfl⟩

theorem frame_plic_write (a v : Nat) (s : Machine) :
    InstrFrame s (plic_write a v s) = True := by
  rw [plic_write]
  split_ifs
  · exact eq_true ⟨id, rfl, rfl, rfl, Or.inl rfl⟩
  · refine eq_true ⟨fun hp => ?_, rfl, rfl, rfl, Or.inl rfl⟩
    show s.plic_pending &&& not32 (1 <<< UART_IRQ) = 0 ∨ _
    rcases hp with hp | hp <;> rw [hp] <;> exact Or.inl (by decide)
  · exact frame_refl s
  · exact frame_refl s
  · exact frame_refl s

theorem memory_read_byte_frame (a p : Nat) (s : Machine) :
    InstrFrame s (memory_read_byte a p s).2 := by
  rw [memory_read_byte]
  by_cases h1 : a ≥ UART_BASE ∧ a < UART_BASE + 8
  · rw [if_pos h1, to_uint8_snd]; exact of_eq_true (frame_uart_read a s)
  · rw [if_neg h1]
    by_cases h2 : a ≥ PC_START_ADDRESS ∧ sub32 a PC_START_ADDRESS < MEMORY_SIZE
    · rw [if_pos h2]; exact of_eq_true (frame_refl s)
    · rw [if_neg h2]; exact of_eq_true (frame_trap 5 a p s)

theorem memory_read_halfword_frame (a p : Nat) (s : Machine) :
    InstrFrame s (memory_read_halfword a p s).2 := by
  rw [memory_read_halfword]
  simp only [apply_ite Prod.snd, apply_ite (InstrFrame s), frame_trap, frame_refl, ite_true_true]

theorem memory_read_word_frame (a p : Nat) (s : Machine) :
    InstrFrame s (memory_read_word a p s).2 := by
  rw [memory_read_word]
  simp only [apply_ite Prod.snd, apply_ite (InstrFrame s), frame_trap, frame_refl, ite_true_true]

theorem memory_write_byte_frame (a v p : Nat) (s : Machine) :
    InstrFrame s (memory_write_byte a v p s) := by
  rw [memory_write_byte]
  simp only [apply_ite (InstrFrame s), frame_trap, frame_store_byte, frame_uart_write,
    frame_refl, ite_true_true]

theorem memory_write_halfword_frame (a v p : Nat) (s : Machine) :
    InstrFrame s (memory_write_halfword a v p s) := by
  rw [memory_write_halfword]
  simp only [apply_ite (InstrFrame s), frame_trap, frame_store_byte, frame_refl, ite_true_true]

theorem memory_write_word_frame (a v p : Nat) (s : Machine) :
    InstrFrame s (memory_write_word a v p s) := by
  rw [memory_write_word]
  simp only [apply_ite (InstrFrame s), frame_trap, frame_store_byte, frame_clint_write,
    frame_plic_write, frame_refl, ite_true_true]

theorem exec_branch_frame (i p : Nat) (s : Machine) : InstrFrame s (exec_branch i p s) := by
  rw [exec_branch]
  simp only [apply_ite (InstrFrame s), frame_clear_x0, frame_sprintf, frame_trap, frame_pc,
    frame_refl, ite_true_true]

theorem exec_load_frame (i p : Nat) (s : Machine) : InstrFrame s (exec_load i p s) := by
  rw [exec_load]
  simp only [apply_ite (InstrFrame s), frame_clear_x0, frame_sprintf, frame_set_reg,
    frame_trap, memory_read_byte_frame, memory_read_halfword_frame, memory_read_word_frame,
    frame_refl, ite_true_true]

theorem exec_store_frame (i p : Nat) (s : Machine) : InstrFrame s (exec_store i p s) := by
  rw [exec_store]
  simp only [apply_ite (InstrFrame s), frame_clear_x0, frame_sprintf, frame_trap,
    memory_write_byte_frame, memory_write_halfword_frame, memory_write_word_frame,
    ite_true_true]

theorem exec_op_imm_frame (i p : Nat) (s : Machine) : InstrFrame s (exec_op_imm i p s) := by
  rw [exec_op_imm]
  simp only [apply_ite (InstrFrame s), frame_clear_x0, frame_sprintf, frame_write_rd,
    frame_trap, frame_refl, ite_true_true]

theorem exec_op_frame (i p : Nat) (s : Machine) : InstrFrame s (exec_op i p s) := by
  rw [exec_op]
  simp only [apply_ite (InstrFrame s), frame_clear_x0, frame_sprintf, frame_write_rd,
    frame_trap, frame_refl, ite_true_true]

theorem exec_system_frame (i p : Nat) (s : Machine) : InstrFrame s (exec_system i p s) := by
  rw [exec_system]
  simp only [apply_ite (InstrFrame s), frame_clear_x0, frame_sprintf, frame_write_rd,
    frame_write_csr, frame_trap, frame_trap11, frame_ebreak, frame_mret, frame_refl,
    ite_true_true]

theorem decode_and_execute_frame (i p : Nat) (s : Machine) :
    InstrFrame s (decode_and_execute i p s) := by
  rw [decode_and_execute]
  simp only [apply_ite (InstrFrame s), frame_clear_x0, frame_sprintf, frame_write_rd,
    frame_pc, frame_trap, exec_branch_frame, exec_load_frame, exec_store_frame,
    exec_op_imm_frame, exec_op_frame, exec_system_frame, frame_refl, ite_true_true]

/-! ## The driver loop and the fields of the frame -/

theorem fields_trans (s r q : Machine) (h1 : DriverFieldsEq s r) (h2 : DriverFieldsEq r q) :
    DriverFieldsEq s q :=
  ⟨h2.1.trans h1.1, h2.2.1.trans h1.2.1, h2.2.2.1.trans h1.2.2.1, h2.2.2.2.1.trans h1.2.2.2.1,
    h2.2.2.2.2.trans h1.2.2.2.2⟩

theorem fields_timer_tick (s : Machine) : DriverFieldsEq s (timer_tick s) := by
  rw [timer_tick_eq]
  exact ⟨rfl, rfl, rfl, rfl, rfl⟩

theorem fields_interrupt_check (p : Nat) (s : Machine) :
    DriverFieldsEq s (interrupt_check p s) := by
  rw [interrupt_check]
  split_ifs
  · exact fields_trigger_trap _ _ _ _
  · exact of_eq_true (fields_refl s)
  · exact of_eq_true (fields_refl s)

theorem fields_fetch (s : Machine) : DriverFieldsEq s (fetch_instruction_from_pc s).2 := by
  rcases fetch_cases s with h | h | h <;> rw [h]
  · exact of_eq_true (fields_refl s)
  · exact fields_trigger_trap _ _ _ _
  · exact fields_trigger_trap _ _ _ _

/-- What the part of an iteration before the post-execution logic leaves alone:
it keeps `PlicPendingOk`, the trace and the record of the last trap, and when
it ends with a pending trap it has not changed `halt_flag`. -/
theorem before_post_execution_frame (s : Machine) :
    (PlicPendingOk s → PlicPendingOk (before_post_execution s)) ∧
    (before_post_execution s).outfile = s.outfile ∧
    (before_post_execution s).last_trap_pc = s.last_trap_pc ∧
    (before_post_execution s).last_trap_cause = s.last_trap_cause ∧
    ((before_post_execution s).trap_pending_print = true →
      (before_post_execution s).halt_flag = s.halt_flag) := by
  have hf : DriverFieldsEq s (fetch_instruction_from_pc (interrupt_check s.pc (timer_tick s))).2 :=
    fields_trans _ _ _ (fields_trans _ _ _ (fields_timer_tick s) (fields_interrupt_check _ _))
      (fields_fetch _)
  rw [before_post_execution, fetch_and_execute]
  by_cases ht : (fetch_instruction_from_pc
      (interrupt_check s.pc (timer_tick s))).2.trap_pending_print = true
  · rw [if_pos ht]
    obtain ⟨h1, h2, h3, h4, h5⟩ := hf
    refine ⟨fun hp => ?_, h1, h2, h3, fun _ => h4⟩
    rw [PlicPendingOk, h5]
    exact hp
  · rw [if_neg ht]
    obtain ⟨h1, h2, h3, h4, h5⟩ := hf
    obtain ⟨g0, g1, g2, g3, g4⟩ := decode_and_execute_frame
      (fetch_instruction_from_pc (interrupt_check s.pc (timer_tick s))).1 s.pc
      { (fetch_instruction_from_pc (interrupt_check s.pc (timer_tick s))).2 with
        details_buffer := false }
    refine ⟨fun hp => g0 ?_, g1.trans h1, g2.trans h2, g3.trans h3, fun hr => ?_⟩
    · show (fetch_instruction_from_pc (interrupt_check s.pc (timer_tick s))).2.plic_pending = 0 ∨
        (fetch_instruction_from_pc (interrupt_check s.pc (timer_tick s))).2.plic_pending =
          1 <<< UART_IRQ
      rw [h5]
      exact hp
    · rcases g4 with g4 | g4
      · rw [hr] at g4
        exact absurd g4.symm ht
      · exact g4.trans h4

theorem post_execution_plic (p : Nat) (s : Machine) :
    (post_execution p s).plic_pending = s.plic_pending := by
  rw [post_execution]; dsimp only; split_ifs <;> rfl

theorem loop_iteration_plic (s : Machine) (h : PlicPendingOk s) :
    PlicPendingOk (loop_iteration s) := by
  rw [PlicPendingOk, loop_iteration, post_execution_plic]
  exact (before_post_execution_frame s).1 h

theorem run_plic (n : Nat) (s : Machine) (h : PlicPendingOk s) : PlicPendingOk (run n s) := by
  induction n generalizing s with
  | zero => exact h
  | succ n ih =>
    rw [run]
    split_ifs
    · exact h
    · exact ih _ (loop_iteration_plic s h)

/-- The loader changes nothing but RAM and the pc. -/
theorem load_loop_fields (fuel : Nat) (p : List Char) (address : Nat) (b : Bool) (s r : Machine)
    (h : load_loop fuel p address b s = some r) :
    r = { s with memory := r.memory, pc := r.pc } := by
  induction fuel generalizing p address b s with
  | zero => rw [load_loop] at h; exact absurd h (by simp)
  | succ n ih =>
    rw [load_loop] at h
    split at h
    · rw [Option.some.injEq] at h; subst h; split_ifs <;> rfl
    · split_ifs at h
      all_goals first
        | (rw [Option.some.injEq] at h; subst h; rfl)
        | exact (ih _ _ _ _ h).trans rfl

theorem load_program_fields (hex_string : List Char) (s : Machine) :
    load_program_from_hex_string hex_string s =
      { s with memory := (load_program_from_hex_string hex_string s).memory,
               pc := (load_program_from_hex_string hex_string s).pc } := by
  rw [load_program_from_hex_string]
  cases h : load_loop (hex_string.length + 1) hex_string 0 false s with
  | none => rfl
  | some r => exact load_loop_fields _ _ _ _ _ _ h

theorem main_init_plic (program_hex_string : List Char) (term_in : List Nat) :
    PlicPendingOk (main_init program_hex_string term_in) := by
  rw [PlicPendingOk, main_init, load_program_fields]
  exact Or.inl rfl

theorem refresh_sets_meip (s : Machine) (h : PlicPendingOk s)
    (hne : (timer_tick s).plic_pending &&& (timer_tick s).plic_enable ≠ 0) :
    (timer_tick s).mip.testBit 11 = true := by
  rw [timer_tick_eq] at hne ⊢
  have hne' : s.plic_pending &&& s.plic_enable ≠ 0 := hne
  have hc : (s.plic_pending &&& s.plic_enable) &&& (1 <<< UART_IRQ) ≠ 0 := by
    rcases h with h | h
    · rw [h, Nat.zero_and] at hne'
      exact absurd rfl hne'
    · rw [h] at hne' ⊢
      rw [Nat.and_comm (1 <<< UART_IRQ) s.plic_enable, Nat.and_assoc, Nat.and_self,
        Nat.and_comm]
      exact hne'
  have b11 : (1 <<< 11).testBit 11 = true := by decide
  show (if (s.plic_pending &&& s.plic_enable) &&& (1 <<< UART_IRQ) ≠ 0 then
      (if s.mtimecmp ≠ 2 ^ 64 - 1 ∧ (s.mtime + 1) % 2 ^ 64 ≥ s.mtimecmp then
        s.mip ||| (1 <<< 7) else s.mip) ||| (1 <<< 11)
    else if s.mtimecmp ≠ 2 ^ 64 - 1 ∧ (s.mtime + 1) % 2 ^ 64 ≥ s.mtimecmp then
      s.mip ||| (1 <<< 7) else s.mip).testBit 11 = true
  rw [if_pos hc, Nat.testBit_or, b11, Bool.or_true]

/-- C18: whatever the hex image, the terminal input and the number `n` of
iterations already made, in the state the next iteration reaches after its
timer tick and peripheral refresh: if `plic_pending & plic_enable` is not 0,
then bit 11 of mip (MEIP) is 1. -/
theorem C18_external_interrupt_pending (program_hex_string : List Char) (term_in : List Nat)
    (n : Nat)
    (h : (timer_tick (run n (main_init program_hex_string term_in))).plic_pending &&&
      (timer_tick (run n (main_init program_hex_string term_in))).plic_enable ≠ 0) :
    (timer_tick (run n (main_init program_hex_string term_in))).mip.testBit 11 = true :=
  refresh_sets_meip _ (run_plic n _ (main_init_plic program_hex_string term_in)) h

/-- C18 at a concrete input: after the five instructions of
`image_uart_interrupt` the UART interrupt is pending and enabled in the PLIC,
and the refresh of the sixth iteration sets MEIP. -/
theorem C18_external_interrupt_pending_witness :
    ((timer_tick (run 5 (main_init image_uart_interrupt []))).plic_pending = 1024 ∧
      (timer_tick (run 5 (main_init image_uart_interrupt []))).plic_enable = 1024) ∧
    (timer_tick (run 5 (main_init image_uart_interrupt []))).mip.testBit 11 = true :=
  ⟨by decide, C18_external_interrupt_pending image_uart_interrupt [] 5 (by decide)⟩

/-! ## Double fault detection -/

theorem post_execution_fatal (p : Nat) (r : Machine) (h1 : r.trap_pending_print = true)
    (h2 : r.mepc = r.last_trap_pc ∧ r.mcause = r.last_trap_cause) :
    post_execution p r =
      { r with outfile := r.outfile ++ [TraceLine.fatal], halt_flag := true,
               trap_pending_print := false } := by
  rw [post_execution, if_pos h1]
  dsimp only
  rw [if_pos h2]

theorem post_execution_trap_line (p : Nat) (r : Machine) (h1 : r.trap_pending_print = true)
    (h2 : ¬ (r.mepc = r.last_trap_pc ∧ r.mcause = r.last_trap_cause)) :
    (post_execution p r).outfile =
      r.outfile ++ [TraceLine.trap (get_trap_name r.mcause) r.mcause r.mepc r.mtval] ∧
    (post_execution p r).last_trap_pc = r.mepc ∧
    (post_execution p r).last_trap_cause = r.mcause ∧
    (post_execution p r).halt_flag = r.halt_flag := by
  rw [post_execution, if_pos h1]
  dsimp only
  rw [if_neg h2]
  split <;> exact ⟨rfl, rfl, rfl, rfl⟩

theorem post_execution_no_trap (p : Nat) (r : Machine) (h1 : r.trap_pending_print = false) :
    (post_execution p r).last_trap_pc = r.last_trap_pc ∧
    (post_execution p r).last_trap_cause = r.last_trap_cause := by
  have h : ¬ (r.trap_pending_print = true) := by rw [h1]; decide
  rw [post_execution, if_neg h]
  dsimp only
  split_ifs <;> exact ⟨rfl, rfl⟩

/-- One iteration from a state `s` in which the loop runs (halt_flag is clear),
with mepc, mcause and mtval the values the iteration has when it reaches the
post-execution logic.  When the iteration ends in a trap and (mepc, mcause) is
the pair recorded in `last_trap_pc` and `last_trap_cause`, it appends the FATAL
line to the trace, sets halt_flag and leaves the record as it is.  When it ends
in a trap and the pair differs from the record, it appends the trap line,
records (mepc, mcause) and leaves halt_flag clear.  An iteration that does not
end in a trap leaves the record as it is. -/
theorem double_fault_step (s : Machine) (hrun : s.halt_flag = false) :
    ((before_post_execution s).trap_pending_print = true →
      ((before_post_execution s).mepc = s.last_trap_pc ∧
          (before_post_execution s).mcause = s.last_trap_cause →
        (loop_iteration s).outfile = s.outfile ++ [TraceLine.fatal] ∧
        (loop_iteration s).halt_flag = true ∧
        (loop_iteration s).last_trap_pc = s.last_trap_pc ∧
        (loop_iteration s).last_trap_cause = s.last_trap_cause) ∧
      (¬ ((before_post_execution s).mepc = s.last_trap_pc ∧
          (before_post_execution s).mcause = s.last_trap_cause) →
        (loop_iteration s).outfile = s.outfile ++
          [TraceLine.trap (get_trap_name (before_post_execution s).mcause)
            (before_post_execution s).mcause (before_post_execution s).mepc
            (before_post_execution s).mtval] ∧
        (loop_iteration s).last_trap_pc = (before_post_execution s).mepc ∧
        (loop_iteration s).last_trap_cause = (before_post_execution s).mcause ∧
        (loop_iteration s).halt_flag = false)) ∧
    ((before_post_execution s).trap_pending_print = false →
      (loop_iteration s).last_trap_pc = s.last_trap_pc ∧
      (loop_iteration s).last_trap_cause = s.last_trap_cause) ∧
    TraceLine.text TraceLine.fatal = ">FATAL: Double fault detected. Halting simulation." := by
  obtain ⟨-, ho, hp, hc, hh⟩ := before_post_execution_frame s
  refine ⟨fun ht => ⟨fun heq => ?_, fun hne => ?_⟩, fun ht => ?_, rfl⟩
  · have heq' : (before_post_execution s).mepc = (before_post_execution s).last_trap_pc ∧
        (before_post_execution s).mcause = (before_post_execution s).last_trap_cause := by
      rw [hp, hc]; exact heq
    rw [loop_iteration, post_execution_fatal _ _ ht heq']
    exact ⟨congrArg (fun l => l ++ [TraceLine.fatal]) ho, rfl, hp, hc⟩
  · have hne' : ¬ ((before_post_execution s).mepc = (before_post_execution s).last_trap_pc ∧
        (before_post_execution s).mcause = (before_post_execution s).last_trap_cause) := by
      rw [hp, hc]; exact hne
    obtain ⟨g1, g2, g3, g4⟩ := post_execution_trap_line s.pc _ ht hne'
    rw [loop_iteration]
    refine ⟨?_, g2, g3, ?_⟩
    · rw [g1, ho]
    · rw [g4, hh ht, hrun]
  · obtain ⟨g1, g2⟩ := post_execution_no_trap s.pc _ ht
    rw [loop_iteration]
    exact ⟨g1.trans hp, g2.trans hc⟩

theorem previous_trap_cons (y : TraceLine) (l : List TraceLine) :
    previous_trap (y :: l) =
      match previous_trap l with
      | some x => some x
      | none => trap_of_line y := rfl

theorem previous_trap_append_trap (l : List TraceLine) (name : String) (c e t : Nat) :
    previous_trap (l ++ [TraceLine.trap name c e t]) = some (e, c) := by
  induction l with
  | nil => rfl
  | cons y l ih => rw [List.cons_append, previous_trap_cons, ih]

theorem previous_trap_append_fatal (l : List TraceLine) :
    previous_trap (l ++ [TraceLine.fatal]) = previous_trap l := by
  induction l with
  | nil => rfl
  | cons y l ih => rw [List.cons_append, previous_trap_cons, ih, previous_trap_cons]

theorem previous_trap_append_instruction (l : List TraceLine) (p : Nat) :
    previous_trap (l ++ [TraceLine.instruction p]) = previous_trap l := by
  induction l with
  | nil => rfl
  | cons y l ih => rw [List.cons_append, previous_trap_cons, ih, previous_trap_cons]

theorem post_execution_no_trap_outfile (p : Nat) (r : Machine)
    (h1 : r.trap_pending_print = false) :
    (post_execution p r).outfile = r.outfile ∨
    (post_execution p r).outfile = r.outfile ++ [TraceLine.instruction p] := by
  have h : ¬ (r.trap_pending_print = true) := by rw [h1]; decide
  rw [post_execution, if_neg h]
  dsimp only
  split_ifs
  · exact Or.inr rfl
  · exact Or.inr rfl
  · exact Or.inl rfl
  · exact Or.inl rfl

/-- The record of the last trap is the (mepc, mcause) of the last trap line of
the trace, or the start value when the trace has none; an iteration keeps this
true. -/
theorem loop_iteration_record (s : Machine)
    (h : (s.last_trap_pc, s.last_trap_cause) =
      (previous_trap s.outfile).getD (0xFFFFFFFF, 0xFFFFFFFF)) :
    ((loop_iteration s).last_trap_pc, (loop_iteration s).last_trap_cause) =
      (previous_trap (loop_iteration s).outfile).getD (0xFFFFFFFF, 0xFFFFFFFF) := by
  obtain ⟨-, ho, hp, hc, -⟩ := before_post_execution_frame s
  by_cases ht : (before_post_execution s).trap_pending_print = true
  · by_cases heq : (before_post_execution s).mepc = (before_post_execution s).last_trap_pc ∧
        (before_post_execution s).mcause = (before_post_execution s).last_trap_cause
    · rw [loop_iteration, post_execution_fatal _ _ ht heq]
      show ((before_post_execution s).last_trap_pc, (before_post_execution s).last_trap_cause) =
        (previous_trap ((before_post_execution s).outfile ++ [TraceLine.fatal])).getD _
      rw [previous_trap_append_fatal, ho, hp, hc]
      exact h
    · obtain ⟨g1, g2, g3, -⟩ := post_execution_trap_line s.pc _ ht heq
      rw [loop_iteration, g1, g2, g3, previous_trap_append_trap]
      rfl
  · have ht' : (before_post_execution s).trap_pending_print = false := by
      cases hb : (before_post_execution s).trap_pending_print
      · rfl
      · exact absurd hb ht
    obtain ⟨g1, g2⟩ := post_execution_no_trap s.pc _ ht'
    rw [loop_iteration, g1, g2, hp, hc]
    rcases post_execution_no_trap_outfile s.pc _ ht' with g | g
    · rw [g, ho]; exact h
    · rw [g, previous_trap_append_instruction, ho]; exact h

theorem run_record (n : Nat) (s : Machine)
    (h : (s.last_trap_pc, s.last_trap_cause) =
      (previous_trap s.outfile).getD (0xFFFFFFFF, 0xFFFFFFFF)) :
    ((run n s).last_trap_pc, (run n s).last_trap_cause) =
      (previous_trap (run n s).outfile).getD (0xFFFFFFFF, 0xFFFFFFFF) := by
  induction n generalizing s with
  | zero => exact h
  | succ n ih =>
    rw [run]
    split_ifs
    · exact h
    · exact ih _ (loop_iteration_record s h)

theorem main_init_record (program_hex_string : List Char) (term_in : List Nat) :
    ((main_init program_hex_string term_in).last_trap_pc,
      (main_init program_hex_string term_in).last_trap_cause) =
      (previous_trap (main_init program_hex_string term_in).outfile).getD
        (0xFFFFFFFF, 0xFFFFFFFF) := by
  rw [main_init, load_program_fields]
  rfl

/-- C20: let `s` be a state a run reaches after `n` iterations, whatever the
hex image and the terminal input, in which the loop makes another iteration
(halt_flag is clear).  The pair in `last_trap_pc` and `last_trap_cause` is the
(mepc, mcause) of the previous trap line of the trace, or the start value
(0xFFFFFFFF, 0xFFFFFFFF) when there is none.  When the iteration ends in a trap
whose mepc and mcause equal that pair, it appends the line
`>FATAL: Double fault detected. Halting simulation.` to the trace instead of a
trap line and sets halt_flag; when it ends in a trap with another pair, it
appends the trap line, records (mepc, mcause) and leaves halt_flag clear; when
it does not end in a trap, the record stays as it is. -/
theorem C20_double_fault (program_hex_string : List Char) (term_in : List Nat) (n : Nat)
    (s : Machine) (hs : s = run n (main_init program_hex_string term_in))
    (hrun : s.halt_flag = false) :
    (s.last_trap_pc, s.last_trap_cause) =
      (previous_trap s.outfile).getD (0xFFFFFFFF, 0xFFFFFFFF) ∧
    ((before_post_execution s).trap_pending_print = true →
      ((before_post_execution s).mepc = s.last_trap_pc ∧
          (before_post_execution s).mcause = s.last_trap_cause →
        (loop_iteration s).outfile = s.outfile ++ [TraceLine.fatal] ∧
        (loop_iteration s).halt_flag = true ∧
        (loop_iteration s).last_trap_pc = s.last_trap_pc ∧
        (loop_iteration s).last_trap_cause = s.last_trap_cause) ∧
      (¬ ((before_post_execution s).mepc = s.last_trap_pc ∧
          (before_post_execution s).mcause = s.last_trap_cause) →
        (loop_iteration s).outfile = s.outfile ++
          [TraceLine.trap (get_trap_name (before_post_execution s).mcause)
            (before_post_execution s).mcause (before_post_execution s).mepc
            (before_post_execution s).mtval] ∧
        (loop_iteration s).last_trap_pc = (before_post_execution s).mepc ∧
        (loop_iteration s).last_trap_cause = (before_post_execution s).mcause ∧
        (loop_iteration s).halt_flag = false)) ∧
    ((before_post_execution s).trap_pending_print = false →
      (loop_iteration s).last_trap_pc = s.last_trap_pc ∧
      (loop_iteration s).last_trap_cause = s.last_trap_cause) ∧
    TraceLine.text TraceLine.fatal = ">FATAL: Double fault detected. Halting simulation." := by
  subst hs
  exact ⟨run_record n _ (main_init_record program_hex_string term_in),
    double_fault_step _ hrun⟩

/-- C20 at a concrete input: in `image_ecall_is_handler` the fourth iteration
executes the `ecall` at 0x8000000C for the first time and writes the trap line;
the fifth executes it again, with the same mepc and mcause, and writes the
FATAL line and halts. -/
theorem C20_double_fault_witness :
    ((run 3 (main_init image_ecall_is_handler [])).halt_flag = false ∧
      (run 4 (main_init image_ecall_is_handler [])).halt_flag = false) ∧
    ((loop_iteration (run 3 (main_init image_ecall_is_handler []))).outfile =
        (run 3 (main_init image_ecall_is_handler [])).outfile ++
          [TraceLine.trap "exception:environment_call" 11 0x8000000C 0] ∧
      (loop_iteration (run 3 (main_init image_ecall_is_handler []))).halt_flag = false) ∧
    ((loop_iteration (run 4 (main_init image_ecall_is_handler []))).outfile =
        (run 4 (main_init image_ecall_is_handler [])).outfile ++ [TraceLine.fatal] ∧
      (loop_iteration (run 4 (main_init image_ecall_is_handler []))).halt_flag = true) :=
  ⟨by decide,
    ⟨(((C20_double_fault image_ecall_is_handler [] 3 _ rfl (by decide)).2.1
        (by decide)).2 (by decide)).1.trans (by decide),
      (((C20_double_fault image_ecall_is_handler [] 3 _ rfl (by decide)).2.1
        (by decide)).2 (by decide)).2.2.2⟩,
    ⟨(((C20_double_fault image_ecall_is_handler [] 4 _ rfl (by decide)).2.1
        (by decide)).1 (by decide)).1,
      (((C20_double_fault image_ecall_is_handler [] 4 _ rfl (by decide)).2.1
        (by decide)).1 (by decide)).2.1⟩⟩

/-! ## The claim/complete register of the PLIC -/

theorem read_word_plic (s : Machine) (a p : Nat) (h4 : a % 4 = 0) (hlo : 0x0C000000 ≤ a)
    (hhi : a < 0x10000000) : memory_read_word a p s = (plic_read a s, s) := by
  have h1 : ¬ a % 4 ≠ 0 := by omega
  have h2 : ¬ (a ≥ CLINT_BASE ∧ a < CLINT_BASE + 0x10000) := by rw [CLINT_BASE]; omega
  have h3 : a ≥ PLIC_BASE ∧ a < PLIC_BASE + 0x4000000 := by rw [PLIC_BASE]; omega
  rw [memory_read_word, if_neg h1, if_neg h2, if_pos h3]

theorem write_word_plic (s : Machine) (a v p : Nat) (h4 : a % 4 = 0) (hlo : 0x0C000000 ≤ a)
    (hhi : a < 0x10000000) : memory_write_word a v p s = plic_write a v s := by
  have h1 : ¬ a % 4 ≠ 0 := by omega
  have h2 : ¬ (a ≥ CLINT_BASE ∧ a < CLINT_BASE + 0x10000) := by rw [CLINT_BASE]; omega
  have h3 : a ≥ PLIC_BASE ∧ a < PLIC_BASE + 0x4000000 := by rw [PLIC_BASE]; omega
  rw [memory_write_word, if_neg h1, if_neg h2, if_pos h3]

/-- C25: a word read of PLIC_BASE + 0x200004 (0x0C200004) returns 10 when bit
10 of `plic_pending & plic_enable` is set and 0 otherwise, and leaves the whole
state, so also plic_pending, plic_enable and mip, as it is.  A word write of
the value 10 to that address leaves `plic_pending & 0xFFFFFBFF` in
plic_pending, so bit 10 is clear and every other bit is as before, and a word
write of a value other than 10 leaves plic_pending as it is. -/
theorem C25_plic_claim_complete (s : Machine) (p v : Nat) :
    memory_read_word 0x0C200004 p s =
      (if (s.plic_pending &&& s.plic_enable).testBit 10 = true then 10 else 0, s) ∧
    (memory_write_word 0x0C200004 10 p s).plic_pending = s.plic_pending &&& 0xFFFFFBFF ∧
    (memory_write_word 0x0C200004 10 p s).plic_pending.testBit 10 = false ∧
    (∀ k, k ≠ 10 → k < 32 →
      (memory_write_word 0x0C200004 10 p s).plic_pending.testBit k =
        s.plic_pending.testBit k) ∧
    (v ≠ 10 → (memory_write_word 0x0C200004 v p s).plic_pending = s.plic_pending) := by
  have hw : ∀ x, memory_write_word 0x0C200004 x p s = plic_write 0x0C200004 x s :=
    fun x => write_word_plic s _ x p (by decide) (by decide) (by decide)
  have h1 : ¬ (0x0C200004 ≥ PLIC_BASE + 0x2000 ∧ 0x0C200004 < PLIC_BASE + 0x2080) := by decide
  have h2 : 0x0C200004 = PLIC_BASE + 0x200004 := by decide
  have e10 : (plic_write 0x0C200004 10 s).plic_pending = s.plic_pending &&& 0xFFFFFBFF := by
    rw [plic_write, if_neg h1, if_pos h2, if_pos (by decide)]
    rfl
  refine ⟨?_, ?_, ?_, ?_, ?_⟩
  · rw [read_word_plic s _ p (by decide) (by decide) (by decide), plic_read, if_pos h2]
    by_cases hb : (s.plic_pending &&& s.plic_enable).testBit 10 = true
    · have hb' : (s.plic_pending &&& s.plic_enable) &&& (1 <<< UART_IRQ) ≠ 0 :=
        (and_bit_ne_zero _ 10).2 hb
      rw [if_pos hb, if_pos hb']
      rfl
    · have hb' : ¬ ((s.plic_pending &&& s.plic_enable) &&& (1 <<< UART_IRQ) ≠ 0) :=
        fun h => hb ((and_bit_ne_zero _ 10).1 h)
      rw [if_neg hb, if_neg hb']
  · rw [hw, e10]
  · rw [hw, e10, Nat.testBit_and]
    have : (0xFFFFFBFF : Nat).testBit 10 = false := by decide
    rw [this, Bool.and_false]
  · intro k hk hk32
    rw [hw, e10, Nat.testBit_and]
    have : (0xFFFFFBFF : Nat).testBit k = true := by
      interval_cases k <;> first | decide | exact absurd rfl hk
    rw [this, Bool.and_true]
  · intro hv
    have hv' : ¬ v = UART_IRQ := hv
    rw [hw, plic_write, if_neg h1, if_pos h2, if_neg hv']

/-- C25 at a concrete input: with the UART interrupt pending and enabled the
read returns 10; a write of 10 clears the pending bit and a write of 3 does
not. -/
theorem C25_plic_claim_complete_witness :
    (3 : Nat) ≠ 10 ∧
    (memory_read_word 0x0C200004 0x80000000
      { power_on with plic_pending := 1024, plic_enable := 1024 }).1 = 10 ∧
    (memory_write_word 0x0C200004 3 0x80000000
      { power_on with plic_pending := 1024, plic_enable := 1024 }).plic_pending = 1024 :=
  ⟨by decide,
    (congrArg Prod.fst (C25_plic_claim_complete
      { power_on with plic_pending := 1024, plic_enable := 1024 } 0x80000000 3).1).trans
      (by decide),
    (C25_plic_claim_complete { power_on with plic_pending := 1024, plic_enable := 1024 }
      0x80000000 3).2.2.2.2 (by decide)⟩

/-! ## The six CSR instructions -/

/-- The state each of the six CSR instructions leaves, by funct3; `c` is the
CSR address and `o` the value read from the CSR. -/
theorem csr_effect (i p c o : Nat) (s : Machine) (ho : get_opcode i = 0x73)
    (hc : ofInt (get_imm_I i) &&& 0xFFF = c) (hcsr : read_csr c s = o) :
    (get_funct3 i = 1 → decode_and_execute i p s =
      clear_x0 (sprintf (write_csr c (s.regs (get_rs1 i)) (write_rd (get_rd i) o s)))) ∧
    (get_funct3 i = 2 → decode_and_execute i p s =
      clear_x0 (sprintf (if get_rs1 i ≠ 0 then
        write_csr c (o ||| s.regs (get_rs1 i)) (write_rd (get_rd i) o s)
        else write_rd (get_rd i) o s))) ∧
    (get_funct3 i = 3 → decode_and_execute i p s =
      clear_x0 (sprintf (if get_rs1 i ≠ 0 then
        write_csr c (o &&& not32 (s.regs (get_rs1 i))) (write_rd (get_rd i) o s)
        else write_rd (get_rd i) o s))) ∧
    (get_funct3 i = 5 → decode_and_execute i p s =
      clear_x0 (sprintf (write_csr c (get_rs1 i) (write_rd (get_rd i) o s)))) ∧
    (get_funct3 i = 6 → decode_and_execute i p s =
      clear_x0 (sprintf (if get_rs1 i ≠ 0 then
        write_csr c (o ||| get_rs1 i) (write_rd (get_rd i) o s)
        else write_rd (get_rd i) o s))) ∧
    (get_funct3 i = 7 → decode_and_execute i p s =
      clear_x0 (sprintf (if get_rs1 i ≠ 0 then
        write_csr c (o &&& not32 (get_rs1 i)) (write_rd (get_rd i) o s)
        else write_rd (get_rd i) o s))) := by
  subst hc hcsr
  refine ⟨?_, ?_, ?_, ?_, ?_, ?_⟩ <;> intro hf <;> rw [decode_system i p s ho, exec_system] <;>
    simp only [hf, Nat.reduceEqDiff, if_false, if_true]

theorem read_csr_write_rd (c rd v : Nat) (s : Machine) :
    read_csr c (write_rd rd v s) = read_csr c s := by
  rw [write_rd]
  split <;> rfl

theorem read_csr_written (c v rd o : Nat) (s : Machine)
    (hm : c = 0x300 ∨ c = 0x301 ∨ c = 0x304 ∨ c = 0x305 ∨ c = 0x340 ∨ c = 0x341 ∨ c = 0x342 ∨
      c = 0x343 ∨ c = 0x344) :
    read_csr c (clear_x0 (sprintf (write_csr c v (write_rd rd o s)))) = v := by
  rw [read_csr_tail, read_csr_write_csr, if_pos hm]

theorem regs_csr_written (c v rd o : Nat) (s : Machine) (hrd : rd ≠ 0) :
    (clear_x0 (sprintf (write_csr c v (write_rd rd o s)))).regs rd = o := by
  rw [tail_regs _ _ hrd, write_csr_regs, write_rd_regs _ _ _ hrd]

theorem regs_csr_unwritten (rd o : Nat) (s : Machine) (hrd : rd ≠ 0) :
    (clear_x0 (sprintf (write_rd rd o s))).regs rd = o := by
  rw [tail_regs _ _ hrd, write_rd_regs _ _ _ hrd]

/-- C24: let `i` be a SYSTEM instruction (opcode 0x73) whose CSR address `c` is
one of the nine modelled ones, `o` the value of the CSR and `r` the value of
`regs[rs1]` before the instruction, and `uimm` the rs1 field of `i`.  After the
instruction the CSR holds: `r` for csrrw (funct3 = 1); `o | r` for csrrs (2)
and `o & ~r` for csrrc (3) when the rs1 index is not 0, and `o` when it is 0;
`uimm` for csrrwi (5); `o | uimm` for csrrsi (6) and `o & ~uimm` for csrrci (7)
when uimm is not 0, and `o` when it is 0.  In all six, `regs[rd]` holds `o`
afterwards when rd is not 0, also when rd = rs1. -/
theorem C24_csr_instructions (i p c o r : Nat) (s : Machine) (ho : get_opcode i = 0x73)
    (hc : ofInt (get_imm_I i) &&& 0xFFF = c)
    (hm : c = 0x300 ∨ c = 0x301 ∨ c = 0x304 ∨ c = 0x305 ∨ c = 0x340 ∨ c = 0x341 ∨ c = 0x342 ∨
      c = 0x343 ∨ c = 0x344)
    (hcsr : read_csr c s = o) (hr : s.regs (get_rs1 i) = r) :
    (get_funct3 i = 1 → read_csr c (decode_and_execute i p s) = r) ∧
    (get_funct3 i = 2 → read_csr c (decode_and_execute i p s) =
      if get_rs1 i ≠ 0 then o ||| r else o) ∧
    (get_funct3 i = 3 → read_csr c (decode_and_execute i p s) =
      if get_rs1 i ≠ 0 then o &&& not32 r else o) ∧
    (get_funct3 i = 5 → read_csr c (decode_and_execute i p s) = get_rs1 i) ∧
    (get_funct3 i = 6 → read_csr c (decode_and_execute i p s) =
      if get_rs1 i ≠ 0 then o ||| get_rs1 i else o) ∧
    (get_funct3 i = 7 → read_csr c (decode_and_execute i p s) =
      if get_rs1 i ≠ 0 then o &&& not32 (get_rs1 i) else o) ∧
    (get_funct3 i = 1 ∨ get_funct3 i = 2 ∨ get_funct3 i = 3 ∨ get_funct3 i = 5 ∨
        get_funct3 i = 6 ∨ get_funct3 i = 7 →
      get_rd i ≠ 0 → (decode_and_execute i p s).regs (get_rd i) = o) := by
  obtain ⟨e1, e2, e3, e5, e6, e7⟩ := csr_effect i p c o s ho hc hcsr
  have hun : read_csr c (clear_x0 (sprintf (write_rd (get_rd i) o s))) = o := by
    rw [read_csr_tail, read_csr_write_rd, hcsr]
  refine ⟨fun hf => ?_, fun hf => ?_, fun hf => ?_, fun hf => ?_, fun hf => ?_, fun hf => ?_,
    fun hf hrd => ?_⟩
  · rw [e1 hf, read_csr_written _ _ _ _ _ hm, hr]
  · rw [e2 hf, hr]
    by_cases h0 : get_rs1 i ≠ 0
    · rw [if_pos h0, if_pos h0, read_csr_written _ _ _ _ _ hm]
    · rw [if_neg h0, if_neg h0, hun]
  · rw [e3 hf, hr]
    by_cases h0 : get_rs1 i ≠ 0
    · rw [if_pos h0, if_pos h0, read_csr_written _ _ _ _ _ hm]
    · rw [if_neg h0, if_neg h0, hun]
  · rw [e5 hf, read_csr_written _ _ _ _ _ hm]
  · rw [e6 hf]
    by_cases h0 : get_rs1 i ≠ 0
    · rw [if_pos h0, if_pos h0, read_csr_written _ _ _ _ _ hm]
    · rw [if_neg h0, if_neg h0, hun]
  · rw [e7 hf]
    by_cases h0 : get_rs1 i ≠ 0
    · rw [if_pos h0, if_pos h0, read_csr_written _ _ _ _ _ hm]
    · rw [if_neg h0, if_neg h0, hun]
  · rcases hf with hf | hf | hf | hf | hf | hf
    · rw [e1 hf, regs_csr_written _ _ _ _ _ hrd]
    · rw [e2 hf]
      by_cases h0 : get_rs1 i ≠ 0
      · rw [if_pos h0, regs_csr_written _ _ _ _ _ hrd]
      · rw [if_neg h0, regs_csr_unwritten _ _ _ hrd]
    · rw [e3 hf]
      by_cases h0 : get_rs1 i ≠ 0
      · rw [if_pos h0, regs_csr_written _ _ _ _ _ hrd]
      · rw [if_neg h0, regs_csr_unwritten _ _ _ hrd]
    · rw [e5 hf, regs_csr_written _ _ _ _ _ hrd]
    · rw [e6 hf]
      by_cases h0 : get_rs1 i ≠ 0
      · rw [if_pos h0, regs_csr_written _ _ _ _ _ hrd]
      · rw [if_neg h0, regs_csr_unwritten _ _ _ hrd]
    · rw [e7 hf]
      by_cases h0 : get_rs1 i ≠ 0
      · rw [if_pos h0, regs_csr_written _ _ _ _ _ hrd]
      · rw [if_neg h0, regs_csr_unwritten _ _ _ hrd]

/-- C24 at a concrete input: `csrrc x1,mscratch,x1` (0x3400B0F3), with
rd = rs1 = x1, x1 = 0x0F and mscratch = 0xFF, leaves 0xF0 in mscratch and 0xFF
in x1. -/
theorem C24_csr_instructions_witness :
    (get_opcode 0x3400B0F3 = 0x73 ∧ ofInt (get_imm_I 0x3400B0F3) &&& 0xFFF = 0x340 ∧
      get_funct3 0x3400B0F3 = 3 ∧ get_rd 0x3400B0F3 = 1 ∧ get_rs1 0x3400B0F3 = 1) ∧
    read_csr 0x340 (decode_and_execute 0x3400B0F3 0x80000000
      (set_reg 1 0x0F { power_on with mscratch := 0xFF })) = 0xF0 ∧
    (decode_and_execute 0x3400B0F3 0x80000000
      (set_reg 1 0x0F { power_on with mscratch := 0xFF })).regs 1 = 0xFF :=
  ⟨by decide,
    ((C24_csr_instructions 0x3400B0F3 0x80000000 0x340 0xFF 0x0F
      (set_reg 1 0x0F { power_on with mscratch := 0xFF }) (by decide) (by decide) (by decide)
      (by decide) (by decide)).2.2.1 (by decide)).trans (by decide),
    (C24_csr_instructions 0x3400B0F3 0x80000000 0x340 0xFF 0x0F
      (set_reg 1 0x0F { power_on with mscratch := 0xFF }) (by decide) (by decide) (by decide)
      (by decide) (by decide)).2.2.2.2.2.2 (by decide) (by decide)⟩

/-! ## The right shifts of OP-IMM -/

theorem decode_op_imm (i p : Nat) (s : Machine) (ho : get_opcode i = 0x13) :
    decode_and_execute i p s = exec_op_imm i p s := by
  rw [decode_and_execute]
  simp only [ho, Nat.reduceEqDiff, if_false, if_true]

/-- What the code does for OP-IMM with funct3 = 5 in every state: the shift is
logical when the two top bits of the word (31 and 30) are both clear, and
arithmetic otherwise. -/
theorem op_imm_right_shift (i p : Nat) (s : Machine) (ho : get_opcode i = 0x13)
    (hf : get_funct3 i = 5) (hrd : get_rd i ≠ 0) :
    (i >>> 30 = 0 → (decode_and_execute i p s).regs (get_rd i) =
      s.regs (get_rs1 i) >>> (ofInt (get_imm_I i) &&& 0x1F)) ∧
    (i >>> 30 ≠ 0 → (decode_and_execute i p s).regs (get_rd i) =
      ofInt (s32 (s.regs (get_rs1 i)) >>> (ofInt (get_imm_I i) &&& 0x1F))) := by
  constructor
  · intro h
    have e : decode_and_execute i p s = clear_x0 (sprintf (write_rd (get_rd i)
        (s.regs (get_rs1 i) >>> (ofInt (get_imm_I i) &&& 0x1F)) s)) := by
      rw [decode_op_imm i p s ho, exec_op_imm]
      simp only [hf, h, Nat.reduceEqDiff, if_false, if_true]
    rw [e, written_rd _ _ _ hrd]
  · intro h
    have e : decode_and_execute i p s = clear_x0 (sprintf (write_rd (get_rd i)
        (ofInt (s32 (s.regs (get_rs1 i)) >>> (ofInt (get_imm_I i) &&& 0x1F))) s)) := by
      rw [decode_op_imm i p s ho, exec_op_imm]
      simp only [hf, Nat.reduceEqDiff, if_false, if_true, if_neg h]
    rw [e, written_rd _ _ _ hrd]

/-- C21, evaluated: the image holds `lui x1,0x80000` and the word 0x8010D093,
which has opcode 0x13, funct3 = 5, rd = rs1 = x1, shift amount (bits 24..20) 1,
bit 30 clear and bit 31 set.  After the first instruction x1 holds 0x80000000;
after the second x1 holds 0xC0000000, the arithmetic shift, and not
0x40000000, the logical shift that bit 30 = 0 selects. -/
theorem C21_right_shift_tests_bit31 :
    (fetch_instruction_from_pc (run 1 (main_init image_shift_bit31 []))).1 = 0x8010D093 ∧
    (get_opcode 0x8010D093 = 0x13 ∧ get_funct3 0x8010D093 = 5 ∧ get_rd 0x8010D093 = 1 ∧
      get_rs1 0x8010D093 = 1 ∧ (0x8010D093 >>> 20) % 32 = 1 ∧
      (0x8010D093 : Nat).testBit 30 = false ∧ (0x8010D093 : Nat).testBit 31 = true) ∧
    (run 1 (main_init image_shift_bit31 [])).regs 1 = 0x80000000 ∧
    (run 2 (main_init image_shift_bit31 [])).regs 1 = 0xC0000000 ∧
    (0x80000000 : Nat) >>> 1 = 0x40000000 ∧
    (run 2 (main_init image_shift_bit31 [])).outfile =
      [TraceLine.instruction 0x80000000, TraceLine.instruction 0x80000004] := by
  decide

/-! ## The timer counter -/

theorem mtime_clear_x0 (s r : Machine) : MtimeKept s (clear_x0 r) = MtimeKept s r :=
  propext (Iff.intro id id)

theorem mtime_sprintf (s r : Machine) : MtimeKept s (sprintf r) = MtimeKept s r :=
  propext (Iff.intro id id)

theorem mtime_set_reg (rd v : Nat) (s r : Machine) :
    MtimeKept s (set_reg rd v r) = MtimeKept s r := propext (Iff.intro id id)

theorem mtime_store_byte (a v : Nat) (s r : Machine) :
    MtimeKept s (store_byte a v r) = MtimeKept s r := propext (Iff.intro id id)

theorem mtime_pc (x : Nat) (s r : Machine) :
    MtimeKept s { r with pc := x } = MtimeKept s r := propext (Iff.intro id id)

theorem mtime_write_rd (rd v : Nat) (s r : Machine) :
    MtimeKept s (write_rd rd v r) = MtimeKept s r := by
  rw [write_rd]; split <;> rfl

theorem mtime_write_csr (a v : Nat) (s r : Machine) :
    MtimeKept s (write_csr a v r) = MtimeKept s r := by
  rw [write_csr]
  repeat' split
  all_goals rfl

theorem mtime_trigger_trap (c t p : Nat) (s r : Machine) :
    MtimeKept s (trigger_trap c t p r) = MtimeKept s r := by
  rw [trigger_trap]
  split <;> rfl

theorem mtime_refl (s : Machine) : MtimeKept s s = True := eq_true rfl

theorem mtime_ebreak (p : Nat) (s : Machine) :
    MtimeKept s { sprintf s with halt_flag := true, mcause := 3, mepc := p } = True :=
  eq_true rfl

theorem mtime_mret (x y : Nat) (s : Machine) :
    MtimeKept s { s with pc := x, mstatus := y } = True := eq_true rfl

theorem mtime_infile (x : Option (List Nat)) (s : Machine) :
    MtimeKept s { s with uart_infile := x } = True := eq_true rfl

theorem mtime_uart_read (a : Nat) (s : Machine) : MtimeKept s (uart_read a s).2 := by
  rw [uart_read]
  simp only [apply_ite Prod.snd, apply_ite (MtimeKept s), mtime_refl, mtime_infile,
    ite_true_true]

theorem mtime_uart_transmit (v : Nat) (s : Machine) :
    MtimeKept s { uart_transmit v s with
      plic_pending := (uart_transmit v s).plic_pending ||| (1 <<< UART_IRQ) } := by
  show (uart_transmit v s).mtime = s.mtime
  rw [uart_transmit]; split <;> rfl

theorem mtime_uart_write (a v n : Nat) (s : Machine) :
    MtimeKept s (uart_write a v n s) = True := by
  rw [uart_write]
  simp only [apply_ite (MtimeKept s), eq_true (mtime_uart_transmit v s), ite_true_true]
  split_ifs
  · rfl
  · exact eq_true rfl
  · exact mtime_refl s

/-- No word written to the CLINT changes mtime: the offsets 0xBFF8 and 0xBFFC
are not among those `clint_write` handles. -/
theorem mtime_clint_write (a v : Nat) (s : Machine) :
    MtimeKept s (clint_write a v s) = True := by
  rw [clint_write]
  split_ifs <;> exact eq_true rfl

theorem mtime_plic_write (a v : Nat) (s : Machine) :
    MtimeKept s (plic_write a v s) = True := by
  rw [plic_write]
  split_ifs <;> exact eq_true rfl

theorem memory_read_byte_mtime (a p : Nat) (s : Machine) :
    MtimeKept s (memory_read_byte a p s).2 := by
  rw [memory_read_byte]
  by_cases h1 : a ≥ UART_BASE ∧ a < UART_BASE + 8
  · rw [if_pos h1, to_uint8_snd]; exact mtime_uart_read a s
  · rw [if_neg h1]
    by_cases h2 : a ≥ PC_START_ADDRESS ∧ sub32 a PC_START_ADDRESS < MEMORY_SIZE
    · rw [if_pos h2]; exact of_eq_true (mtime_refl s)
    · rw [if_neg h2, mtime_trigger_trap]; exact of_eq_true (mtime_refl s)

theorem memory_read_halfword_mtime (a p : Nat) (s : Machine) :
    MtimeKept s (memory_read_halfword a p s).2 := by
  rw [memory_read_halfword]
  simp only [apply_ite Prod.snd, apply_ite (MtimeKept s), mtime_trigger_trap, mtime_refl,
    ite_true_true]

theorem memory_read_word_mtime (a p : Nat) (s : Machine) :
    MtimeKept s (memory_read_word a p s).2 := by
  rw [memory_read_word]
  simp only [apply_ite Prod.snd, apply_ite (MtimeKept s), mtime_trigger_trap, mtime_refl,
    ite_true_true]

theorem memory_write_byte_mtime (a v p : Nat) (s : Machine) :
    MtimeKept s (memory_write_byte a v p s) := by
  rw [memory_write_byte]
  simp only [apply_ite (MtimeKept s), mtime_trigger_trap, mtime_store_byte, mtime_uart_write,
    mtime_refl, ite_true_true]

theorem memory_write_halfword_mtime (a v p : Nat) (s : Machine) :
    MtimeKept s (memory_write_halfword a v p s) := by
  rw [memory_write_halfword]
  simp only [apply_ite (MtimeKept s), mtime_trigger_trap, mtime_store_byte, mtime_refl,
    ite_true_true]

theorem memory_write_word_mtime (a v p : Nat) (s : Machine) :
    MtimeKept s (memory_write_word a v p s) := by
  rw [memory_write_word]
  simp only [apply_ite (MtimeKept s), mtime_trigger_trap, mtime_store_byte, mtime_clint_write,
    mtime_plic_write, mtime_refl, ite_true_true]

theorem exec_branch_mtime (i p : Nat) (s : Machine) : MtimeKept s (exec_branch i p s) := by
  rw [exec_branch]
  simp only [apply_ite (MtimeKept s), mtime_clear_x0, mtime_sprintf, mtime_trigger_trap,
    mtime_pc, mtime_refl, ite_true_true]

theorem exec_load_mtime (i p : Nat) (s : Machine) : MtimeKept s (exec_load i p s) := by
  rw [exec_load]
  simp only [apply_ite (MtimeKept s), mtime_clear_x0, mtime_sprintf, mtime_set_reg,
    mtime_trigger_trap, memory_read_byte_mtime, memory_read_halfword_mtime,
    memory_read_word_mtime, mtime_refl, ite_true_true]

theorem exec_store_mtime (i p : Nat) (s : Machine) : MtimeKept s (exec_store i p s) := by
  rw [exec_store]
  simp only [apply_ite (MtimeKept s), mtime_clear_x0, mtime_sprintf, mtime_trigger_trap,
    memory_write_byte_mtime, memory_write_halfword_mtime, memory_write_word_mtime,
    mtime_refl, ite_true_true]

theorem exec_op_imm_mtime (i p : Nat) (s : Machine) : MtimeKept s (exec_op_imm i p s) := by
  rw [exec_op_imm]
  simp only [apply_ite (MtimeKept s), mtime_clear_x0, mtime_sprintf, mtime_write_rd,
    mtime_trigger_trap, mtime_refl, ite_true_true]

theorem exec_op_mtime (i p : Nat) (s : Machine) : MtimeKept s (exec_op i p s) := by
  rw [exec_op]
  simp only [apply_ite (MtimeKept s), mtime_clear_x0, mtime_sprintf, mtime_write_rd,
    mtime_trigger_trap, mtime_refl, ite_true_true]

theorem exec_system_mtime (i p : Nat) (s : Machine) : MtimeKept s (exec_system i p s) := by
  rw [exec_system]
  simp only [apply_ite (MtimeKept s), mtime_clear_x0, mtime_sprintf, mtime_write_rd,
    mtime_write_csr, mtime_trigger_trap, mtime_ebreak, mtime_mret, mtime_refl, ite_true_true]

theorem decode_and_execute_mtime (i p : Nat) (s : Machine) :
    MtimeKept s (decode_and_execute i p s) := by
  rw [decode_and_execute]
  simp only [apply_ite (MtimeKept s), mtime_clear_x0, mtime_sprintf, mtime_write_rd,
    mtime_pc, mtime_trigger_trap, exec_branch_mtime, exec_load_mtime, exec_store_mtime,
    exec_op_imm_mtime, exec_op_mtime, exec_system_mtime, mtime_refl, ite_true_true]

theorem post_execution_mtime (p : Nat) (s : Machine) :
    (post_execution p s).mtime = s.mtime := by
  rw [post_execution]; dsimp only; split_ifs <;> rfl

theorem interrupt_check_mtime (p : Nat) (s : Machine) :
    (interrupt_check p s).mtime = s.mtime := by
  rw [interrupt_check]
  split_ifs
  · exact of_eq_true ((mtime_trigger_trap _ _ _ s s).trans (mtime_refl s))
  · rfl
  · rfl

theorem fetch_mtime (s : Machine) : (fetch_instruction_from_pc s).2.mtime = s.mtime := by
  rcases fetch_cases s with h | h | h <;> rw [h]
  · exact of_eq_true ((mtime_trigger_trap _ _ _ s s).trans (mtime_refl s))
  · exact of_eq_true ((mtime_trigger_trap _ _ _ s s).trans (mtime_refl s))

theorem before_post_execution_mtime (s : Machine) :
    (before_post_execution s).mtime = (s.mtime + 1) % 2 ^ 64 := by
  have ht : (timer_tick s).mtime = (s.mtime + 1) % 2 ^ 64 := by
    rw [timer_tick_eq]
  have hf : (fetch_instruction_from_pc (interrupt_check s.pc (timer_tick s))).2.mtime =
      (s.mtime + 1) % 2 ^ 64 := by
    rw [fetch_mtime, interrupt_check_mtime, ht]
  rw [before_post_execution, fetch_and_execute]
  split
  · exact hf
  · exact (decode_and_execute_mtime _ _ _).trans hf

theorem write_word_clint (s : Machine) (a v p : Nat) (h4 : a % 4 = 0) (hlo : 0x02000000 ≤ a)
    (hhi : a < 0x02010000) : memory_write_word a v p s = clint_write a v s := by
  have h1 : ¬ a % 4 ≠ 0 := by omega
  have h2 : a ≥ CLINT_BASE ∧ a < CLINT_BASE + 0x10000 := by rw [CLINT_BASE]; omega
  rw [memory_write_word, if_neg h1, if_pos h2]

/-- C23: whatever the state `s` an iteration of the driver loop starts in, and
so whether the iteration retires an instruction, delivers an interrupt or
raises an exception, and whatever the instruction is, mtime is `mtime + 1`
modulo 2^64 at the end of the iteration.  A word store to CLINT_BASE + 0xBFF8
(0x0200BFF8) or CLINT_BASE + 0xBFFC (0x0200BFFC), the addresses where mtime is
read, changes nothing at all. -/
theorem C23_mtime_advances_by_one (s : Machine) (v p : Nat) :
    (loop_iteration s).mtime = (s.mtime + 1) % 2 ^ 64 ∧
    memory_write_word 0x0200BFF8 v p s = s ∧ memory_write_word 0x0200BFFC v p s = s ∧
    0x0200BFF8 = CLINT_BASE + 0xBFF8 ∧ 0x0200BFFC = CLINT_BASE + 0xBFFC := by
  refine ⟨?_, ?_, ?_, by decide, by decide⟩
  · rw [loop_iteration, post_execution_mtime, before_post_execution_mtime]
  · rw [write_word_clint s _ v p (by decide) (by decide) (by decide), clint_write,
      if_neg (by decide), if_neg (by decide), if_neg (by decide)]
  · rw [write_word_clint s _ v p (by decide) (by decide) (by decide), clint_write,
      if_neg (by decide), if_neg (by decide), if_neg (by decide)]

/-! ## The cause of a trap and the first trap of a run -/

theorem post_execution_flag (p : Nat) (s : Machine) :
    (post_execution p s).trap_pending_print = false := by
  rw [post_execution]
  by_cases h : s.trap_pending_print = true
  · rw [if_pos h]
  · rw [if_neg h]
    have h' : s.trap_pending_print = false := by
      cases hb : s.trap_pending_print
      · rfl
      · exact absurd hb h
    dsimp only
    split_ifs <;> exact h'

theorem post_execution_mcause (p : Nat) (s : Machine) :
    (post_execution p s).mcause = s.mcause := by
  rw [post_execution]; dsimp only; split_ifs <;> rfl

theorem run_flag (n : Nat) (s : Machine) (h : s.trap_pending_print = false) :
    (run n s).trap_pending_print = false := by
  induction n generalizing s with
  | zero => exact h
  | succ n ih =>
    rw [run]
    split_ifs
    · exact h
    · exact ih _ (post_execution_flag _ _)

theorem main_init_flag (program_hex_string : List Char) (term_in : List Nat) :
    (main_init program_hex_string term_in).trap_pending_print = false := by
  rw [main_init, load_program_fields]
  rfl

theorem select_trap_cause_cases (x : Nat) :
    select_trap_cause x = 0 ∨ select_trap_cause x = 0x80000003 ∨
    select_trap_cause x = 0x80000007 ∨ select_trap_cause x = 0x8000000B := by
  rw [select_trap_cause]
  split_ifs
  · exact Or.inr (Or.inr (Or.inr rfl))
  · exact Or.inr (Or.inl rfl)
  · exact Or.inr (Or.inr (Or.inl rfl))
  · exact Or.inl rfl

theorem interrupt_check_cases (p : Nat) (s : Machine) :
    interrupt_check p s = s ∨
    ∃ c, (c = 0x80000003 ∨ c = 0x80000007 ∨ c = 0x8000000B) ∧
      interrupt_check p s = trigger_trap c 0 p s := by
  rw [interrupt_check]
  split_ifs with h1 h2
  · rcases select_trap_cause_cases (s.mip &&& s.mie) with h | h | h | h
    · exact absurd h h2
    · exact Or.inr ⟨_, Or.inl h, rfl⟩
    · exact Or.inr ⟨_, Or.inr (Or.inl h), rfl⟩
    · exact Or.inr ⟨_, Or.inr (Or.inr h), rfl⟩
  · exact Or.inl rfl
  · exact Or.inl rfl

/-- The cause of the trap an iteration ends with is one of the eight causes
`trigger_trap` is called with. -/
theorem before_post_execution_cause (s : Machine) (h0 : s.trap_pending_print = false)
    (hr : (before_post_execution s).trap_pending_print = true) :
    IsTrapCause (before_post_execution s).mcause := by
  rcases interrupt_check_cases s.pc (timer_tick s) with hi | ⟨c, hc, hi⟩
  · have hno : (interrupt_check s.pc (timer_tick s)).trap_pending_print = false := by
      rw [hi, timer_tick_flag, h0]
    obtain ⟨c, t, htrap, hk⟩ := before_post_execution_trap s hno hr
    rw [htrap.2.2.1]
    rcases hk with ⟨h, -⟩ | ⟨h, -⟩ | h | h | ⟨h, -⟩ <;> rw [h]
    · exact Or.inl rfl
    · exact Or.inr (Or.inl rfl)
    · exact Or.inr (Or.inr (Or.inl rfl))
    · exact Or.inr (Or.inr (Or.inr (Or.inl rfl)))
    · exact Or.inr (Or.inr (Or.inr (Or.inr (Or.inl rfl))))
  · have hflag : (interrupt_check s.pc (timer_tick s)).trap_pending_print = true := by
      rw [hi]; exact trigger_trap_flag _ _ _ _
    have hcause : (interrupt_check s.pc (timer_tick s)).mcause = c := by
      rw [hi]; exact trigger_trap_mcause _ _ _ _
    rw [before_post_execution, fetch_and_execute]
    rcases fetch_cases (interrupt_check s.pc (timer_tick s)) with hf | hf | hf
    · rw [hf, if_pos hflag, hcause]
      rcases hc with h | h | h <;> rw [h]
      · exact Or.inr (Or.inr (Or.inr (Or.inr (Or.inr (Or.inl rfl)))))
      · exact Or.inr (Or.inr (Or.inr (Or.inr (Or.inr (Or.inr (Or.inl rfl))))))
      · exact Or.inr (Or.inr (Or.inr (Or.inr (Or.inr (Or.inr (Or.inr rfl))))))
    · rw [hf, if_pos (trigger_trap_flag _ _ _ _), trigger_trap_mcause]
      exact Or.inl rfl
    · rw [hf, if_pos (trigger_trap_flag _ _ _ _), trigger_trap_mcause]
      exact Or.inr (Or.inr (Or.inl rfl))

theorem isTrapCause_ne_sentinel (c : Nat) (h : IsTrapCause c) : c ≠ 0xFFFFFFFF := by
  rcases h with h | h | h | h | h | h | h | h <;> rw [h] <;> decide

/-- C28: let `s` be a state a run reaches after `n` iterations, whatever the
hex image and the terminal input, in which the loop makes another iteration
that raises a trap.  At the end of that iteration mcause is one of 1, 2, 5, 7,
11, 0x80000003, 0x80000007, 0x8000000B, so it is not 0xFFFFFFFF.  When the
trace of `s` has no trap line yet (the trap is the first of the run), the
iteration is not reported as a double fault, whatever mepc is: it appends the
trap line, not the FATAL line, and leaves halt_flag clear. -/
theorem C28_first_trap_is_not_double_fault (program_hex_string : List Char)
    (term_in : List Nat) (n : Nat) (s : Machine)
    (hs : s = run n (main_init program_hex_string term_in)) (hrun : s.halt_flag = false)
    (htrap : (before_post_execution s).trap_pending_print = true) :
    IsTrapCause (loop_iteration s).mcause ∧ (loop_iteration s).mcause ≠ 0xFFFFFFFF ∧
    (previous_trap s.outfile = none →
      s.last_trap_cause = 0xFFFFFFFF ∧
      (loop_iteration s).outfile = s.outfile ++
        [TraceLine.trap (get_trap_name (loop_iteration s).mcause) (loop_iteration s).mcause
          (before_post_execution s).mepc (before_post_execution s).mtval] ∧
      (loop_iteration s).halt_flag = false) := by
  have h0 : s.trap_pending_print = false := by
    rw [hs]
    exact run_flag n _ (main_init_flag program_hex_string term_in)
  have hrec : (s.last_trap_pc, s.last_trap_cause) =
      (previous_trap s.outfile).getD (0xFFFFFFFF, 0xFFFFFFFF) := by
    rw [hs]
    exact run_record n _ (main_init_record program_hex_string term_in)
  have hcause := before_post_execution_cause s h0 htrap
  have hm : (loop_iteration s).mcause = (before_post_execution s).mcause := by
    rw [loop_iteration, post_execution_mcause]
  obtain ⟨-, ho, hp, hc, hh⟩ := before_post_execution_frame s
  refine ⟨by rw [hm]; exact hcause, by rw [hm]; exact isTrapCause_ne_sentinel _ hcause,
    fun hnone => ?_⟩
  rw [hnone] at hrec
  have hlc : s.last_trap_cause = 0xFFFFFFFF := congrArg Prod.snd hrec
  have hne : ¬ ((before_post_execution s).mepc = (before_post_execution s).last_trap_pc ∧
      (before_post_execution s).mcause = (before_post_execution s).last_trap_cause) := by
    rw [hc, hlc]
    exact fun h => isTrapCause_ne_sentinel _ hcause h.2
  obtain ⟨g1, -, -, g4⟩ := post_execution_trap_line s.pc _ htrap hne
  refine ⟨hlc, ?_, ?_⟩
  · rw [hm, loop_iteration, g1, ho]
  · rw [loop_iteration, g4, hh htrap, hrun]

/-- C28 at a concrete input: on the image `@ffffffff` the first iteration
raises the first trap of the run, an instruction fault with mepc = 0xFFFFFFFF,
the start value of `last_trap_pc`; it writes the trap line and does not halt. -/
theorem C28_first_trap_is_not_double_fault_witness :
    ((main_init image_start_at_top []).halt_flag = false ∧
      (before_post_execution (main_init image_start_at_top [])).trap_pending_print = true ∧
      previous_trap (main_init image_start_at_top []).outfile = none ∧
      (before_post_execution (main_init image_start_at_top [])).mepc = 0xFFFFFFFF ∧
      (main_init image_start_at_top []).last_trap_pc = 0xFFFFFFFF) ∧
    (loop_iteration (main_init image_start_at_top [])).mcause = 1 ∧
    (loop_iteration (main_init image_start_at_top [])).outfile =
      [TraceLine.trap "exception:instruction_fault" 1 0xFFFFFFFF 0xFFFFFFFF] ∧
    (loop_iteration (main_init image_start_at_top [])).halt_flag = false :=
  ⟨by decide, by decide,
    (((C28_first_trap_is_not_double_fault image_start_at_top [] 0 _ rfl (by decide)
      (by decide)).2.2 (by decide)).2.1).trans (by decide),
    ((C28_first_trap_is_not_double_fault image_start_at_top [] 0 _ rfl (by decide)
      (by decide)).2.2 (by decide)).2.2⟩

/-! ## The trap line of the trace -/

theorem hex_digit_digitChar : ∀ d, d < 16 → hex_digit (Nat.digitChar d) = some d := by
  decide

theorem digitChar_lower_hex : ∀ d, d < 16 → Nat.digitChar d ∈ "0123456789abcdef".toList := by
  decide

theorem hex8_length (x : Nat) : (hex8 x).length = 8 := rfl

theorem hex8_chars (x : Nat) : ∀ ch ∈ (hex8 x).toList, ch ∈ "0123456789abcdef".toList := by
  intro ch h
  have h' : ch ∈ [Nat.digitChar (x / 16 ^ 7 % 16), Nat.digitChar (x / 16 ^ 6 % 16),
      Nat.digitChar (x / 16 ^ 5 % 16), Nat.digitChar (x / 16 ^ 4 % 16),
      Nat.digitChar (x / 16 ^ 3 % 16), Nat.digitChar (x / 16 ^ 2 % 16),
      Nat.digitChar (x / 16 % 16), Nat.digitChar (x % 16)] := h
  simp only [List.mem_cons, List.mem_singleton, List.not_mem_nil, or_false] at h'
  rcases h' with h | h | h | h | h | h | h | h <;> rw [h] <;>
    exact digitChar_lower_hex _ (Nat.mod_lt _ (by decide))

/-- Read back as a hexadecimal number, the eight digits give the value modulo
2^32. -/
theorem hex8_value (x : Nat) : hex_digits (hex8 x).toList 0 = (x % 2 ^ 32, []) := by
  have k : ∀ d, hex_digit (Nat.digitChar (d % 16)) = some (d % 16) :=
    fun d => hex_digit_digitChar _ (Nat.mod_lt _ (by decide))
  show hex_digits [Nat.digitChar (x / 16 ^ 7 % 16), Nat.digitChar (x / 16 ^ 6 % 16),
      Nat.digitChar (x / 16 ^ 5 % 16), Nat.digitChar (x / 16 ^ 4 % 16),
      Nat.digitChar (x / 16 ^ 3 % 16), Nat.digitChar (x / 16 ^ 2 % 16),
      Nat.digitChar (x / 16 % 16), Nat.digitChar (x % 16)] 0 = _
  simp only [hex_digits, k]
  congr 1
  omega

theorem trap_line_text (name : String) (c e t : Nat) :
    TraceLine.text (TraceLine.trap name c e t) =
      ">" ++ name ++ String.mk (List.replicate 19 ' ') ++ "cause=0x" ++ hex8 c ++ ",epc=0x" ++
        hex8 e ++ ",tval=0x" ++ hex8 t := by
  rw [TraceLine.text]
  simp only [String.append_assoc]
  rfl

theorem post_execution_mepc (p : Nat) (s : Machine) :
    (post_execution p s).mepc = s.mepc := by
  rw [post_execution]; dsimp only; split_ifs <;> rfl

theorem post_execution_mtval (p : Nat) (s : Machine) :
    (post_execution p s).mtval = s.mtval := by
  rw [post_execution]; dsimp only; split_ifs <;> rfl

theorem interrupt_name_unknown (c : Nat) (h32 : c < 2 ^ 32) (hb : c.testBit 31 = true)
    (h3 : c ≠ 0x80000003) (h7 : c ≠ 0x80000007) (h11 : c ≠ 0x8000000B) :
    get_trap_name c = "interrupt:unknown" := by
  have e : ∀ x : Nat, x &&& 0x7FFFFFFF = x % 2 ^ 31 :=
    fun x => Nat.and_pow_two_sub_one_eq_mod x 31
  have hi : c &&& 0x80000000 ≠ 0 := (and_two_pow_ne_zero c 31).2 hb
  rw [Nat.testBit_to_div_mod, decide_eq_true_eq] at hb
  rw [get_trap_name, if_pos hi, e, if_neg (by omega), if_neg (by omega), if_neg (by omega)]

theorem exception_name_unknown (c : Nat) (hb : c.testBit 31 = false)
    (h1 : c ≠ 1) (h2 : c ≠ 2) (h5 : c ≠ 5) (h7 : c ≠ 7) (h11 : c ≠ 11) :
    get_trap_name c = "exception:unknown" := by
  have hi : ¬ (c &&& 0x80000000 ≠ 0) := by
    intro h
    rw [(and_two_pow_ne_zero c 31).1 h] at hb
    exact absurd hb (by decide)
  rw [get_trap_name, if_neg hi, if_neg h1, if_neg h2, if_neg h5, if_neg h7, if_neg h11]

/-- C26, amended: an iteration of the driver loop in which a trap is raised
appends exactly one line to the trace.  Unless the trap is detected as a double
fault (mepc and mcause equal the recorded pair), that line is the trap line of
the mcause, mepc and mtval the iteration ends with: `>`, the trap name of
mcause, 19 spaces, and `cause=0x<mcause>,epc=0x<mepc>,tval=0x<mtval>`, each
value printed by `hex8` as 8 lower-case hexadecimal digits that read back as
the value modulo 2^32.  The name is interrupt:software, interrupt:timer,
interrupt:external for the causes 0x80000003, 0x80000007, 0x8000000B,
interrupt:unknown for any other 32-bit cause with bit 31 set,
exception:instruction_fault, illegal_instruction, load_fault, store_fault,
environment_call for the causes 1, 2, 5, 7, 11, and exception:unknown for any
other cause with bit 31 clear. -/
theorem C26_trap_line (s : Machine)
    (htrap : (before_post_execution s).trap_pending_print = true) :
    (∃ line, (loop_iteration s).outfile = s.outfile ++ [line]) ∧
    (¬ ((before_post_execution s).mepc = s.last_trap_pc ∧
        (before_post_execution s).mcause = s.last_trap_cause) →
      (loop_iteration s).outfile = s.outfile ++
        [TraceLine.trap (get_trap_name (loop_iteration s).mcause) (loop_iteration s).mcause
          (loop_iteration s).mepc (loop_iteration s).mtval]) ∧
    (∀ (name : String) (c e t : Nat), TraceLine.text (TraceLine.trap name c e t) =
      ">" ++ name ++ String.mk (List.replicate 19 ' ') ++ "cause=0x" ++ hex8 c ++ ",epc=0x" ++
        hex8 e ++ ",tval=0x" ++ hex8 t) ∧
    (∀ x, (hex8 x).length = 8 ∧ (∀ ch ∈ (hex8 x).toList, ch ∈ "0123456789abcdef".toList) ∧
      hex_digits (hex8 x).toList 0 = (x % 2 ^ 32, [])) ∧
    (get_trap_name 0x80000003 = "interrupt:software" ∧
      get_trap_name 0x80000007 = "interrupt:timer" ∧
      get_trap_name 0x8000000B = "interrupt:external" ∧
      get_trap_name 1 = "exception:instruction_fault" ∧
      get_trap_name 2 = "exception:illegal_instruction" ∧
      get_trap_name 5 = "exception:load_fault" ∧
      get_trap_name 7 = "exception:store_fault" ∧
      get_trap_name 11 = "exception:environment_call") ∧
    (∀ c, c < 2 ^ 32 → c.testBit 31 = true → c ≠ 0x80000003 → c ≠ 0x80000007 →
      c ≠ 0x8000000B → get_trap_name c = "interrupt:unknown") ∧
    (∀ c, c.testBit 31 = false → c ≠ 1 → c ≠ 2 → c ≠ 5 → c ≠ 7 → c ≠ 11 →
      get_trap_name c = "exception:unknown") := by
  obtain ⟨-, ho, hp, hc, -⟩ := before_post_execution_frame s
  have hm : (loop_iteration s).mcause = (before_post_execution s).mcause := by
    rw [loop_iteration, post_execution_mcause]
  have he : (loop_iteration s).mepc = (before_post_execution s).mepc := by
    rw [loop_iteration, post_execution_mepc]
  have hv : (loop_iteration s).mtval = (before_post_execution s).mtval := by
    rw [loop_iteration, post_execution_mtval]
  have hline : ¬ ((before_post_execution s).mepc = s.last_trap_pc ∧
        (before_post_execution s).mcause = s.last_trap_cause) →
      (loop_iteration s).outfile = s.outfile ++
        [TraceLine.trap (get_trap_name (loop_iteration s).mcause) (loop_iteration s).mcause
          (loop_iteration s).mepc (loop_iteration s).mtval] := by
    intro hne
    have hne' : ¬ ((before_post_execution s).mepc = (before_post_execution s).last_trap_pc ∧
        (before_post_execution s).mcause = (before_post_execution s).last_trap_cause) := by
      rw [hp, hc]; exact hne
    rw [hm, he, hv, loop_iteration, (post_execution_trap_line s.pc _ htrap hne').1, ho]
  refine ⟨?_, hline, trap_line_text, fun x => ⟨hex8_length x, hex8_chars x, hex8_value x⟩,
    by decide, interrupt_name_unknown, exception_name_unknown⟩
  by_cases heq : (before_post_execution s).mepc = s.last_trap_pc ∧
      (before_post_execution s).mcause = s.last_trap_cause
  · have heq' : (before_post_execution s).mepc = (before_post_execution s).last_trap_pc ∧
        (before_post_execution s).mcause = (before_post_execution s).last_trap_cause := by
      rw [hp, hc]; exact heq
    refine ⟨TraceLine.fatal, ?_⟩
    rw [loop_iteration, post_execution_fatal _ _ htrap heq']
    exact congrArg (fun l => l ++ [TraceLine.fatal]) ho
  · exact ⟨_, hline heq⟩

/-- C26 at a concrete input: the fourth iteration on `image_ecall_is_handler`
raises the environment call at 0x8000000C and appends its trap line. -/
theorem C26_trap_line_witness :
    (before_post_execution (run 3 (main_init image_ecall_is_handler []))).trap_pending_print =
      true ∧
    (loop_iteration (run 3 (main_init image_ecall_is_handler []))).outfile =
      (run 3 (main_init image_ecall_is_handler [])).outfile ++
        [TraceLine.trap "exception:environment_call" 11 0x8000000C 0] ∧
    TraceLine.text (TraceLine.trap "exception:environment_call" 11 0x8000000C 0) =
      ">exception:environment_call                   cause=0x0000000b,epc=0x8000000c,tval=0x00000000" :=
  ⟨by decide,
    ((C26_trap_line (run 3 (main_init image_ecall_is_handler [])) (by decide)).2.1
      (by decide)).trans (by decide),
    by decide⟩

/-- C26 as stated fails for a trap that is detected as a double fault: the
fifth iteration on `image_ecall_is_handler` raises the environment call at
0x8000000C a second time, and the one line it appends is the FATAL line, not
the trap line of its mcause, mepc and mtval. -/
theorem C26_trap_line_counterexample :
    (before_post_execution (run 4 (main_init image_ecall_is_handler []))).trap_pending_print =
      true ∧
    (before_post_execution (run 4 (main_init image_ecall_is_handler []))).mcause = 11 ∧
    (before_post_execution (run 4 (main_init image_ecall_is_handler []))).mepc = 0x8000000C ∧
    (before_post_execution (run 4 (main_init image_ecall_is_handler []))).mtval = 0 ∧
    (loop_iteration (run 4 (main_init image_ecall_is_handler []))).outfile =
      (run 4 (main_init image_ecall_is_handler [])).outfile ++ [TraceLine.fatal] ∧
    TraceLine.text TraceLine.fatal = ">FATAL: Double fault detected. Halting simulation." ∧
    TraceLine.text TraceLine.fatal ≠
      TraceLine.text (TraceLine.trap (get_trap_name 11) 11 0x8000000C 0) := by
  decide

/-! ## Division and remainder -/

theorem s32_range (a : Nat) (h : a < 2 ^ 32) : -2 ^ 31 ≤ s32 a ∧ s32 a < 2 ^ 31 := by
  rw [s32]
  split <;> omega

theorem s32_ofInt (x : Int) (h : -2 ^ 31 ≤ x ∧ x < 2 ^ 31) : s32 (ofInt x) = x := by
  rw [s32, ofInt]
  split <;> omega

theorem ofInt_emod (x : Int) : ((ofInt x : Nat) : Int) % 2 ^ 32 = x % 2 ^ 32 := by
  rw [ofInt, Int.toNat_of_nonneg (Int.emod_nonneg _ (by norm_num)), Int.emod_emod]

/-- The remainder of the truncating division is smaller than the divisor in
absolute value and has the sign of the dividend. -/
theorem tmod_facts (a b : Int) (hb : b ≠ 0) :
    (Int.tmod a b).natAbs < b.natAbs ∧ (0 ≤ a → 0 ≤ Int.tmod a b) ∧
    (a ≤ 0 → Int.tmod a b ≤ 0) := by
  have hpos : 0 < b.natAbs := Int.natAbs_pos.2 hb
  cases a with
  | ofNat m =>
    cases b with
    | ofNat n =>
      refine ⟨?_, fun _ => Int.tmod_nonneg _ (Int.ofNat_nonneg m), fun h => ?_⟩
      · show (m % n) < n
        exact Nat.mod_lt _ hpos
      · have h' : (m : Int) ≤ 0 := h
        have hm : m = 0 := by omega
        rw [hm]
        show ((0 % n : Nat) : Int) ≤ 0
        rw [Nat.zero_mod]
        exact Int.le_refl 0
    | negSucc n =>
      refine ⟨?_, fun _ => Int.tmod_nonneg _ (Int.ofNat_nonneg m), fun h => ?_⟩
      · show (m % (n + 1)) < n + 1
        exact Nat.mod_lt _ (Nat.succ_pos n)
      · have h' : (m : Int) ≤ 0 := h
        have hm : m = 0 := by omega
        rw [hm]
        show ((0 % (n + 1) : Nat) : Int) ≤ 0
        rw [Nat.zero_mod]
        exact Int.le_refl 0
  | negSucc m =>
    cases b with
    | ofNat n =>
      refine ⟨?_, fun h => absurd h (Int.not_le.2 (Int.negSucc_lt_zero m)), fun _ => ?_⟩
      · show (-(((m + 1) % n : Nat) : Int)).natAbs < n
        rw [Int.natAbs_neg]
        exact Nat.mod_lt _ hpos
      · show -(((m + 1) % n : Nat) : Int) ≤ 0
        omega
    | negSucc n =>
      refine ⟨?_, fun h => absurd h (Int.not_le.2 (Int.negSucc_lt_zero m)), fun _ => ?_⟩
      · show (-(((m + 1) % (n + 1) : Nat) : Int)).natAbs < n + 1
        rw [Int.natAbs_neg]
        exact Nat.mod_lt _ (Nat.succ_pos n)
      · show -(((m + 1) % (n + 1) : Nat) : Int) ≤ 0
        omega

theorem tdiv_range (a b : Int) (ha : -2 ^ 31 ≤ a ∧ a < 2 ^ 31) (hb : b ≠ 0)
    (hov : ¬ (a = -2 ^ 31 ∧ b = -1)) :
    -2 ^ 31 ≤ Int.tdiv a b ∧ Int.tdiv a b < 2 ^ 31 := by
  have hpos : 0 < b.natAbs := Int.natAbs_pos.2 hb
  have hq : (Int.tdiv a b).natAbs = a.natAbs / b.natAbs := Int.natAbs_tdiv a b
  have hle : a.natAbs / b.natAbs * b.natAbs ≤ a.natAbs := Nat.div_mul_le_self _ _
  have hle2 : a.natAbs / b.natAbs ≤ a.natAbs := Nat.div_le_self _ _
  have hna : a.natAbs ≤ 2 ^ 31 := by omega
  constructor
  · omega
  · by_contra hcon
    have hk : (Int.tdiv a b).natAbs = 2 ^ 31 := by omega
    rw [hk] at hq
    rw [← hq] at hle
    have hb1 : b.natAbs = 1 := by
      by_contra h1
      have : 2 ≤ b.natAbs := by omega
      have : 2 ^ 31 * 2 ≤ 2 ^ 31 * b.natAbs := Nat.mul_le_mul_left _ this
      omega
    have ha' : a = -2 ^ 31 := by omega
    have hbcase : b = 1 ∨ b = -1 := by omega
    rcases hbcase with h | h
    · rw [h, Int.tdiv_one] at hcon
      omega
    · exact hov ⟨ha', h⟩

theorem signed_division_identity (a b : Nat) (ha : a < 2 ^ 32) :
    (div_result a b * b + rem_result a b) % 2 ^ 32 = a := by
  rw [div_result, rem_result]
  by_cases h0 : b = 0
  · rw [if_pos h0, if_pos h0, h0, Nat.mul_zero, Nat.zero_add]
    exact Nat.mod_eq_of_lt ha
  · rw [if_neg h0, if_neg h0]
    by_cases hov : a = 0x80000000 ∧ b = 0xFFFFFFFF
    · rw [if_pos hov, if_pos hov, hov.1, hov.2]
      decide
    · rw [if_neg hov, if_neg hov]
      have hq : ((ofInt (Int.tdiv (s32 a) (s32 b)) : Nat) : Int) ≡
          Int.tdiv (s32 a) (s32 b) [ZMOD 2 ^ 32] := ofInt_emod _
      have hr : ((ofInt (Int.tmod (s32 a) (s32 b)) : Nat) : Int) ≡
          Int.tmod (s32 a) (s32 b) [ZMOD 2 ^ 32] := ofInt_emod _
      have hb : (b : Int) ≡ s32 b [ZMOD 2 ^ 32] := (s32_emod b).symm
      have hs : s32 a ≡ (a : Int) [ZMOD 2 ^ 32] := s32_emod a
      have h := ((hq.mul hb).add hr).trans
        ((Int.tdiv_add_tmod' (s32 a) (s32 b)).symm ▸ hs)
      have h' : ((ofInt (Int.tdiv (s32 a) (s32 b)) : Nat) : Int) * (b : Int) +
          ((ofInt (Int.tmod (s32 a) (s32 b)) : Nat) : Int) ≡ (a : Int) [ZMOD 2 ^ 32] := h
      rw [Int.ModEq] at h'
      omega

theorem unsigned_division_identity (a b : Nat) (ha : a < 2 ^ 32) :
    (divu_result a b * b + remu_result a b) % 2 ^ 32 = a := by
  rw [divu_result, remu_result]
  by_cases h0 : b = 0
  · rw [if_pos h0, if_pos h0, h0, Nat.mul_zero, Nat.zero_add]
    exact Nat.mod_eq_of_lt ha
  · rw [if_neg h0, if_neg h0, Nat.div_add_mod']
    exact Nat.mod_eq_of_lt ha

/-- Outside division by zero and the overflow pair, `div` and `rem` write the
quotient of the truncating division and its remainder. -/
theorem signed_division_truncates (a b : Nat) (ha : a < 2 ^ 32) (hb : b < 2 ^ 32) (h0 : b ≠ 0)
    (hov : ¬ (a = 0x80000000 ∧ b = 0xFFFFFFFF)) :
    s32 (div_result a b) = Int.tdiv (s32 a) (s32 b) ∧
    s32 (rem_result a b) = Int.tmod (s32 a) (s32 b) ∧
    s32 b * s32 (div_result a b) + s32 (rem_result a b) = s32 a ∧
    (s32 (rem_result a b)).natAbs < (s32 b).natAbs ∧
    (0 ≤ s32 a → 0 ≤ s32 (rem_result a b)) ∧ (s32 a ≤ 0 → s32 (rem_result a b) ≤ 0) := by
  have hA := s32_range a ha
  have hB := s32_range b hb
  have hb0 : s32 b ≠ 0 := by
    rw [s32]; split <;> omega
  have hov' : ¬ (s32 a = -2 ^ 31 ∧ s32 b = -1) := by
    intro h
    apply hov
    have h1 := h.1
    have h2 := h.2
    rw [s32] at h1 h2
    split at h1 <;> split at h2 <;> constructor <;> omega
  obtain ⟨f1, f2, f3⟩ := tmod_facts (s32 a) (s32 b) hb0
  have hQ := tdiv_range (s32 a) (s32 b) hA hb0 hov'
  have hR : -2 ^ 31 ≤ Int.tmod (s32 a) (s32 b) ∧ Int.tmod (s32 a) (s32 b) < 2 ^ 31 := by
    omega
  have eq : s32 (div_result a b) = Int.tdiv (s32 a) (s32 b) := by
    rw [div_result, if_neg h0, if_neg hov, s32_ofInt _ hQ]
  have er : s32 (rem_result a b) = Int.tmod (s32 a) (s32 b) := by
    rw [rem_result, if_neg h0, if_neg hov, s32_ofInt _ hR]
  rw [eq, er]
  exact ⟨rfl, rfl, Int.tdiv_add_tmod _ _, f1, f2, f3⟩

/-- C27: let `iq` and `ir` be instructions of the M extension (opcode 0x33,
funct7 = 1) with rd != 0 that take the same 32-bit operands a = regs[rs1] and
b = regs[rs2] in state `s`, let `q` be what `iq` leaves in its rd and `r` what
`ir` leaves in its rd.  For `div` and `rem` (funct3 4 and 6), and for `divu`
and `remu` (funct3 5 and 7), `q * b + r = a` modulo 2^32, also when b = 0 and
for a = 0x80000000, b = 0xFFFFFFFF.  For `div` and `rem` with b != 0 and (a, b)
not that pair, the signed values satisfy `s32 b * s32 q + s32 r = s32 a` with
`|s32 r| < |s32 b|` and `s32 r` of the sign of `s32 a` (or 0), so `s32 q` is the
quotient truncated toward zero; it is `Int.tdiv (s32 a) (s32 b)`. -/
theorem C27_division_identity (iq ir p a b : Nat) (s : Machine)
    (hq : get_opcode iq = 0x33 ∧ get_funct7 iq = 1 ∧ get_rd iq ≠ 0)
    (hr : get_opcode ir = 0x33 ∧ get_funct7 ir = 1 ∧ get_rd ir ≠ 0)
    (hqa : s.regs (get_rs1 iq) = a ∧ s.regs (get_rs2 iq) = b)
    (hra : s.regs (get_rs1 ir) = a ∧ s.regs (get_rs2 ir) = b)
    (ha : a < 2 ^ 32) (hb : b < 2 ^ 32) :
    (get_funct3 iq = 4 → get_funct3 ir = 6 →
      ((decode_and_execute iq p s).regs (get_rd iq) * b +
        (decode_and_execute ir p s).regs (get_rd ir)) % 2 ^ 32 = a ∧
      (b ≠ 0 → ¬ (a = 0x80000000 ∧ b = 0xFFFFFFFF) →
        s32 ((decode_and_execute iq p s).regs (get_rd iq)) = Int.tdiv (s32 a) (s32 b) ∧
        s32 ((decode_and_execute ir p s).regs (get_rd ir)) = Int.tmod (s32 a) (s32 b) ∧
        s32 b * s32 ((decode_and_execute iq p s).regs (get_rd iq)) +
          s32 ((decode_and_execute ir p s).regs (get_rd ir)) = s32 a ∧
        (s32 ((decode_and_execute ir p s).regs (get_rd ir))).natAbs < (s32 b).natAbs ∧
        (0 ≤ s32 a → 0 ≤ s32 ((decode_and_execute ir p s).regs (get_rd ir))) ∧
        (s32 a ≤ 0 → s32 ((decode_and_execute ir p s).regs (get_rd ir)) ≤ 0))) ∧
    (get_funct3 iq = 5 → get_funct3 ir = 7 →
      ((decode_and_execute iq p s).regs (get_rd iq) * b +
        (decode_and_execute ir p s).regs (get_rd ir)) % 2 ^ 32 = a) := by
  obtain ⟨-, -, -, -, q4, q5, -, -⟩ := exec_op_m iq p s hq.2.1
  obtain ⟨-, -, -, -, -, -, r6, r7⟩ := exec_op_m ir p s hr.2.1
  rw [decode_op iq p s hq.1, decode_op ir p s hr.1]
  constructor
  · intro h4 h6
    rw [q4 h4, r6 h6, written_rd _ _ _ hq.2.2, written_rd _ _ _ hr.2.2, hqa.1, hqa.2, hra.1,
      hra.2]
    exact ⟨signed_division_identity a b ha,
      fun h0 hov => signed_division_truncates a b ha hb h0 hov⟩
  · intro h5 h7
    rw [q5 h5, r7 h7, written_rd _ _ _ hq.2.2, written_rd _ _ _ hr.2.2, hqa.1, hqa.2, hra.1,
      hra.2]
    exact unsigned_division_identity a b ha

/-- C27 at a concrete input: `div x3,x1,x2` (0x0220C1B3) and `rem x4,x1,x2`
(0x0220E233) with x1 = 0xFFFFFFF9 (-7) and x2 = 2 leave 0xFFFFFFFD (-3) and
0xFFFFFFFF (-1). -/
theorem C27_division_identity_witness :
    ((get_opcode 0x0220C1B3 = 0x33 ∧ get_funct7 0x0220C1B3 = 1 ∧ get_rd 0x0220C1B3 ≠ 0) ∧
      (get_opcode 0x0220E233 = 0x33 ∧ get_funct7 0x0220E233 = 1 ∧ get_rd 0x0220E233 ≠ 0) ∧
      get_funct3 0x0220C1B3 = 4 ∧ get_funct3 0x0220E233 = 6) ∧
    ((decode_and_execute 0x0220C1B3 0x80000000
        (set_reg 1 0xFFFFFFF9 (set_reg 2 2 power_on))).regs 3 = 0xFFFFFFFD ∧
      (decode_and_execute 0x0220E233 0x80000000
        (set_reg 1 0xFFFFFFF9 (set_reg 2 2 power_on))).regs 4 = 0xFFFFFFFF) ∧
    ((decode_and_execute 0x0220C1B3 0x80000000
        (set_reg 1 0xFFFFFFF9 (set_reg 2 2 power_on))).regs (get_rd 0x0220C1B3) * 2 +
      (decode_and_execute 0x0220E233 0x80000000
        (set_reg 1 0xFFFFFFF9 (set_reg 2 2 power_on))).regs (get_rd 0x0220E233)) % 2 ^ 32 =
      0xFFFFFFF9 :=
  ⟨by decide, by decide,
    ((C27_division_identity 0x0220C1B3 0x0220E233 0x80000000 0xFFFFFFF9 2
      (set_reg 1 0xFFFFFFF9 (set_reg 2 2 power_on)) (by decide) (by decide) (by decide)
      (by decide) (by decide) (by decide)).1 (by decide) (by decide)).1⟩

/-! ## The immediates of the five instruction formats -/

theorem or_eq_add_of_dvd (x y k : Nat) (hx : 2 ^ k ∣ x) (hy : y < 2 ^ k) : x ||| y = x + y := by
  obtain ⟨m, rfl⟩ := hx
  exact (Nat.mul_add_lt_is_or hy m).symm

theorem shiftRight_20 (x : Int) : x >>> (20 : Int) = x / 2 ^ 20 := by
  cases x with
  | ofNat m =>
    have h := Int.shiftRight_coe_nat m 20
    rw [Nat.shiftRight_eq_div_pow] at h
    show (m : Int) >>> ((20 : Nat) : Int) = _
    rw [h]
    push_cast
    rfl
  | negSucc m =>
    have h := Int.shiftRight_negSucc m 20
    rw [Nat.shiftRight_eq_div_pow] at h
    show Int.negSucc m >>> ((20 : Nat) : Int) = _
    rw [h, Int.negSucc_eq, Int.negSucc_eq]
    push_cast
    omega

theorem shiftRight_19 (x : Int) : x >>> (19 : Int) = x / 2 ^ 19 := by
  cases x with
  | ofNat m =>
    have h := Int.shiftRight_coe_nat m 19
    rw [Nat.shiftRight_eq_div_pow] at h
    show (m : Int) >>> ((19 : Nat) : Int) = _
    rw [h]
    push_cast
    rfl
  | negSucc m =>
    have h := Int.shiftRight_negSucc m 19
    rw [Nat.shiftRight_eq_div_pow] at h
    show Int.negSucc m >>> ((19 : Nat) : Int) = _
    rw [h, Int.negSucc_eq, Int.negSucc_eq]
    push_cast
    omega

theorem shiftRight_11 (x : Int) : x >>> (11 : Int) = x / 2 ^ 11 := by
  cases x with
  | ofNat m =>
    have h := Int.shiftRight_coe_nat m 11
    rw [Nat.shiftRight_eq_div_pow] at h
    show (m : Int) >>> ((11 : Nat) : Int) = _
    rw [h]
    push_cast
    rfl
  | negSucc m =>
    have h := Int.shiftRight_negSucc m 11
    rw [Nat.shiftRight_eq_div_pow] at h
    show Int.negSucc m >>> ((11 : Nat) : Int) = _
    rw [h, Int.negSucc_eq, Int.negSucc_eq]
    push_cast
    omega

theorem get_imm_I_eq (w : Nat) (hw : w < 2 ^ 32) :
    get_imm_I w = sign_extend 12 (field w 31 20) := by
  rw [get_imm_I, shiftRight_20, s32, sign_extend, field]
  norm_num
  split <;> split <;> omega

theorem get_imm_S_eq (w : Nat) (hw : w < 2 ^ 32) :
    get_imm_S w = sign_extend 12 (field w 31 25 * 2 ^ 5 + field w 11 7) := by
  have e : (((w >>> 25) <<< 5) % 2 ^ 32) ||| ((w >>> 7) &&& 0x1F) =
      w / 2 ^ 25 * 2 ^ 5 + w / 2 ^ 7 % 2 ^ 5 := by
    rw [Nat.shiftRight_eq_div_pow, Nat.shiftRight_eq_div_pow, Nat.shiftLeft_eq,
      Nat.and_pow_two_sub_one_eq_mod _ 5,
      or_eq_add_of_dvd _ _ 5 (by omega) (by omega)]
    omega
  unfold get_imm_S
  simp only [e]
  rw [shiftRight_20, Nat.shiftLeft_eq, s32, sign_extend, field, field]
  norm_num
  split <;> split <;> omega

theorem or_fields_B (a b c d : Nat) (hb : b < 2) (hc : c < 2 ^ 6) (hd : d < 2 ^ 4) :
    a <<< 12 ||| b <<< 11 ||| c <<< 5 ||| d <<< 1 = a * 2 ^ 12 + b * 2 ^ 11 + c * 2 ^ 5 + d * 2 := by
  rw [Nat.shiftLeft_eq, Nat.shiftLeft_eq, Nat.shiftLeft_eq, Nat.shiftLeft_eq,
    or_eq_add_of_dvd (a * 2 ^ 12) (b * 2 ^ 11) 12 (by omega) (by omega),
    or_eq_add_of_dvd (a * 2 ^ 12 + b * 2 ^ 11) (c * 2 ^ 5) 11 (by omega) (by omega),
    or_eq_add_of_dvd (a * 2 ^ 12 + b * 2 ^ 11 + c * 2 ^ 5) (d * 2 ^ 1) 5 (by omega) (by omega)]

theorem or_fields_J (a b c d : Nat) (hb : b < 2 ^ 8) (hc : c < 2) (hd : d < 2 ^ 10) :
    a <<< 20 ||| b <<< 12 ||| c <<< 11 ||| d <<< 1 =
      a * 2 ^ 20 + b * 2 ^ 12 + c * 2 ^ 11 + d * 2 := by
  rw [Nat.shiftLeft_eq, Nat.shiftLeft_eq, Nat.shiftLeft_eq, Nat.shiftLeft_eq,
    or_eq_add_of_dvd (a * 2 ^ 20) (b * 2 ^ 12) 20 (by omega) (by omega),
    or_eq_add_of_dvd (a * 2 ^ 20 + b * 2 ^ 12) (c * 2 ^ 11) 12 (by omega) (by omega),
    or_eq_add_of_dvd (a * 2 ^ 20 + b * 2 ^ 12 + c * 2 ^ 11) (d * 2 ^ 1) 11 (by omega)
      (by omega)]

theorem sext_shift_13 (x : Nat) (hx : x < 2 ^ 13) :
    s32 ((x * 2 ^ 19) % 2 ^ 32) / 2 ^ 19 = sign_extend 13 x := by
  rw [s32, sign_extend]
  norm_num
  split <;> split <;> omega

theorem sext_shift_21 (x : Nat) (hx : x < 2 ^ 21) :
    s32 ((x * 2 ^ 11) % 2 ^ 32) / 2 ^ 11 = sign_extend 21 x := by
  rw [s32, sign_extend]
  norm_num
  split <;> split <;> omega

theorem get_imm_B_eq (w : Nat) :
    get_imm_B w = sign_extend 13 (field w 31 31 * 2 ^ 12 + field w 7 7 * 2 ^ 11 +
      field w 30 25 * 2 ^ 5 + field w 11 8 * 2) := by
  have m1 : ∀ x : Nat, x &&& 0x1 = x % 2 := fun x => Nat.and_pow_two_sub_one_eq_mod x 1
  have m6 : ∀ x : Nat, x &&& 0x3F = x % 2 ^ 6 := fun x => Nat.and_pow_two_sub_one_eq_mod x 6
  have m4 : ∀ x : Nat, x &&& 0xF = x % 2 ^ 4 := fun x => Nat.and_pow_two_sub_one_eq_mod x 4
  unfold get_imm_B
  simp only [m1, m6, m4, Nat.shiftRight_eq_div_pow]
  rw [or_fields_B _ _ _ _ (Nat.mod_lt _ (by decide))
    (Nat.mod_lt _ (by decide)) (Nat.mod_lt _ (by decide)), shiftRight_19, Nat.shiftLeft_eq,
    sext_shift_13 _ (by omega)]
  rfl

theorem get_imm_J_eq (w : Nat) :
    get_imm_J w = sign_extend 21 (field w 31 31 * 2 ^ 20 + field w 19 12 * 2 ^ 12 +
      field w 20 20 * 2 ^ 11 + field w 30 21 * 2) := by
  have m1 : ∀ x : Nat, x &&& 0x1 = x % 2 := fun x => Nat.and_pow_two_sub_one_eq_mod x 1
  have m8 : ∀ x : Nat, x &&& 0xFF = x % 2 ^ 8 := fun x => Nat.and_pow_two_sub_one_eq_mod x 8
  have m10 : ∀ x : Nat, x &&& 0x3FF = x % 2 ^ 10 :=
    fun x => Nat.and_pow_two_sub_one_eq_mod x 10
  unfold get_imm_J
  simp only [m1, m8, m10, Nat.shiftRight_eq_div_pow]
  rw [or_fields_J _ _ _ _ (Nat.mod_lt _ (by decide))
    (Nat.mod_lt _ (by decide)) (Nat.mod_lt _ (by decide)), shiftRight_11, Nat.shiftLeft_eq,
    sext_shift_21 _ (by omega)]
  rfl

theorem and_high_mask (w : Nat) (hw : w < 2 ^ 32) : w &&& 0xFFFFF000 = w / 2 ^ 12 * 2 ^ 12 := by
  have hM : (0xFFFFF000 : Nat) = (2 ^ 20 - 1) <<< 12 := by decide
  have e : w / 2 ^ 12 * 2 ^ 12 = (w >>> 12) <<< 12 := by
    rw [Nat.shiftLeft_eq, Nat.shiftRight_eq_div_pow]
  rw [e, hM]
  apply Nat.eq_of_testBit_eq
  intro i
  rw [Nat.testBit_and, Nat.testBit_shiftLeft, Nat.testBit_shiftLeft,
    Nat.testBit_two_pow_sub_one, Nat.testBit_shiftRight]
  by_cases h12 : 12 ≤ i
  · have e2 : 12 + (i - 12) = i := by omega
    rw [e2]
    by_cases h32 : i - 12 < 20
    · simp [h12, h32]
    · have hf : w.testBit i = false :=
        Nat.testBit_eq_false_of_lt (Nat.lt_of_lt_of_le hw (Nat.pow_le_pow_right (by decide)
          (by omega)))
      simp [h12, h32, hf]
  · simp [h12]

theorem get_imm_U_eq (w : Nat) (hw : w < 2 ^ 32) :
    get_imm_U w = s32 (field w 31 12 * 2 ^ 12) := by
  rw [get_imm_U, and_high_mask w hw, field]
  have e : w / 2 ^ 12 % 2 ^ (31 + 1 - 12) = w / 2 ^ 12 := by
    apply Nat.mod_eq_of_lt
    norm_num
    omega
  rw [e]

theorem sign_extend_even_range (n x : Nat) (hn : 1 < n) (hx : x < 2 ^ n) (he : x % 2 = 0) :
    sign_extend n x % 2 = 0 ∧ -2 ^ (n - 1) ≤ sign_extend n x ∧
    sign_extend n x ≤ 2 ^ (n - 1) - 2 := by
  obtain ⟨m, rfl⟩ : ∃ m, n = m + 2 := ⟨n - 2, by omega⟩
  have hc : ((2 ^ m : Nat) : Int) = (2 : Int) ^ m := by norm_cast
  rw [sign_extend]
  simp only [Nat.add_one_sub_one, pow_succ] at hx ⊢
  rw [← hc]
  generalize (2 : Nat) ^ m = Q at hx ⊢
  split <;> omega

/-- C22: for every 32-bit word `w`, with `field w hi lo` the field `w[hi:lo]`
and `sign_extend n` the sign extension of an n-bit value: `get_imm_I` is
sext12(w[31:20]); `get_imm_S` is sext12(w[31:25] ++ w[11:7]); `get_imm_B` is
sext13(w[31] ++ w[7] ++ w[30:25] ++ w[11:8] ++ 0); `get_imm_U` is `w` with its
low 12 bits cleared (the field w[31:12] times 2^12, which is w - w mod 2^12),
read as a signed 32-bit value; `get_imm_J` is
sext21(w[31] ++ w[19:12] ++ w[20] ++ w[30:21] ++ 0).  The B immediate is even
and lies in [-4096, 4094]; the J immediate is even and lies in
[-2^20, 2^20 - 2]. -/
theorem C22_immediates (w : Nat) (hw : w < 2 ^ 32) :
    get_imm_I w = sign_extend 12 (field w 31 20) ∧
    get_imm_S w = sign_extend 12 (field w 31 25 * 2 ^ 5 + field w 11 7) ∧
    get_imm_B w = sign_extend 13 (field w 31 31 * 2 ^ 12 + field w 7 7 * 2 ^ 11 +
      field w 30 25 * 2 ^ 5 + field w 11 8 * 2) ∧
    (get_imm_U w = s32 (field w 31 12 * 2 ^ 12) ∧
      field w 31 12 * 2 ^ 12 = w - w % 2 ^ 12) ∧
    get_imm_J w = sign_extend 21 (field w 31 31 * 2 ^ 20 + field w 19 12 * 2 ^ 12 +
      field w 20 20 * 2 ^ 11 + field w 30 21 * 2) ∧
    (get_imm_B w % 2 = 0 ∧ -4096 ≤ get_imm_B w ∧ get_imm_B w ≤ 4094) ∧
    (get_imm_J w % 2 = 0 ∧ -2 ^ 20 ≤ get_imm_J w ∧ get_imm_J w ≤ 2 ^ 20 - 2) := by
  have hB : field w 31 31 * 2 ^ 12 + field w 7 7 * 2 ^ 11 + field w 30 25 * 2 ^ 5 +
      field w 11 8 * 2 < 2 ^ 13 ∧
      (field w 31 31 * 2 ^ 12 + field w 7 7 * 2 ^ 11 + field w 30 25 * 2 ^ 5 +
        field w 11 8 * 2) % 2 = 0 := by
    have h1 : field w 31 31 < 2 := Nat.mod_lt _ (by decide)
    have h2 : field w 7 7 < 2 := Nat.mod_lt _ (by decide)
    have h3 : field w 30 25 < 2 ^ 6 := Nat.mod_lt _ (by decide)
    have h4 : field w 11 8 < 2 ^ 4 := Nat.mod_lt _ (by decide)
    omega
  have hJ : field w 31 31 * 2 ^ 20 + field w 19 12 * 2 ^ 12 + field w 20 20 * 2 ^ 11 +
      field w 30 21 * 2 < 2 ^ 21 ∧
      (field w 31 31 * 2 ^ 20 + field w 19 12 * 2 ^ 12 + field w 20 20 * 2 ^ 11 +
        field w 30 21 * 2) % 2 = 0 := by
    have h1 : field w 31 31 < 2 := Nat.mod_lt _ (by decide)
    have h2 : field w 19 12 < 2 ^ 8 := Nat.mod_lt _ (by decide)
    have h3 : field w 20 20 < 2 := Nat.mod_lt _ (by decide)
    have h4 : field w 30 21 < 2 ^ 10 := Nat.mod_lt _ (by decide)
    omega
  have hU : field w 31 12 * 2 ^ 12 = w - w % 2 ^ 12 := by
    have h : field w 31 12 = w / 2 ^ 12 % 2 ^ 20 := rfl
    omega
  refine ⟨get_imm_I_eq w hw, get_imm_S_eq w hw, get_imm_B_eq w, ⟨get_imm_U_eq w hw, hU⟩,
    get_imm_J_eq w, ?_, ?_⟩
  · rw [get_imm_B_eq w]
    exact sign_extend_even_range 13 _ (by decide) hB.1 hB.2
  · rw [get_imm_J_eq w]
    exact sign_extend_even_range 21 _ (by decide) hJ.1 hJ.2

/-- C22 at a concrete input: the word 0xFE000EE3 is `beq x0,x0,-4`, and in the
word 0xFFFFFFFF every immediate field is all-ones. -/
theorem C22_immediates_witness :
    (0xFE000EE3 < 2 ^ 32 ∧ 0xFFFFFFFF < 2 ^ 32) ∧
    get_imm_B 0xFE000EE3 = -4 ∧ get_imm_I 0xFFFFFFFF = -1 ∧ get_imm_J 0xFFFFFFFF = -2 :=
  ⟨by decide, (C22_immediates 0xFE000EE3 (by decide)).2.2.1.trans (by decide),
    (C22_immediates 0xFFFFFFFF (by decide)).1.trans (by decide),
    (C22_immediates 0xFFFFFFFF (by decide)).2.2.2.2.1.trans (by decide)⟩

theorem ram_guard (a k j : Nat) (ha : a < 2 ^ 32) (hk : k ≤ 3) (hj : j ≤ k)
    (hg : a ≥ PC_START_ADDRESS ∧ add32 (sub32 a PC_START_ADDRESS) k < MEMORY_SIZE) :
    add32 (sub32 a PC_START_ADDRESS) j = a - 0x80000000 + j ∧
    a - 0x80000000 + j < MEMORY_SIZE := by
  rw [add32, sub32, PC_START_ADDRESS, MEMORY_SIZE] at hg
  rw [add32, sub32, PC_START_ADDRESS, MEMORY_SIZE]
  omega

theorem trigger_trap_memory (c t p : Nat) (s : Machine) :
    (trigger_trap c t p s).memory = s.memory := by
  rw [trigger_trap]
  simp only [apply_ite Machine.memory, ite_self]

theorem uart_write_memory (a v n : Nat) (s : Machine) :
    (uart_write a v n s).memory = s.memory := by
  have e : (uart_transmit v s).memory = s.memory := by
    rw [uart_transmit]; split <;> rfl
  rw [uart_write]
  simp only [apply_ite Machine.memory, e, ite_self]

theorem clint_write_memory (a v : Nat) (s : Machine) :
    (clint_write a v s).memory = s.memory := by
  rw [clint_write]
  simp only [apply_ite Machine.memory, ite_self]

theorem plic_write_memory (a v : Nat) (s : Machine) :
    (plic_write a v s).memory = s.memory := by
  rw [plic_write]
  simp only [apply_ite Machine.memory, ite_self]

theorem outside_of_eq (s r : Machine) (h : r.memory = s.memory) : OutsideRamKept s r :=
  fun i _ => by rw [h]

theorem outside_store_byte (x v : Nat) (s r : Machine) (hx : x < MEMORY_SIZE)
    (h : OutsideRamKept s r) : OutsideRamKept s (store_byte x v r) := by
  intro i hi
  have hne : ¬ i = x := by omega
  rw [store_byte_memory, if_neg hne]
  exact h i hi

theorem memory_write_byte_outside (a v p : Nat) (s : Machine) :
    OutsideRamKept s (memory_write_byte a v p s) := by
  rw [memory_write_byte]
  split_ifs with h1 h2
  · exact outside_of_eq _ _ (uart_write_memory _ _ _ _)
  · exact outside_store_byte _ _ _ _ h2.2 (outside_of_eq _ _ rfl)
  · exact outside_of_eq _ _ (trigger_trap_memory _ _ _ _)

theorem memory_write_halfword_outside (a v p : Nat) (s : Machine) (ha : a < 2 ^ 32) :
    OutsideRamKept s (memory_write_halfword a v p s) := by
  rw [memory_write_halfword]
  split_ifs with h1 h2
  · exact outside_of_eq _ _ (trigger_trap_memory _ _ _ _)
  · have g0 := ram_guard a 1 0 ha (by omega) (by omega) h2
    have g1 := ram_guard a 1 1 ha (by omega) (by omega) h2
    exact outside_store_byte _ _ _ _ (g1.1 ▸ g1.2)
      (outside_store_byte _ _ _ _ (g0.1 ▸ g0.2) (outside_of_eq _ _ rfl))
  · exact outside_of_eq _ _ (trigger_trap_memory _ _ _ _)

theorem memory_write_word_outside (a v p : Nat) (s : Machine) (ha : a < 2 ^ 32) :
    OutsideRamKept s (memory_write_word a v p s) := by
  rw [memory_write_word]
  split_ifs with h1 h2 h3 h4
  · exact outside_of_eq _ _ (trigger_trap_memory _ _ _ _)
  · exact outside_of_eq _ _ (clint_write_memory _ _ _)
  · exact outside_of_eq _ _ (plic_write_memory _ _ _)
  · have g0 := ram_guard a 3 0 ha (by omega) (by omega) h4
    have g1 := ram_guard a 3 1 ha (by omega) (by omega) h4
    have g2 := ram_guard a 3 2 ha (by omega) (by omega) h4
    have g3 := ram_guard a 3 3 ha (by omega) (by omega) h4
    exact outside_store_byte _ _ _ _ (g3.1 ▸ g3.2)
      (outside_store_byte _ _ _ _ (g2.1 ▸ g2.2)
        (outside_store_byte _ _ _ _ (g1.1 ▸ g1.2)
          (outside_store_byte _ _ _ _ (g0.1 ▸ g0.2) (outside_of_eq _ _ rfl))))
  · exact outside_of_eq _ _ (trigger_trap_memory _ _ _ _)

theorem uart_read_agree (a : Nat) (s : Machine) (m : Nat → Nat) :
    (uart_read a { s with memory := m }).1 = (uart_read a s).1 := by
  rw [uart_read, uart_read]
  simp only [apply_ite Prod.fst]

theorem memory_read_byte_agree (a p : Nat) (s : Machine) (m : Nat → Nat)
    (hm : RamAgree m s.memory) :
    (memory_read_byte a p { s with memory := m }).1 = (memory_read_byte a p s).1 := by
  rw [memory_read_byte, memory_read_byte]
  split_ifs with h1 h2
  · show (uart_read a _).1 % 256 = (uart_read a s).1 % 256
    rw [uart_read_agree]
  · exact hm _ h2.2
  · rfl

theorem memory_read_halfword_agree (a p : Nat) (s : Machine) (m : Nat → Nat) (ha : a < 2 ^ 32)
    (hm : RamAgree m s.memory) :
    (memory_read_halfword a p { s with memory := m }).1 = (memory_read_halfword a p s).1 := by
  rw [memory_read_halfword, memory_read_halfword]
  split_ifs with h1 h2
  · rfl
  · have g0 := ram_guard a 1 0 ha (by omega) (by omega) h2
    have g1 := ram_guard a 1 1 ha (by omega) (by omega) h2
    have e0 : sub32 a PC_START_ADDRESS < MEMORY_SIZE := by
      have := g0.1 ▸ g0.2
      rw [add32] at this
      have hs : sub32 a PC_START_ADDRESS < 2 ^ 32 := Nat.mod_lt _ (by decide)
      omega
    show (m _ ||| m _ <<< 8) % 2 ^ 16 = _
    rw [hm _ e0, hm _ (g1.1 ▸ g1.2)]
  · rfl

theorem memory_read_word_agree (a p : Nat) (s : Machine) (m : Nat → Nat) (ha : a < 2 ^ 32)
    (hm : RamAgree m s.memory) :
    (memory_read_word a p { s with memory := m }).1 = (memory_read_word a p s).1 := by
  rw [memory_read_word, memory_read_word]
  split_ifs with h1 h2 h3 h4
  · rfl
  · rfl
  · rfl
  · have g0 := ram_guard a 3 0 ha (by omega) (by omega) h4
    have g1 := ram_guard a 3 1 ha (by omega) (by omega) h4
    have g2 := ram_guard a 3 2 ha (by omega) (by omega) h4
    have g3 := ram_guard a 3 3 ha (by omega) (by omega) h4
    show (m _ <<< 0) % 2 ^ 32 ||| (m _ <<< 8) % 2 ^ 32 ||| (m _ <<< 16) % 2 ^ 32 |||
      (m _ <<< 24) % 2 ^ 32 = _
    rw [hm _ (g0.1 ▸ g0.2), hm _ (g1.1 ▸ g1.2), hm _ (g2.1 ▸ g2.2), hm _ (g3.1 ▸ g3.2)]
  · rfl

theorem fetch_agree (s : Machine) (m : Nat → Nat) (hp : s.pc < 2 ^ 32)
    (hm : RamAgree m s.memory) :
    (fetch_instruction_from_pc { s with memory := m }).1 = (fetch_instruction_from_pc s).1 := by
  rw [fetch_instruction_from_pc, fetch_instruction_from_pc]
  split_ifs with h1
  · rfl
  · exact memory_read_word_agree s.pc s.pc s m hp hm

theorem load_loop_outside (fuel : Nat) (p : List Char) (address : Nat) (b : Bool)
    (s r : Machine) (h : load_loop fuel p address b s = some r) : OutsideRamKept s r := by
  induction fuel generalizing p address b s with
  | zero => rw [load_loop] at h; exact absurd h (by simp)
  | succ n ih =>
    rw [load_loop] at h
    split at h
    · rw [Option.some.injEq] at h; subst h; split_ifs <;> exact outside_of_eq _ _ rfl
    · split_ifs at h with h1 h2 h3 h4 h5
      all_goals first
        | (rw [Option.some.injEq] at h; subst h; exact outside_of_eq _ _ rfl)
        | exact ih _ _ _ _ h
        | exact fun i hi => (ih _ _ _ _ h i hi).trans rfl
        | exact fun i hi => (ih _ _ _ _ h i hi).trans
            (outside_store_byte _ _ _ _ h5.2 (outside_of_eq _ _ rfl) i hi)

theorem load_program_outside (hex_string : List Char) (s : Machine) :
    OutsideRamKept s (load_program_from_hex_string hex_string s) := by
  rw [load_program_from_hex_string]
  cases h : load_loop (hex_string.length + 1) hex_string 0 false s with
  | none => exact outside_of_eq _ _ rfl
  | some r => exact load_loop_outside _ _ _ _ _ _ h

/-- C29: for every 32-bit address `a` (and 32-bit pc) the RAM accesses stay
inside the 131072-byte buffer.  The unsigned range test cannot wrap around:
when `a >= 0x80000000` and `a - 0x80000000 + k < MEMORY_SIZE` hold in 32-bit
arithmetic for some k <= 3, every index `a - 0x80000000 + j` with j <= k is
computed without wrap-around and is less than MEMORY_SIZE.  Hence
`memory_write_byte`, `memory_write_halfword`, `memory_write_word` and
`load_program_from_hex_string` change no cell at an index of MEMORY_SIZE or
more, and the values returned by `memory_read_byte`, `memory_read_halfword`,
`memory_read_word` and `fetch_instruction_from_pc` do not depend on any cell at
an index of MEMORY_SIZE or more: the part of the total memory function beyond
the buffer is never reached. -/
theorem C29_ram_index_in_bounds (a v p : Nat) (s : Machine) (hex_string : List Char)
    (ha : a < 2 ^ 32) (hpc : s.pc < 2 ^ 32) :
    MEMORY_SIZE = 131072 ∧
    (∀ k j, k ≤ 3 → j ≤ k →
      a ≥ PC_START_ADDRESS ∧ add32 (sub32 a PC_START_ADDRESS) k < MEMORY_SIZE →
      add32 (sub32 a PC_START_ADDRESS) j = a - 0x80000000 + j ∧
      a - 0x80000000 + j < MEMORY_SIZE) ∧
    (OutsideRamKept s (memory_write_byte a v p s) ∧
      OutsideRamKept s (memory_write_halfword a v p s) ∧
      OutsideRamKept s (memory_write_word a v p s) ∧
      OutsideRamKept s (load_program_from_hex_string hex_string s)) ∧
    (∀ m, RamAgree m s.memory →
      (memory_read_byte a p { s with memory := m }).1 = (memory_read_byte a p s).1 ∧
      (memory_read_halfword a p { s with memory := m }).1 = (memory_read_halfword a p s).1 ∧
      (memory_read_word a p { s with memory := m }).1 = (memory_read_word a p s).1 ∧
      (fetch_instruction_from_pc { s with memory := m }).1 =
        (fetch_instruction_from_pc s).1) :=
  ⟨rfl, fun k j hk hj hg => ram_guard a k j ha hk hj hg,
    ⟨memory_write_byte_outside a v p s, memory_write_halfword_outside a v p s ha,
      memory_write_word_outside a v p s ha, load_program_outside hex_string s⟩,
    fun m hm => ⟨memory_read_byte_agree a p s m hm, memory_read_halfword_agree a p s m ha hm,
      memory_read_word_agree a p s m ha hm, fetch_agree s m hpc hm⟩⟩

/-- C29 at a concrete input: a word store to the last word of RAM, 0x8001FFFC,
leaves the cell at index 131072 as it was, and the indices of its four bytes
are 131068 to 131071. -/
theorem C29_ram_index_in_bounds_witness :
    (0x8001FFFC < 2 ^ 32 ∧ power_on.pc < 2 ^ 32) ∧
    (memory_write_word 0x8001FFFC 0xDDCCBBAA 0 power_on).memory 131072 =
      power_on.memory 131072 ∧
    add32 (sub32 0x8001FFFC PC_START_ADDRESS) 3 = 131071 :=
  ⟨by decide,
    (C29_ram_index_in_bounds 0x8001FFFC 0xDDCCBBAA 0 power_on [] (by decide)
      (by decide)).2.2.1.2.2.1 131072 (by decide),
    ((C29_ram_index_in_bounds 0x8001FFFC 0xDDCCBBAA 0 power_on [] (by decide)
      (by decide)).2.1 3 3 (by decide) (by decide) (by decide)).1⟩

end Poxim
